import Mathlib

/-!
Silcos kernel: the zone allocator of CoreX/Memory/ZoneManager.cpp, the slab
object cache of KernelHost/Source/Memory/KObjectManager.cpp and the linked
list of Util/LinkedList.cpp.

A shallow embedding of the zone allocator of the Silcos kernel and the
properties of its status / action state machine, of the zone search
`ZoneAllocator::getZone` and of `ZoneAllocator::allocateBlock`; of the slab
caches behind `KNew` and `KDelete`; and of the six functions on linked lists.

Conventions of the embedding

* `unsigned long` is the 32-bit word of the IA32 build (`Types.h`,
  `BITS_PER_LONG 32`): values are natural numbers, and every C operation that
  can leave the word is reduced modulo `ULONG_MOD`.
* A `struct Zone *` is an index into the zone table; a nullable pointer is an
  `Option Nat`, `none` being `NULL`.
* A call either returns, dereferences a pointer that is `NULL` or outside its
  table, spins for ever on a held lock, or exhausts the fuel of the model.
-/

namespace Silcos

/-! ## Machine words -/

/-- Number of values of an `unsigned long` (IA32: 32 bits). -/
def ULONG_MOD : Nat := 4294967296

/-- Unsigned subtraction `a - b` of two machine words. -/
def usub (a b : Nat) : Nat := (a + (ULONG_MOD - b % ULONG_MOD)) % ULONG_MOD

/-- Unsigned addition `a + b` of two machine words. -/
def uadd (a b : Nat) : Nat := (a + b) % ULONG_MOD

/-- Unsigned multiplication `a * b` of two machine words. -/
def umul (a b : Nat) : Nat := (a * b) % ULONG_MOD

/-! ## Zone states and actions -/

/-- The enum `ZoneState` of ZoneManager.cpp. -/
inductive ZoneState where
  | ALLOCABLE
  | RESERVE_OVERLAP
  | BARRIER_OVERLAP
  | LOW_ON_MEMORY
  deriving DecidableEq, Repr

/-- The enumerator values of `ZoneState`. -/
def ZoneState.toNat : ZoneState → Nat
  | .ALLOCABLE => 10
  | .RESERVE_OVERLAP => 11
  | .BARRIER_OVERLAP => 12
  | .LOW_ON_MEMORY => 1001

/-- The enum `AllocationAction` of ZoneManager.cpp. -/
inductive AllocationAction where
  | ALLOCATE
  | GOTO_NEXT
  | RET_FAIL
  deriving DecidableEq, Repr

/-- The `struct Zone` fields the allocator reads and writes.  `nextZone` is the
ring link of the circular list node the zone starts with, `controlLock` is
`true` while the spinlock is held, `memoryAllocator` is the state of the
buddy allocator of the zone. -/
structure Zone (β : Type) where
  memorySize : Nat
  memoryAllocated : Nat
  memoryReserved : Nat
  preferenceIndex : Nat
  nextZone : Option Nat
  controlLock : Bool
  memoryAllocator : β
  deriving DecidableEq, Repr

/-- The declarations of the header that ZoneManager.cpp includes and that
decide how a flag is tested: the macro `FLAG_SET` and the three flag constants
used by `getAction`.  They are parameters of the embedding. -/
structure FlagDecls where
  FLAG_SET : Nat → Nat → Bool
  ATOMIC : Nat
  NO_FAILURE : Nat
  ZONE_REQUIRED : Nat

/-- The function `getStatus` of ZoneManager.cpp. -/
def getStatus {β : Type} (requiredMemory : Nat) (searchZone : Zone β) : ZoneState :=
  let generalMemoryAvail := usub searchZone.memorySize searchZone.memoryAllocated
  if requiredMemory > usub searchZone.memorySize searchZone.memoryAllocated then
    .LOW_ON_MEMORY
  else
    let generalMemoryAvail := usub generalMemoryAvail searchZone.memoryReserved
    if requiredMemory ≤ generalMemoryAvail then
      .ALLOCABLE
    else
      let generalMemoryAvail :=
        uadd generalMemoryAvail ((umul 7 searchZone.memoryReserved) >>> 3)
      if requiredMemory ≤ generalMemoryAvail then
        .RESERVE_OVERLAP
      else
        .BARRIER_OVERLAP

/-- The tail of `getAction`, reached by every `break` and by the states the
switch has no case for. -/
def getAction.skip (F : FlagDecls) (allocFlags : Nat) : AllocationAction :=
  if F.FLAG_SET allocFlags F.ZONE_REQUIRED then .RET_FAIL else .GOTO_NEXT

/-- The function `getAction` of ZoneManager.cpp.  In the case `RESERVE_OVERLAP`
the source tests the two flags on `allocState`, not on `allocFlags`. -/
def getAction (F : FlagDecls) (allocState : ZoneState) (allocFlags : Nat) :
    AllocationAction :=
  match allocState with
  | .ALLOCABLE => .ALLOCATE
  | .RESERVE_OVERLAP =>
    if F.FLAG_SET allocState.toNat F.ATOMIC || F.FLAG_SET allocState.toNat F.NO_FAILURE then
      .ALLOCATE
    else
      getAction.skip F allocFlags
  | .BARRIER_OVERLAP =>
    if F.FLAG_SET allocFlags F.NO_FAILURE then
      .ALLOCATE
    else
      getAction.skip F allocFlags
  | .LOW_ON_MEMORY => getAction.skip F allocFlags

/-- The classification of a request as the table of the specification words
it, over the natural numbers: `free = memory_size - memory_allocated`. -/
def tableStatus (r memory_size memory_allocated memory_reserved : Nat) : ZoneState :=
  let free := memory_size - memory_allocated
  if r > free then .LOW_ON_MEMORY
  else if r ≤ free - memory_reserved then .ALLOCABLE
  else if r ≤ (free - memory_reserved) + 7 * memory_reserved / 8 then .RESERVE_OVERLAP
  else .BARRIER_OVERLAP

/-- Modelled from the spec: the macro `FLAG_SET` and the flag constants of the
header outside the sources, the flags being bits of the flag word.  Here the
constants are masks: `FLAG_SET(x, f)` is `x & f` being non-zero, with
`ATOMIC = 1`, `NO_FAILURE = 2`, `ZONE_REQUIRED = 4`. -/
def maskFlags : FlagDecls where
  FLAG_SET := fun x f => x &&& f != 0
  ATOMIC := 1
  NO_FAILURE := 2
  ZONE_REQUIRED := 4

/-- Modelled from the spec: the macro `FLAG_SET` and the flag constants of the
header outside the sources, the flags being bits of the flag word.  Here the
constants are bit positions: `FLAG_SET(x, f)` is bit `f` of `x`, with
`ATOMIC = 0`, `NO_FAILURE = 1`, `ZONE_REQUIRED = 2`. -/
def offsetFlags : FlagDecls where
  FLAG_SET := fun x f => (x >>> f) &&& 1 != 0
  ATOMIC := 0
  NO_FAILURE := 1
  ZONE_REQUIRED := 2

/-- A zone with the given counters, alone in its ring, unlocked. -/
def mkZone (size allocated reserved pref : Nat) (next : Option Nat) : Zone Unit :=
  { memorySize := size, memoryAllocated := allocated, memoryReserved := reserved,
    preferenceIndex := pref, nextZone := next, controlLock := false,
    memoryAllocator := () }

/-! ## The zone allocator -/

/-- A `struct ZonePreference`: `ClnMain` is the main pointer of its circular
list `ZoneList`, the head of the ring of zones of this preference. -/
structure ZonePreference where
  ClnMain : Option Nat
  deriving DecidableEq, Repr

/-- A call of one of the two assembly routines of Synch/Spinlock.h on the
lock of the zone with the given index. -/
inductive LockEvent where
  | SpinLock (zone : Nat)
  | SpinUnlock (zone : Nat)
  deriving DecidableEq, Repr

/-- The members of `ZoneAllocator` the search uses, and the sequence of
spinlock calls made so far. -/
structure ZoneAllocator (β : Type) where
  prefTable : List ZonePreference
  zoneTable : List (Zone β)
  lockLog : List LockEvent
  deriving DecidableEq, Repr

/-- How a call ends. -/
inductive Run (α : Type) where
  | ret (a : α)
  | fault
  | spin
  | timeout
  deriving DecidableEq, Repr

/-- Modelled from the spec: the assembly routine `SpinLock` of
Synch/Spinlock.h, a busy-wait test-and-set lock.  On a free lock it takes the
lock; on a held lock the caller, alone in this sequential model, never
returns. -/
def SpinLock {β : Type} (s : ZoneAllocator β) (zone : Option Nat) :
    Run (ZoneAllocator β) :=
  match zone with
  | none => .fault
  | some i =>
    match s.zoneTable[i]? with
    | none => .fault
    | some z =>
      if z.controlLock then .spin
      else .ret { s with
        zoneTable := s.zoneTable.set i { z with controlLock := true }
        lockLog := s.lockLog ++ [.SpinLock i] }

/-- Modelled from the spec: the assembly routine `SpinUnlock` of
Synch/Spinlock.h, which releases the lock. -/
def SpinUnlock {β : Type} (s : ZoneAllocator β) (zone : Option Nat) :
    Run (ZoneAllocator β) :=
  match zone with
  | none => .fault
  | some i =>
    match s.zoneTable[i]? with
    | none => .fault
    | some z =>
      .ret { s with
        zoneTable := s.zoneTable.set i { z with controlLock := false }
        lockLog := s.lockLog ++ [.SpinUnlock i] }

/-- How the `do ... while` loop of `getZone` over one ring ends: by one of the
two `return` statements, or by coming back to `trialZero`. -/
inductive RingExit where
  | returned (zone : Option Nat)
  | wentRound
  deriving DecidableEq, Repr

/-- The `do ... while(trialZone != trialZero)` loop of `getZone`. -/
def getZone.ring {β : Type} (F : FlagDecls) (blockOrder allocFlags : Nat)
    (trialZero : Option Nat) :
    Nat → Option Nat → ZoneAllocator β → Run (RingExit × ZoneAllocator β)
  | 0, _, _ => .timeout
  | fuel + 1, trialZone, s =>
    match SpinLock s trialZone with
    | .fault => .fault
    | .spin => .spin
    | .timeout => .timeout
    | .ret s1 =>
      match trialZone.bind (fun i => s1.zoneTable[i]?) with
      | none => .fault
      | some z =>
        match getAction F (getStatus blockOrder z) allocFlags with
        | .ALLOCATE => .ret (.returned trialZone, s1)
        | .RET_FAIL => .ret (.returned none, s1)
        | .GOTO_NEXT =>
          match SpinUnlock s1 trialZone with
          | .fault => .fault
          | .spin => .spin
          | .timeout => .timeout
          | .ret s2 =>
            let trialZone := z.nextZone
            if trialZone != trialZero then
              getZone.ring F blockOrder allocFlags trialZero fuel trialZone s2
            else
              .ret (.wentRound, s2)

/-- The `while(testPref >= basePref)` loop of `getZone`. -/
def getZone.prefs {β : Type} (F : FlagDecls) (blockOrder basePref allocFlags : Nat)
    (ringFuel : Nat) :
    Nat → Nat → Option Nat → ZoneAllocator β → Run (Option Nat × ZoneAllocator β)
  | 0, _, _, _ => .timeout
  | fuel + 1, testPref, trialZone, s =>
    if testPref ≥ basePref then
      match getZone.ring F blockOrder allocFlags trialZone ringFuel trialZone s with
      | .fault => .fault
      | .spin => .spin
      | .timeout => .timeout
      | .ret (.returned zone, s1) => .ret (zone, s1)
      | .ret (.wentRound, s1) =>
        let testPref := usub testPref 1
        match s1.prefTable[testPref]? with
        | none => .fault
        | some pref =>
          getZone.prefs F blockOrder basePref allocFlags ringFuel fuel testPref
            pref.ClnMain s1
    else
      .ret (none, s)

/-- The method `ZoneAllocator::getZone`: the zone returned (`none` for `NULL`)
and the allocator afterwards.  `fuel` bounds the number of rings searched and
the number of zones tried in one ring. -/
def getZone {β : Type} (F : FlagDecls) (s : ZoneAllocator β)
    (blockOrder basePref allocFlags zonePref : Nat) (fuel : Nat) :
    Run (Option Nat × ZoneAllocator β) :=
  match s.zoneTable[zonePref]? with
  | none => .fault
  | some z =>
    getZone.prefs F blockOrder basePref allocFlags fuel fuel z.preferenceIndex
      (some zonePref) s

/-- Modelled from the spec: the macro `SIZEOF_ORDER` of the buddy allocator
header, the number of pages `2^order` of a block, as a machine word. -/
def SIZEOF_ORDER (order : Nat) : Nat := 2 ^ order % ULONG_MOD

/-- The method `ZoneAllocator::allocateBlock`.  The buddy allocator of a zone
is the parameter `buddyAllocate`: from the state of the allocator and the
order it gives the block (`none` for `NULL`) and the state afterwards. -/
def allocateBlock {β : Type} (F : FlagDecls) (buddyAllocate : β → Nat → Option Nat × β)
    (s : ZoneAllocator β) (blockOrder basePref zonePref allocFlags : Nat) (fuel : Nat) :
    Run (Option Nat × ZoneAllocator β) :=
  match getZone F s blockOrder basePref allocFlags zonePref fuel with
  | .fault => .fault
  | .spin => .spin
  | .timeout => .timeout
  | .ret (none, s1) => .ret (none, s1)
  | .ret (some i, s1) =>
    match s1.zoneTable[i]? with
    | none => .fault
    | some allocatingZone =>
      let blockRequired := (buddyAllocate allocatingZone.memoryAllocator blockOrder).1
      let allocatingZone := { allocatingZone with
        memoryAllocator := (buddyAllocate allocatingZone.memoryAllocator blockOrder).2
        memoryAllocated := uadd allocatingZone.memoryAllocated (SIZEOF_ORDER blockOrder) }
      match SpinUnlock { s1 with zoneTable := s1.zoneTable.set i allocatingZone } (some i) with
      | .fault => .fault
      | .spin => .spin
      | .timeout => .timeout
      | .ret s2 => .ret (blockRequired, s2)

/-- The fields of a `struct BuddyBlock`, the descriptor of a block, that
`freeBlock` reads: the index of the owning zone and the order of the block. -/
structure BuddyBlock where
  ZnOffset : Nat
  Order : Nat
  deriving DecidableEq, Repr

/-- The method `ZoneAllocator::freeBlock`.  The buddy allocator of a zone is
the parameter `buddyFree`: from the state of the allocator and the descriptor
of the block it gives the state afterwards and the descriptor afterwards,
whose order coalescing may have raised.  The result is the allocator and the
descriptor after the call. -/
def freeBlock {β : Type} (buddyFree : β → BuddyBlock → β × BuddyBlock)
    (s : ZoneAllocator β) (blockGiven : BuddyBlock) :
    Run (ZoneAllocator β × BuddyBlock) :=
  match s.zoneTable[blockGiven.ZnOffset]? with
  | none => .fault
  | some owner =>
    let owner := { owner with
      memoryAllocated := usub owner.memoryAllocated (SIZEOF_ORDER blockGiven.Order) }
    let freed := buddyFree owner.memoryAllocator blockGiven
    .ret ({ s with
      zoneTable := s.zoneTable.set blockGiven.ZnOffset
        { owner with memoryAllocator := freed.1 } }, freed.2)

/-! ## The visiting order of the search, in the words of the specification -/

/-- Whether the zone with index `i` is one the search stops at with a zone to
return: its action for the request is `ALLOCATE`. -/
def allocates {β : Type} (F : FlagDecls) (zt : List (Zone β)) (blockOrder allocFlags : Nat)
    (i : Nat) : Bool :=
  match zt[i]? with
  | none => false
  | some z => decide (getAction F (getStatus blockOrder z) allocFlags = .ALLOCATE)

/-- The list `l` is a walk along the ring links that ends where the ring
closes: every listed zone exists and is unlocked, the link of each zone is the
next zone of the list, no zone after the first is `trialZero`, and the link of
the last zone is `trialZero`. -/
def RingPath {β : Type} (zt : List (Zone β)) (trialZero : Option Nat) : List Nat → Prop
  | [] => False
  | [a] => ∃ z, zt[a]? = some z ∧ z.controlLock = false ∧ z.nextZone = trialZero
  | a :: b :: rest => ∃ z, zt[a]? = some z ∧ z.controlLock = false ∧
      z.nextZone = some b ∧ some b ≠ trialZero ∧ RingPath zt trialZero (b :: rest)

/-- The list of rings the search goes through from preference `p` down to
`basePref`: the first ring is the circular ring that starts at `start`, its
zones have preference `p`; below it come the rings of the preferences
`p - 1, ..., basePref`, each starting at the head `ClnMain` of its entry of the
preference table. -/
def PrefRings {β : Type} (zt : List (Zone β)) (prefTable : List ZonePreference)
    (basePref : Nat) : Nat → Option Nat → List (List Nat) → Prop
  | _, _, [] => False
  | p, start, [l] =>
    p = basePref ∧ p < ULONG_MOD ∧ l.head? = start ∧ RingPath zt start l ∧
      (∀ a ∈ l, ∃ z, zt[a]? = some z ∧ z.preferenceIndex = p)
  | p, start, l :: l₂ :: ls =>
    basePref < p ∧ p < ULONG_MOD ∧ l.head? = start ∧ RingPath zt start l ∧
      (∀ a ∈ l, ∃ z, zt[a]? = some z ∧ z.preferenceIndex = p) ∧
      ∃ pe, prefTable[p - 1]? = some pe ∧
        PrefRings zt prefTable basePref (p - 1) pe.ClnMain (l₂ :: ls)

/-- The spinlock calls of trying and leaving each zone of `l` in turn. -/
def skipLog (l : List Nat) : List LockEvent :=
  l.flatMap (fun i => [.SpinLock i, .SpinUnlock i])

/-- The zone table with the lock of zone `i` held. -/
def lockZone {β : Type} (zt : List (Zone β)) (i : Nat) : List (Zone β) :=
  match zt[i]? with
  | none => zt
  | some z => zt.set i { z with controlLock := true }

/-- The allocator after the zones of `l` were tried and left. -/
def skipped {β : Type} (s : ZoneAllocator β) (l : List Nat) : ZoneAllocator β :=
  { s with lockLog := s.lockLog ++ skipLog l }

/-- The allocator after zone `i` was locked and not unlocked. -/
def locked {β : Type} (s : ZoneAllocator β) (i : Nat) : ZoneAllocator β :=
  { s with zoneTable := lockZone s.zoneTable i, lockLog := s.lockLog ++ [.SpinLock i] }

/-- A zone without its lock: what the search does not change. -/
def Zone.unlock {β : Type} (z : Zone β) : Zone β := { z with controlLock := false }

/-- The three page counters of a zone: size, reserve, allocated. -/
def Zone.counters {β : Type} (z : Zone β) : Nat × Nat × Nat :=
  (z.memorySize, z.memoryReserved, z.memoryAllocated)

/-- The second allocator differs from the first in zone locks and in the log of
spinlock calls only. -/
def SameButLocks {β : Type} (s s₁ : ZoneAllocator β) : Prop :=
  s₁.prefTable = s.prefTable ∧ s₁.zoneTable.map Zone.unlock = s.zoneTable.map Zone.unlock

/-! ## Configurations used as examples -/

/-- The preference-fallback layout of the specification: zone 0 is the only
zone of preference 0 and is empty, zone 1 is the only zone of preference 1 and
is full; each zone has 8 pages and no reserve. -/
def fallbackLayout : ZoneAllocator Unit where
  prefTable := [⟨some 0⟩, ⟨some 1⟩]
  zoneTable := [mkZone 8 0 0 0 (some 0), mkZone 8 8 0 1 (some 1)]
  lockLog := []

/-- One zone of 8 pages, all allocated, alone in the ring of preference 0. -/
def oneFullZone : ZoneAllocator Unit where
  prefTable := [⟨some 0⟩]
  zoneTable := [mkZone 8 8 0 0 (some 0)]
  lockLog := []

/-- One zone of 4 pages with 2 allocated, alone in the ring of preference 0:
the layout of a zone whose pages 1 and 3 are in use, so that 2 pages are free
and no block of order 1 is. -/
def fragmentedZone : ZoneAllocator Unit where
  prefTable := [⟨some 0⟩]
  zoneTable := [mkZone 4 2 0 0 (some 0)]
  lockLog := []

/-- One zone of one page, which is allocated, alone in the ring of
preference 0. -/
def tinyFullZone : ZoneAllocator Unit where
  prefTable := [⟨some 0⟩]
  zoneTable := [mkZone 1 1 0 0 (some 0)]
  lockLog := []

/-- The reserve scenario of the specification: one zone of 100 pages with 80
allocated (20 free) and 16 reserved, alone in the ring of preference 0. -/
def reserveLayout : ZoneAllocator Unit where
  prefTable := [⟨some 0⟩]
  zoneTable := [mkZone 100 80 16 0 (some 0)]
  lockLog := []

/-- A buddy allocator that has no block to give. -/
def buddyEmpty : Unit → Nat → Option Nat × Unit := fun _ _ => (none, ())

/-- A buddy allocator that gives the block with descriptor 0. -/
def buddyGives : Unit → Nat → Option Nat × Unit := fun _ _ => (some 0, ())

/-- A buddy allocator that takes a block back and coalesces it with its buddy:
the order of the descriptor is one more afterwards. -/
def buddyCoalesces : Unit → BuddyBlock → Unit × BuddyBlock :=
  fun _ b => ((), { b with Order := b.Order + 1 })

/-! ## The slab object cache (KernelHost/Source/Memory/KObjectManager.cpp) -/

/-- Sequencing of calls: the second runs on what the first returned. -/
def Run.bind {α β : Type} (x : Run α) (f : α → Run β) : Run β :=
  match x with
  | .ret a => f a
  | .fault => .fault
  | .spin => .spin
  | .timeout => .timeout

/-- Bitwise complement `~a` of a machine word. -/
def unot (a : Nat) : Nat := ULONG_MOD - 1 - a % ULONG_MOD

/-- The constants `TRUE` and `FALSE` of Types.h. -/
def TRUE : Nat := 1

/-- The constant `FALSE` of Types.h. -/
def FALSE : Nat := 0

/-- The constants, sizes and addresses of statics that KObjectManager.cpp takes
from headers outside the sources.  They are parameters of the embedding:
the page size and its shift, `sizeof(Slab)`, `sizeof(ObjectInfo)`, the cache
line alignment, the allocation flags, the addresses of the statics
`tObjectInfo`, `tSlab` and of their names, and the two lookups of the frame
manager that `ObDestroySlab` uses: `GetFrames(address, count, NULL)`, the
frame descriptor `MMFRAME *` of the page at an address, and
`FRADDRESS(mmFrame)`, the address of the frame of a descriptor. -/
structure SlabDecls where
  KPGSIZE : Nat
  KPGOFFSET : Nat
  sizeofSlab : Nat
  sizeofObjectInfo : Nat
  L1_CACHE_ALIGN : Nat
  KM_SLEEP : Nat
  FLG_ATOMIC : Nat
  FLG_NOCACHE : Nat
  KF_NOINTR : Nat
  tObjectInfo : Nat
  tSlab : Nat
  nmObjectInfo : Nat
  nmSlab : Nat
  GetFrames : Nat → Nat → Nat
  FRADDRESS : Nat → Nat

/-- Where `AddCElement` puts the node: `CFIRST` or `CLAST`. -/
inductive CPosition where
  | CFIRST
  | CLAST
  deriving DecidableEq, Repr

/-- Modelled from the spec: the circular doubly-linked list with a main pointer
and a count, of the circular-list sources outside `src/`.  The nodes are
listed from the main node round the ring; `lMain` is the first of them (`NULL`
when there is none) and `count` their number. -/
structure CircularList where
  nodes : List Nat
  deriving DecidableEq, Repr

/-- The member `lMain` of a circular list: the main node, 0 for `NULL`. -/
def CircularList.lMain (l : CircularList) : Nat := l.nodes.headD 0

/-- The member `count` of a circular list. -/
def CircularList.count (l : CircularList) : Nat := l.nodes.length

/-- Modelled from the spec: `AddCElement` of the circular-list sources outside
`src/`: with `CFIRST` the node becomes the main node, with `CLAST` it becomes
the last node of the ring. -/
def AddCElement (node : Nat) (position : CPosition) (l : CircularList) : CircularList :=
  match position with
  | .CFIRST => ⟨node :: l.nodes⟩
  | .CLAST => ⟨l.nodes ++ [node]⟩

/-- Modelled from the spec: `RemoveCElement` of the circular-list sources
outside `src/`: the node is unlinked from the ring. -/
def RemoveCElement (node : Nat) (l : CircularList) : CircularList :=
  ⟨l.nodes.erase node⟩

/-- Modelled from the spec: `PushElement` of the intrusive stack (LIFO) of the
stack sources outside `src/`; a stack is the list of its elements from the
head: `Head` is the first of them and the link `Next` of an element is the
element after it, `NULL` after the last. -/
def PushElement (element : Nat) (stack : List Nat) : List Nat := element :: stack

/-- Modelled from the spec: `PopElement` of the intrusive stack: the head
(`NULL`, that is 0, on an empty stack) and the stack without it. -/
def PopElement (stack : List Nat) : Nat × List Nat :=
  match stack with
  | [] => (0, [])
  | head :: rest => (head, rest)

/-- A `struct Slab`, the header at the end of the page of a slab. -/
structure Slab where
  colouringOffset : Nat
  bufferStack : List Nat
  freeCount : Nat
  deriving DecidableEq, Repr

/-- A `struct ObjectInfo`, the descriptor of the cache of one object type.
The function pointers `ctor` and `dtor` are addresses, 0 for `NULL`; `lock`
is `true` while the spinlock is held. -/
structure ObjectInfo where
  name : Nat
  rawSize : Nat
  colorScheme : Nat
  align : Nat
  bufferSize : Nat
  bufferPerSlab : Nat
  bufferMargin : Nat
  ctor : Nat
  dtor : Nat
  callCount : Nat
  emptySlab : Nat
  partialList : CircularList
  fullList : CircularList
  lock : Bool
  deriving DecidableEq, Repr

/-- An `ObjectInfo` in zeroed memory. -/
def ObjectInfo.zero : ObjectInfo :=
  { name := 0, rawSize := 0, colorScheme := 0, align := 0, bufferSize := 0,
    bufferPerSlab := 0, bufferMargin := 0, ctor := 0, dtor := 0, callCount := 0,
    emptySlab := 0, partialList := ⟨[]⟩, fullList := ⟨[]⟩, lock := false }

/-- The calls the object manager makes to code outside KObjectManager.cpp, and
the interrupt switches `__cli` and `__sti`. -/
inductive ObEvent where
  | cli
  | sti
  | SpinLock (metaInfo : Nat)
  | SpinUnlock (metaInfo : Nat)
  | KiPagesAllocate (flags pageAddress : Nat)
  | EnsureUsability (pageAddress flags : Nat)
  | memsetf (pageAddress : Nat)
  | ctor (object : Nat)
  | dtor (object : Nat)
  | HashCode (pageAddress metaInfo : Nat)
  | GetFrames (pageAddress count : Nat)
  | KeFrameFree (frameAddress : Nat)
  | EnsureFaulty (pageAddress : Nat)
  | KiPagesFree (pageAddress : Nat)
  | DbgLine
  deriving DecidableEq, Repr

/-- The memory the object manager works on: the flag `oballocNormaleUse`, the
`ObjectInfo` structs and the `Slab` headers by address, the list `tList` of
the object types, and the calls made so far. -/
structure ObState where
  oballocNormaleUse : Bool
  types : Nat → Option ObjectInfo
  slabs : Nat → Option Slab
  tList : CircularList
  obLog : List ObEvent

/-- The state with the `ObjectInfo` at address `a` written. -/
def ObState.setType (st : ObState) (a : Nat) (info : ObjectInfo) : ObState :=
  { st with types := fun x => if x = a then some info else st.types x }

/-- The state with the `Slab` at address `a` written. -/
def ObState.setSlab (st : ObState) (a : Nat) (slab : Slab) : ObState :=
  { st with slabs := fun x => if x = a then some slab else st.slabs x }

/-- The state with the calls `es` made. -/
def ObState.emit (st : ObState) (es : List ObEvent) : ObState :=
  { st with obLog := st.obLog ++ es }

/-- Modelled from the spec: `SpinLock(&metaInfo->lock)`, the busy-wait lock of
Synch/Spinlock.h on the lock of a cache. -/
def cacheSpinLock (st : ObState) (metaInfo : Nat) : Run ObState :=
  match st.types metaInfo with
  | none => .fault
  | some info =>
    if info.lock then .spin
    else .ret ((st.setType metaInfo { info with lock := true }).emit [.SpinLock metaInfo])

/-- Modelled from the spec: `SpinUnlock(&metaInfo->lock)` on the lock of a
cache. -/
def cacheSpinUnlock (st : ObState) (metaInfo : Nat) : Run ObState :=
  match st.types metaInfo with
  | none => .fault
  | some info =>
    .ret ((st.setType metaInfo { info with lock := false }).emit [.SpinUnlock metaInfo])

/-- The macro `BUFFER_SIZE` of KObjectManager.cpp. -/
def BUFFER_SIZE (ObSize ObAlign : Nat) : Nat :=
  if ObSize % ObAlign ≠ 0 then usub (uadd ObSize ObAlign) (ObSize % ObAlign) else ObSize

/-- The function `obSetupAllocator`: the fields it gives the two statics
`tObjectInfo` and `tSlab`, whose other fields stay as they are. -/
def obSetupAllocator (D : SlabDecls) (st : ObState) : ObState :=
  let tObjectInfo := (st.types D.tObjectInfo).getD ObjectInfo.zero
  let st := st.setType D.tObjectInfo { tObjectInfo with
    name := D.nmObjectInfo
    rawSize := D.sizeofObjectInfo
    colorScheme := 0
    align := D.L1_CACHE_ALIGN
    bufferSize := BUFFER_SIZE D.sizeofObjectInfo D.L1_CACHE_ALIGN
    bufferPerSlab := usub D.KPGSIZE D.sizeofSlab / BUFFER_SIZE D.sizeofObjectInfo D.L1_CACHE_ALIGN
    bufferMargin := usub D.KPGSIZE D.sizeofSlab % BUFFER_SIZE D.sizeofObjectInfo D.L1_CACHE_ALIGN }
  let tSlab := (st.types D.tSlab).getD ObjectInfo.zero
  st.setType D.tSlab { tSlab with
    name := D.nmSlab
    rawSize := D.sizeofSlab
    colorScheme := 0
    align := 0
    bufferSize := D.sizeofSlab
    bufferPerSlab := usub D.KPGSIZE D.sizeofSlab / D.sizeofSlab
    bufferMargin := usub D.KPGSIZE D.sizeofSlab % D.sizeofSlab }

/-- The two `while(obPtr < bufferFence)` loops of `ObCreateSlab`, which differ
in the call of the constructor only: the stack of buffers and the calls of
the constructor made, `none` when the fuel runs out. -/
def ObCreateSlab.fill (bufferSize bufferFence : Nat) (construct : Bool) :
    Nat → Nat → List Nat → List ObEvent → Option (List Nat × List ObEvent)
  | 0, _, _, _ => none
  | fuel + 1, obPtr, bufferStack, calls =>
    if obPtr < bufferFence then
      ObCreateSlab.fill bufferSize bufferFence construct fuel (uadd obPtr bufferSize)
        (PushElement obPtr bufferStack)
        (if construct then calls ++ [.ctor obPtr] else calls)
    else
      some (bufferStack, calls)

/-- The function `ObCreateSlab`.  The answer of the page-frame manager to
`KiPagesAllocate(0, ZONE_KOBJECT, slFlags)` is the argument `pageAddress`
(0 when it has no page); `fuel` bounds the turns of the loop over the
buffers.  The result is the address of the new slab. -/
def ObCreateSlab (D : SlabDecls) (st : ObState) (metaInfo kmSleep : Nat)
    (pageAddress fuel : Nat) : Run (Nat × ObState) :=
  match st.types metaInfo with
  | none => .fault
  | some info =>
    let slFlags :=
      if st.oballocNormaleUse then kmSleep
      else kmSleep ||| D.FLG_ATOMIC ||| D.FLG_NOCACHE ||| D.KF_NOINTR
    let st := st.emit [.KiPagesAllocate slFlags pageAddress,
      .EnsureUsability pageAddress slFlags, .memsetf pageAddress]
    let newSlab := usub (uadd pageAddress D.KPGSIZE) D.sizeofSlab
    let bufferSize := info.bufferSize
    let bufferFence := usub (uadd pageAddress (usub D.KPGSIZE D.sizeofSlab)) bufferSize
    match ObCreateSlab.fill bufferSize bufferFence (info.ctor != 0) fuel pageAddress [] [] with
    | none => .timeout
    | some (bufferStack, calls) =>
      let st := st.setSlab newSlab
        { colouringOffset := info.colorScheme, bufferStack := bufferStack,
          freeCount := info.bufferPerSlab }
      .ret (newSlab, st.emit (calls ++ [.HashCode pageAddress metaInfo]))

/-- The page address `ObDestroySlab` computes for a slab: the slab address
masked to its page when `rawSize ≤ KPGSIZE / 8`, and 0 otherwise. -/
def ObDestroySlab.pageAddress (D : SlabDecls) (rawSize emptySlab : Nat) : Nat :=
  if rawSize ≤ D.KPGSIZE / 8 then
    emptySlab &&& unot (usub ((1 <<< D.KPGOFFSET) % ULONG_MOD) 1)
  else 0

/-- The loop `while(objectPtr != NULL)` of `ObDestroySlab`, which starts at
the `Head` of the free stack and goes on with `objectPtr->Next`: the calls of
the destructor it makes.  It ends at the first `NULL`, that is 0, whatever
follows it in the stack.  The destructor is code of the caller of
`KiCreateType`; it is taken to leave the link `Next` of its buffer, which the
loop reads after the call, as it is. -/
def ObDestroySlab.destruct : List Nat → List ObEvent
  | [] => []
  | objectPtr :: rest =>
    if objectPtr ≠ 0 then .dtor objectPtr :: ObDestroySlab.destruct rest else []

/-- The function `ObDestroySlab`.  The frame passed to `KeFrameFree` is
`FRADDRESS(mmFrame)` for the `mmFrame` that `GetFrames(pageAddress, 1, NULL)`
answers. -/
def ObDestroySlab (D : SlabDecls) (st : ObState) (emptySlab metaInfo : Nat) : Run ObState :=
  match st.types metaInfo with
  | none => .fault
  | some info =>
    let destructed : Run ObState :=
      if info.dtor ≠ 0 then
        match st.slabs emptySlab with
        | none => .fault
        | some slab => .ret (st.emit (ObDestroySlab.destruct slab.bufferStack))
      else .ret st
    destructed.bind fun st =>
      let pageAddress := ObDestroySlab.pageAddress D info.rawSize emptySlab
      let mmFrame := D.GetFrames pageAddress 1
      .ret (st.emit [.GetFrames pageAddress 1, .KeFrameFree (D.FRADDRESS mmFrame),
        .EnsureFaulty pageAddress, .KiPagesFree pageAddress])

/-- The function `ObFindSlab`. -/
def ObFindSlab (D : SlabDecls) (st : ObState) (metaInfo kmSleep : Nat)
    (pageAddress fuel : Nat) : Run (Nat × ObState) :=
  match st.types metaInfo with
  | none => .fault
  | some info =>
    if info.partialList.count ≠ 0 then
      .ret (info.partialList.lMain, st)
    else
      let emptySlab := info.emptySlab
      let found : Run (Nat × ObState) :=
        if emptySlab = 0 then
          ObCreateSlab D st metaInfo kmSleep pageAddress fuel
        else
          .ret (emptySlab, st.setType metaInfo { info with emptySlab := 0 })
      found.bind fun (emptySlab, st) =>
        match st.types metaInfo with
        | none => .fault
        | some info =>
          .ret (emptySlab, st.setType metaInfo
            { info with partialList := AddCElement emptySlab .CLAST info.partialList })

/-- The function `ObPlaceSlab`. -/
def ObPlaceSlab (st : ObState) (slab metaInfo : Nat) : Run ObState :=
  match st.slabs slab, st.types metaInfo with
  | some sl, some info =>
    if sl.freeCount = 0 then
      .ret (st.setType metaInfo { info with
        partialList := RemoveCElement slab info.partialList
        fullList := AddCElement slab .CFIRST info.fullList })
    else .ret st
  | _, _ => .fault

/-- The function `ObRecheckSlab`. -/
def ObRecheckSlab (D : SlabDecls) (st : ObState) (slab metaInfo : Nat) : Run ObState :=
  match st.slabs slab, st.types metaInfo with
  | some sl, some info =>
    if sl.freeCount = 1 then
      .ret (st.setType metaInfo { info with
        fullList := RemoveCElement slab info.fullList
        partialList := AddCElement slab .CFIRST info.partialList })
    else if sl.freeCount = info.bufferPerSlab then
      let oldEmptySlab := info.emptySlab
      let st := st.setType metaInfo { info with
        partialList := RemoveCElement slab info.partialList
        emptySlab := slab }
      if oldEmptySlab ≠ 0 then ObDestroySlab D st oldEmptySlab metaInfo
      else .ret st
    else .ret st
  | _, _ => .fault

/-- The function `KNew`.  `pageAddress` is the answer of the page-frame manager
should a slab be constructed; the result is the object, 0 for `NULL`. -/
def KNew (D : SlabDecls) (st : ObState) (metaInfo kmSleep : Nat)
    (pageAddress fuel : Nat) : Run (Nat × ObState) :=
  (cacheSpinLock (st.emit [.cli]) metaInfo).bind fun st =>
  (ObFindSlab D st metaInfo kmSleep pageAddress fuel).bind fun (freeSlab, st) =>
  let allocated : Run (Nat × ObState) :=
    if freeSlab ≠ 0 then
      match st.slabs freeSlab with
      | none => .fault
      | some sl =>
        let freeObject := (PopElement sl.bufferStack).1
        let st := st.setSlab freeSlab { sl with
          bufferStack := (PopElement sl.bufferStack).2
          freeCount := usub sl.freeCount 1 }
        (ObPlaceSlab st freeSlab metaInfo).bind fun st => .ret (freeObject, st)
    else .ret (0, st)
  allocated.bind fun (object, st) =>
  (cacheSpinUnlock st metaInfo).bind fun st =>
  .ret (object, if st.oballocNormaleUse then st.emit [.sti] else st)

/-- The address of the slab of an object, as `KDelete` computes it. -/
def KDelete.slab (D : SlabDecls) (object : Nat) : Nat :=
  uadd (object &&& unot (usub D.KPGSIZE 1)) (usub D.KPGSIZE D.sizeofSlab)

/-- The function `KDelete`. -/
def KDelete (D : SlabDecls) (st : ObState) (object metaInfo : Nat) : Run ObState :=
  (cacheSpinLock (st.emit [.cli]) metaInfo).bind fun st =>
  let slab := KDelete.slab D object
  match st.slabs slab with
  | none => .fault
  | some sl =>
    let st := st.setSlab slab { sl with
      bufferStack := PushElement object sl.bufferStack
      freeCount := uadd sl.freeCount 1 }
    (ObRecheckSlab D st slab metaInfo).bind fun st =>
    (cacheSpinUnlock st metaInfo).bind fun st =>
    .ret (if st.oballocNormaleUse then st.emit [.sti] else st)

/-- The buffer size `KiCreateType` computes from the size and the alignment. -/
def KiCreateType.bufferSize (tSize tAlign : Nat) : Nat :=
  if tSize % tAlign ≠ 0 then usub (uadd tSize tAlign) (tSize % tAlign) else tSize

/-- The function `KiCreateType`.  `pageAddress` is the answer of the page-frame
manager should the cache of `ObjectInfo` structs construct a slab.  A
division by zero and a write through `NULL` are faults. -/
def KiCreateType (D : SlabDecls) (st : ObState) (tName tSize tAlign ctor dtor : Nat)
    (pageAddress fuel : Nat) : Run (Nat × ObState) :=
  let flgs :=
    if st.oballocNormaleUse then D.KM_SLEEP
    else D.FLG_ATOMIC ||| D.FLG_NOCACHE ||| D.KF_NOINTR
  (KNew D st D.tObjectInfo flgs pageAddress fuel).bind fun (typeInfo, st) =>
  if typeInfo = 0 then .fault
  else if tAlign = 0 then .fault
  else if KiCreateType.bufferSize tSize tAlign = 0 then .fault
  else
    let old := (st.types typeInfo).getD ObjectInfo.zero
    let st := st.setType typeInfo { old with
      name := tName
      rawSize := tSize
      align := tAlign
      bufferSize := KiCreateType.bufferSize tSize tAlign
      bufferPerSlab := usub D.KPGSIZE D.sizeofSlab / KiCreateType.bufferSize tSize tAlign
      bufferMargin := usub D.KPGSIZE D.sizeofSlab % KiCreateType.bufferSize tSize tAlign
      ctor := ctor
      dtor := dtor
      callCount := 0
      emptySlab := 0
      partialList := ⟨[]⟩
      fullList := ⟨[]⟩ }
    .ret (typeInfo, { st with tList := AddCElement typeInfo .CLAST st.tList })

/-- The function `KiDestroyType`: `TRUE` or `FALSE` and the state afterwards. -/
def KiDestroyType (D : SlabDecls) (st : ObState) (typeInfo : Nat) : Run (Nat × ObState) :=
  match st.types typeInfo with
  | none => .fault
  | some info =>
    if info.partialList.count ≠ 0 ∨ info.fullList.count ≠ 0 then
      .ret (FALSE, st)
    else
      let st := { st with tList := RemoveCElement typeInfo st.tList }
      let emptySlab := info.emptySlab
      if emptySlab ≠ 0 then
        (ObDestroySlab D st emptySlab typeInfo).bind fun st => .ret (TRUE, st)
      else .ret (TRUE, st)

/-! ## Configurations of the object manager used as examples -/

/-- An instance of the parameters: pages of 4096 bytes, a `Slab` header of 32
bytes, an `ObjectInfo` of 76 bytes, cache lines of 32 bytes; the frame
descriptors, of 16 bytes, are in a table at 8388608, one for each page, and
the frame of a page has the address of the page. -/
def ia32Decls : SlabDecls :=
  { KPGSIZE := 4096, KPGOFFSET := 12, sizeofSlab := 32, sizeofObjectInfo := 76,
    L1_CACHE_ALIGN := 32, KM_SLEEP := 0, FLG_ATOMIC := 1, FLG_NOCACHE := 8, KF_NOINTR := 16,
    tObjectInfo := 1048576, tSlab := 1048832, nmObjectInfo := 1049088, nmSlab := 1049344,
    GetFrames := fun address _ => 8388608 + address / 4096 * 16,
    FRADDRESS := fun mmFrame => (mmFrame - 8388608) / 16 * 4096 }

/-- The memory before the object manager is set up: no object type, no slab. -/
def bootState : ObState :=
  { oballocNormaleUse := false, types := fun _ => none, slabs := fun _ => none,
    tList := ⟨[]⟩, obLog := [] }

/-- The state after `obSetupAllocator` and the creation, by `KiCreateType`, of
one object type of the given size and alignment without constructor or
destructor; the page-frame manager gives the page at 2097152 to the cache of
`ObjectInfo` structs.  The handle of the type is the first component. -/
def typeCreated (tSize tAlign : Nat) : Run (Nat × ObState) :=
  KiCreateType ia32Decls (obSetupAllocator ia32Decls bootState) 7 tSize tAlign 0 0 2097152 64

/-- A run of `KNew` calls on one cache, one for each answer of the page-frame
manager in the list: the objects returned, in order, and the state after the
last call. -/
def KNew.each (D : SlabDecls) (metaInfo kmSleep fuel : Nat) :
    List Nat → ObState → Run (List Nat × ObState)
  | [], st => .ret ([], st)
  | pageAddress :: rest, st =>
    (KNew D st metaInfo kmSleep pageAddress fuel).bind fun (object, st) =>
    (KNew.each D metaInfo kmSleep fuel rest st).bind fun (objects, st) =>
    .ret (object :: objects, st)

/-- The buffers at `page`, `page + bufferSize`, ... up to the `k`-th, as a
stack: the last one is the head. -/
def slabBuffers (page bufferSize : Nat) : Nat → List Nat
  | 0 => []
  | k + 1 => (page + k * bufferSize) :: slabBuffers page bufferSize k

/-- The calls of the constructor on the first `k` buffers from `page`, in
the order of the addresses. -/
def ctorCalls (page bufferSize k : Nat) : List ObEvent :=
  (List.range k).map (fun i => .ctor (page + i * bufferSize))

/-- The allocation flags `slFlags` of `ObCreateSlab`. -/
def ObCreateSlab.slFlags (D : SlabDecls) (normalUse : Bool) (kmSleep : Nat) : Nat :=
  if normalUse then kmSleep else kmSleep ||| D.FLG_ATOMIC ||| D.FLG_NOCACHE ||| D.KF_NOINTR

/-- The number of turns of the loop of `ObCreateSlab` over the buffers of a
page, for buffers of the given size. -/
def ObCreateSlab.turns (D : SlabDecls) (bufferSize : Nat) : Nat :=
  (D.KPGSIZE - D.sizeofSlab - 1) / bufferSize

/-- The calls `ObCreateSlab` makes for a page and a type. -/
def ObCreateSlab.calls (D : SlabDecls) (normalUse : Bool) (metaInfo kmSleep page : Nat)
    (ctor bufferSize : Nat) : List ObEvent :=
  [.KiPagesAllocate (ObCreateSlab.slFlags D normalUse kmSleep) page,
    .EnsureUsability page (ObCreateSlab.slFlags D normalUse kmSleep),
    .memsetf page] ++
  (if ctor ≠ 0 then ctorCalls page bufferSize (ObCreateSlab.turns D bufferSize) else []) ++
  [.HashCode page metaInfo]

/-- The calls `ObDestroySlab` makes for a slab of a type: the destructor on
the buffers of the free stack, from its head to the first `NULL`, if there is
a destructor; then the lookup of the frame of the page it computed and the
release of that frame and of that page. -/
def ObDestroySlab.calls (D : SlabDecls) (dtor rawSize emptySlab : Nat)
    (slab : Slab) : List ObEvent :=
  (if dtor ≠ 0 then ObDestroySlab.destruct slab.bufferStack else []) ++
  [.GetFrames (ObDestroySlab.pageAddress D rawSize emptySlab) 1,
    .KeFrameFree
      (D.FRADDRESS (D.GetFrames (ObDestroySlab.pageAddress D rawSize emptySlab) 1)),
    .EnsureFaulty (ObDestroySlab.pageAddress D rawSize emptySlab),
    .KiPagesFree (ObDestroySlab.pageAddress D rawSize emptySlab)]

/-- A run of `KDelete` calls on one cache, one for each object of the list. -/
def KDelete.each (D : SlabDecls) (metaInfo : Nat) : List Nat → ObState → Run ObState
  | [], st => .ret st
  | object :: rest, st =>
    (KDelete D st object metaInfo).bind fun st => KDelete.each D metaInfo rest st

/-- Whether a call is a request of a page to the page-frame manager. -/
def ObEvent.isPageRequest : ObEvent → Bool
  | .KiPagesAllocate _ _ => true
  | _ => false

/-- The number of requests of a page to the page-frame manager in a log. -/
def pageRequests (log : List ObEvent) : Nat := log.countP ObEvent.isPageRequest

/-- A cache of objects of 500 bytes, 8 to a slab, with one slab on the page at
3145728 in its partial list; two buffers of the slab are free. -/
def cacheWithSlab : ObState :=
  { oballocNormaleUse := false
    types := fun a =>
      if a = 2101088 then
        some { name := 7, rawSize := 500, colorScheme := 0, align := 4, bufferSize := 500,
               bufferPerSlab := 8, bufferMargin := 64, ctor := 0, dtor := 0, callCount := 0,
               emptySlab := 0, partialList := ⟨[3149792]⟩, fullList := ⟨[]⟩, lock := false }
      else none
    slabs := fun a =>
      if a = 3149792 then
        some { colouringOffset := 0, bufferStack := [3146228, 3145728], freeCount := 2 }
      else none
    tList := ⟨[2101088]⟩
    obLog := [] }

/-- A cache of objects of 500 bytes, 8 to a slab, with one slab on the page at
3145728 in its partial list, of which one object is handed out, and a cached
empty slab on the page at 4194304. -/
def cacheWithEmptySlab : ObState :=
  { oballocNormaleUse := false
    types := fun a =>
      if a = 2101088 then
        some { name := 7, rawSize := 500, colorScheme := 0, align := 4, bufferSize := 500,
               bufferPerSlab := 8, bufferMargin := 64, ctor := 0, dtor := 0, callCount := 0,
               emptySlab := 4198368, partialList := ⟨[3149792]⟩, fullList := ⟨[]⟩,
               lock := false }
      else none
    slabs := fun a =>
      if a = 3149792 then
        some { colouringOffset := 0
               bufferStack := [3149228, 3148728, 3148228, 3147728, 3147228, 3146728, 3146228]
               freeCount := 7 }
      else if a = 4198368 then
        some { colouringOffset := 0
               bufferStack := [4197804, 4197304, 4196804, 4196304, 4195804, 4195304, 4194804,
                 4194304]
               freeCount := 8 }
      else none
    tList := ⟨[2101088]⟩
    obLog := [] }

/-- The number of objects of the slab `slab` among the objects handed out: an
object belongs to the slab `KDelete` computes for it. -/
def handedOut (D : SlabDecls) (slab : Nat) (objects : List Nat) : Nat :=
  (objects.filter (fun object => KDelete.slab D object = slab)).length

/-- The objects the constructor of a type was called on, in the order of the
calls of a log. -/
def constructed (log : List ObEvent) : List Nat :=
  log.filterMap fun e => match e with
    | .ctor object => some object
    | _ => none

/-- The objects the destructor of a type was called on, in the order of the
calls of a log. -/
def destructed (log : List ObEvent) : List Nat :=
  log.filterMap fun e => match e with
    | .dtor object => some object
    | _ => none

/-- The cache `cacheWithEmptySlab` for a type with a constructor and a
destructor, the functions at 5242880 and 5242944. -/
def cacheWithDestructor : ObState :=
  { oballocNormaleUse := false
    types := fun a =>
      if a = 2101088 then
        some { name := 7, rawSize := 500, colorScheme := 0, align := 4, bufferSize := 500,
               bufferPerSlab := 8, bufferMargin := 64, ctor := 5242880, dtor := 5242944,
               callCount := 0, emptySlab := 4198368, partialList := ⟨[3149792]⟩,
               fullList := ⟨[]⟩, lock := false }
      else none
    slabs := cacheWithEmptySlab.slabs
    tList := ⟨[2101088]⟩
    obLog := [] }

/-- The pages released with `KiPagesFree`, in the order of the calls of a
log. -/
def pagesFreed (log : List ObEvent) : List Nat :=
  log.filterMap fun e => match e with
    | .KiPagesFree pageAddress => some pageAddress
    | _ => none

/-- The slab churn scenario: a type of 400 bytes, 10 objects to a slab, and 15
calls of `KNew` on its fresh cache; the page-frame manager gives the page at
3145728 to the first slab and the page at 4194304 to the second. -/
def churnAllocated : Run (List Nat × ObState) :=
  (typeCreated 400 4).bind fun (metaInfo, st) =>
    KNew.each ia32Decls metaInfo 0 64
      [3145728, 0, 0, 0, 0, 0, 0, 0, 0, 0, 4194304, 0, 0, 0, 0] st

/-- The slab churn scenario after the first `n` calls of `KDelete`, which give
the 15 objects back in the reverse order of their allocation. -/
def churnFreed (n : Nat) : Run ObState :=
  churnAllocated.bind fun (objects, st) =>
    KDelete.each ia32Decls 2101088 (objects.reverse.take n) st

/-- What the slab churn scenario is about in a state: the lists and the empty
slab of the type, the `freeCount` of the first and of the second slab, and the
pages released so far. -/
def churnView (st : ObState) :
    Option (List Nat × List Nat × Nat) × Option Nat × Option Nat × List Nat :=
  ((st.types 2101088).map (fun i => (i.partialList.nodes, i.fullList.nodes, i.emptySlab)),
    (st.slabs 3149792).map (fun s => s.freeCount),
    (st.slabs 4198368).map (fun s => s.freeCount),
    pagesFreed st.obLog)

/-! ## The linked list (Util/LinkedList.cpp) -/

/-- A `LinkedListNode`: the pointers `next` and `prev`, 0 being `null`. -/
structure LinkedListNode where
  next : Nat
  prev : Nat
  deriving DecidableEq, Repr

/-- A `LinkedList`, the descriptor of a list: the pointers `head` and `tail`,
0 being `null`, and the member `count`. -/
structure LinkedList where
  head : Nat
  tail : Nat
  count : Nat
  deriving DecidableEq, Repr

/-- The memory the list functions work on: the nodes by address and the
descriptor of the list they are called with. -/
structure ListState where
  nodes : Nat → Option LinkedListNode
  list : LinkedList

/-- The decrement `--a` of a machine word: `a - 1`, and the largest word for
`a = 0`. -/
def udec (a : Nat) : Nat := if a = 0 then ULONG_MOD - 1 else a - 1

/-- The memory of nodes with the node at `a` replaced by `n`. -/
def store (m : Nat → Option LinkedListNode) (a : Nat) (n : LinkedListNode) :
    Nat → Option LinkedListNode :=
  fun b => if b = a then some n else m b

/-- The read of `a->next`; a fault when `a` is `null` or no node. -/
def ListState.next (s : ListState) (a : Nat) : Run Nat :=
  match s.nodes a with
  | none => .fault
  | some n => .ret n.next

/-- The read of `a->prev`; a fault when `a` is `null` or no node. -/
def ListState.prev (s : ListState) (a : Nat) : Run Nat :=
  match s.nodes a with
  | none => .fault
  | some n => .ret n.prev

/-- The write `a->next = v`; a fault when `a` is `null` or no node. -/
def ListState.setNext (s : ListState) (a v : Nat) : Run ListState :=
  match s.nodes a with
  | none => .fault
  | some n => .ret { s with nodes := store s.nodes a { n with next := v } }

/-- The write `a->prev = v`; a fault when `a` is `null` or no node. -/
def ListState.setPrev (s : ListState) (a v : Nat) : Run ListState :=
  match s.nodes a with
  | none => .fault
  | some n => .ret { s with nodes := store s.nodes a { n with prev := v } }

/-- The function `AddElement`. -/
def AddElement (newElement : Nat) (s : ListState) : Run ListState :=
  let lHead := s.list.head
  (if lHead ≠ 0 then
    let lTail := s.list.tail
    (if lTail ≠ 0 then
      (s.setPrev newElement lTail).bind fun s => s.setNext lTail newElement
    else
      (s.setPrev newElement lHead).bind fun s => s.setNext lHead newElement).bind fun s =>
    .ret { s with list := { s.list with tail := newElement } }
  else
    (s.setPrev newElement 0).bind fun s =>
    .ret { s with list := { s.list with head := newElement } }).bind fun s =>
  (s.setNext newElement 0).bind fun s =>
  .ret { s with list := { s.list with count := uadd s.list.count 1 } }

/-- The function `RemoveElement`. -/
def RemoveElement (oldElement : Nat) (s : ListState) : Run ListState :=
  if s.list.count ≠ 0 then
    (s.next oldElement).bind fun oldNext =>
    (s.prev oldElement).bind fun oldPrevious =>
    (if oldPrevious ≠ 0 then s.setNext oldPrevious oldNext
      else .ret { s with list := { s.list with head := oldNext } }).bind fun s =>
    (if oldNext ≠ 0 then s.setPrev oldNext oldPrevious
      else .ret { s with list := { s.list with tail := oldPrevious } }).bind fun s =>
    let s : ListState := { s with list := { s.list with count := udec s.list.count } }
    if s.list.count = 1 then
      (s.setNext s.list.head 0).bind fun s =>
      .ret { s with list := { s.list with tail := 0 } }
    else if s.list.count = 0 then
      .ret { s with list := { s.list with head := 0, tail := 0 } }
    else .ret s
  else .ret s

/-- The function `InsertElementAfter`. -/
def InsertElementAfter (old after : Nat) (s : ListState) : Run ListState :=
  (s.next old).bind fun oldNext =>
  (s.setNext after oldNext).bind fun s =>
  (s.setPrev after old).bind fun s =>
  (s.setNext old after).bind fun s =>
  (s.next after).bind fun afterNext =>
  (if afterNext ≠ 0 then s.setPrev afterNext after
    else .ret { s with list := { s.list with tail := after } }).bind fun s =>
  .ret { s with list := { s.list with count := uadd s.list.count 1 } }

/-- The function `InsertElementBefore`. -/
def InsertElementBefore (oldElement newElement : Nat) (s : ListState) : Run ListState :=
  (s.prev oldElement).bind fun previousElement =>
  (if previousElement = 0 then .ret { s with list := { s.list with head := newElement } }
    else s.setNext previousElement newElement).bind fun s =>
  (s.setPrev newElement previousElement).bind fun s =>
  (s.setPrev oldElement newElement).bind fun s =>
  (s.setNext newElement oldElement).bind fun s =>
  .ret { s with list := { s.list with count := uadd s.list.count 1 } }

/-- The function `PushHead`. -/
def PushHead (newHead : Nat) (s : ListState) : Run ListState :=
  let lHead := s.list.head
  (if lHead = 0 then s.setNext newHead 0
    else
      (s.setNext newHead lHead).bind fun s =>
      (s.setPrev lHead newHead).bind fun s =>
      let lTail := s.list.tail
      if lTail = 0 then .ret { s with list := { s.list with tail := newHead } }
      else .ret s).bind fun s =>
  let s : ListState := { s with list := { s.list with head := newHead } }
  (s.setPrev newHead 0).bind fun s =>
  .ret { s with list := { s.list with count := uadd s.list.count 1 } }

/-- The function `PullTail`: the node returned and the memory afterwards. -/
def PullTail (s : ListState) : Run (Nat × ListState) :=
  let oldTail := s.list.tail
  let oldHead := s.list.head
  (if oldTail ≠ 0 then
    (s.next oldHead).bind fun headNext =>
    if headNext = oldTail then
      (s.setNext oldHead 0).bind fun s =>
      .ret (oldTail, { s with list := { s.list with tail := 0 } })
    else
      (s.prev oldTail).bind fun tailPrev =>
      let s : ListState := { s with list := { s.list with tail := tailPrev } }
      if s.list.tail ≠ 0 then
        (s.setNext s.list.tail 0).bind fun s => .ret (oldTail, s)
      else .ret (oldTail, s)
  else
    .ret (oldHead, { s with list := { s.list with head := 0 } })).bind
  fun (oldTail, s) =>
  .ret (oldTail, { s with list := { s.list with count := udec s.list.count } })

/-- The nodes of the list are linked both ways in this order in the memory
`m`: `prev` of the first is `p`, `next` of the last is `q`, and between them
each node has the one after it as `next` and the one before it as `prev`. -/
def Linked (m : Nat → Option LinkedListNode) : Nat → List Nat → Nat → Prop
  | _, [], _ => True
  | p, a :: rest, q => m a = some ⟨rest.headD q, p⟩ ∧ Linked m a rest q

/-- Whether nodes are linked both ways can be decided by reading them. -/
instance Linked.decidable (m : Nat → Option LinkedListNode) :
    ∀ (p : Nat) (ns : List Nat) (q : Nat), Decidable (Linked m p ns q)
  | _, [], _ => isTrue trivial
  | p, a :: rest, q =>
    have := Linked.decidable m a rest q
    inferInstanceAs (Decidable (m a = some ⟨rest.headD q, p⟩ ∧ Linked m a rest q))

/-- The well-formed list holding the nodes `ns` in this order, in the words of
the specification: the nodes are distinct and not `null`; `count` is their
number; `head` is the first, or `null` when there is none; `tail` is the last
when there are at least two nodes and `null` otherwise; `prev` of the first
and `next` of the last are `null` and consecutive nodes are linked both
ways. -/
def WellFormed (s : ListState) (ns : List Nat) : Prop :=
  ns.Nodup ∧ 0 ∉ ns ∧ s.list.count = ns.length ∧ s.list.head = ns.headD 0 ∧
    s.list.tail = (if 2 ≤ ns.length then ns.getLastD 0 else 0) ∧ Linked s.nodes 0 ns 0

/-- Whether a list is well-formed can be decided by reading it. -/
instance WellFormed.decidable (s : ListState) (ns : List Nat) : Decidable (WellFormed s ns) :=
  inferInstanceAs (Decidable (_ ∧ _))

/-- A memory with three isolated nodes, at 10, 20 and 30, and an empty list. -/
def emptyList : ListState :=
  { nodes := fun a => if a = 10 ∨ a = 20 ∨ a = 30 then some ⟨0, 0⟩ else none
    list := { head := 0, tail := 0, count := 0 } }

/-- A memory with the list of the one node 10, and the isolated nodes 20
and 30. -/
def oneNodeList : ListState :=
  { nodes := fun a => if a = 10 ∨ a = 20 ∨ a = 30 then some ⟨0, 0⟩ else none
    list := { head := 10, tail := 0, count := 1 } }

/-- A memory with the list of the nodes 10 and 20, in this order, and the
isolated node 30. -/
def twoNodeList : ListState :=
  { nodes := fun a =>
      if a = 10 then some ⟨20, 0⟩
      else if a = 20 then some ⟨0, 10⟩
      else if a = 30 then some ⟨0, 0⟩
      else none
    list := { head := 10, tail := 20, count := 2 } }

/-- The number of requests of a page to the page-frame manager made while the
lock of the cache `metaInfo` is held, in a sequence of calls; `held` tells
whether the lock is held when the sequence starts. -/
def pageRequestsHeld (metaInfo : Nat) : Bool → List ObEvent → Nat
  | _, [] => 0
  | held, e :: es =>
    match e with
    | .SpinLock m => pageRequestsHeld metaInfo (held || decide (m = metaInfo)) es
    | .SpinUnlock m => pageRequestsHeld metaInfo (held && !decide (m = metaInfo)) es
    | .KiPagesAllocate _ _ => (if held then 1 else 0) + pageRequestsHeld metaInfo held es
    | _ => pageRequestsHeld metaInfo held es

/-- A cache of objects of 500 bytes, 8 to a slab, that has no slab. -/
def cacheWithoutSlab : ObState :=
  { oballocNormaleUse := false
    types := fun a =>
      if a = 2101088 then
        some { name := 7, rawSize := 500, colorScheme := 0, align := 4, bufferSize := 500,
               bufferPerSlab := 8, bufferMargin := 64, ctor := 0, dtor := 0, callCount := 0,
               emptySlab := 0, partialList := ⟨[]⟩, fullList := ⟨[]⟩, lock := false }
      else none
    slabs := fun _ => none
    tList := ⟨[2101088]⟩
    obLog := [] }

/-- A cache of objects of 3000 bytes, one to a slab, that has no slab. -/
def cacheOfLargeObjects : ObState :=
  { oballocNormaleUse := false
    types := fun a =>
      if a = 2101088 then
        some { name := 7, rawSize := 3000, colorScheme := 0, align := 4, bufferSize := 3000,
               bufferPerSlab := 1, bufferMargin := 1064, ctor := 0, dtor := 0, callCount := 0,
               emptySlab := 0, partialList := ⟨[]⟩, fullList := ⟨[]⟩, lock := false }
      else none
    slabs := fun _ => none
    tList := ⟨[2101088]⟩
    obLog := [] }

/-- Whether a call ends in a fault. -/
def Run.isFault {α : Type} (r : Run α) : Bool :=
  match r with
  | .fault => true
  | _ => false

/-- The call returns, and what it returns satisfies `p`. -/
def Run.Returns {α : Type} (r : Run α) (p : α → Prop) : Prop :=
  match r with
  | .ret a => p a
  | _ => False

/-- Whether a call returns something that satisfies a decidable `p` can be
decided by running it. -/
instance Run.decidableReturns {α : Type} (r : Run α) (p : α → Prop) [DecidablePred p] :
    Decidable (r.Returns p) :=
  match r with
  | .ret a => inferInstanceAs (Decidable (p a))
  | .fault => isFalse (fun h => h)
  | .spin => isFalse (fun h => h)
  | .timeout => isFalse (fun h => h)

/-! ## Status and action -/

theorem usub_of_le {a b : Nat} (hb : b ≤ a) (ha : a < ULONG_MOD) : usub a b = a - b := by
  unfold usub ULONG_MOD at *
  omega

theorem usub_wrap {a b : Nat} (hab : a < b) (hb : b < ULONG_MOD) :
    usub a b = a + ULONG_MOD - b := by
  unfold usub ULONG_MOD at *
  omega

theorem getStatus_lock {β : Type} (r : Nat) (z : Zone β) (b : Bool) :
    getStatus r { z with controlLock := b } = getStatus r z := rfl

/-- C1: for a zone whose counters are machine words with
`memoryAllocated ≤ memorySize`, `memoryReserved ≤ memorySize - memoryAllocated`
and `7 * memoryReserved` inside the word, `getStatus` classifies a request as
the table does: `LOW_ON_MEMORY` iff `r > free`; otherwise `ALLOCABLE` iff
`r ≤ free - reserved`; otherwise `RESERVE_OVERLAP` iff
`r ≤ (free - reserved) + ⌊7 * reserved / 8⌋`; otherwise `BARRIER_OVERLAP`. -/
theorem getStatus_table {β : Type} (r : Nat) (z : Zone β)
    (hword : z.memorySize < ULONG_MOD)
    (halloc : z.memoryAllocated ≤ z.memorySize)
    (hres : z.memoryReserved ≤ z.memorySize - z.memoryAllocated)
    (hmul : 7 * z.memoryReserved < ULONG_MOD) :
    getStatus r z = tableStatus r z.memorySize z.memoryAllocated z.memoryReserved ∧
    (getStatus r z = .LOW_ON_MEMORY ↔ r > z.memorySize - z.memoryAllocated) ∧
    (¬ r > z.memorySize - z.memoryAllocated →
      (getStatus r z = .ALLOCABLE ↔
        r ≤ z.memorySize - z.memoryAllocated - z.memoryReserved)) ∧
    (¬ r > z.memorySize - z.memoryAllocated →
      ¬ r ≤ z.memorySize - z.memoryAllocated - z.memoryReserved →
      (getStatus r z = .RESERVE_OVERLAP ↔
        r ≤ (z.memorySize - z.memoryAllocated - z.memoryReserved)
          + 7 * z.memoryReserved / 8)) ∧
    (¬ r > z.memorySize - z.memoryAllocated →
      ¬ r ≤ z.memorySize - z.memoryAllocated - z.memoryReserved →
      ¬ r ≤ (z.memorySize - z.memoryAllocated - z.memoryReserved)
          + 7 * z.memoryReserved / 8 →
      getStatus r z = .BARRIER_OVERLAP) := by
  have h1 : usub z.memorySize z.memoryAllocated = z.memorySize - z.memoryAllocated :=
    usub_of_le halloc hword
  have h2 : usub (z.memorySize - z.memoryAllocated) z.memoryReserved
      = z.memorySize - z.memoryAllocated - z.memoryReserved :=
    usub_of_le hres (by omega)
  have h3 : (umul 7 z.memoryReserved) >>> 3 = 7 * z.memoryReserved / 8 := by
    unfold umul
    rw [Nat.mod_eq_of_lt hmul, Nat.shiftRight_eq_div_pow]
  have h4 : uadd (z.memorySize - z.memoryAllocated - z.memoryReserved)
      (7 * z.memoryReserved / 8)
      = z.memorySize - z.memoryAllocated - z.memoryReserved + 7 * z.memoryReserved / 8 := by
    unfold uadd
    apply Nat.mod_eq_of_lt
    unfold ULONG_MOD at *
    omega
  have key : getStatus r z
      = tableStatus r z.memorySize z.memoryAllocated z.memoryReserved := by
    simp only [getStatus, tableStatus, h1, h2, h3, h4]
  refine ⟨key, ?_, ?_, ?_, ?_⟩
  · rw [key]; unfold tableStatus; simp only []
    split_ifs <;> simp_all
  · intro hlow; rw [key]; unfold tableStatus; simp only []
    split_ifs <;> simp_all
  · intro hlow hgen; rw [key]; unfold tableStatus; simp only []
    split_ifs <;> simp_all
  · intro hlow hgen hres; rw [key]; unfold tableStatus; simp only []
    rw [if_neg hlow, if_neg hgen, if_neg hres]

/-- Witness of C1: the zone of 100 pages with 80 allocated and 16 reserved. -/
theorem getStatus_table_witness :
    getStatus 17 (mkZone 100 80 16 0 none) = tableStatus 17 100 80 16 ∧
    getStatus 17 (mkZone 100 80 16 0 none) = .RESERVE_OVERLAP :=
  ⟨(getStatus_table 17 (mkZone 100 80 16 0 none) (by decide) (by decide) (by decide)
      (by decide)).1, by decide⟩

/-- Whenever the reserve of a zone exceeds its free pages, the subtraction
`free - reserved` of `getStatus` wraps around and every request that fits the
free pages is classified `ALLOCABLE`. -/
theorem getStatus_wraps {β : Type} (r : Nat) (z : Zone β)
    (hword : z.memorySize < ULONG_MOD)
    (halloc : z.memoryAllocated ≤ z.memorySize)
    (hresw : z.memoryReserved < ULONG_MOD)
    (hres : z.memorySize - z.memoryAllocated < z.memoryReserved)
    (hr : r ≤ z.memorySize - z.memoryAllocated) :
    getStatus r z = .ALLOCABLE := by
  have h1 : usub z.memorySize z.memoryAllocated = z.memorySize - z.memoryAllocated :=
    usub_of_le halloc hword
  have h2 : usub (z.memorySize - z.memoryAllocated) z.memoryReserved
      = z.memorySize - z.memoryAllocated + ULONG_MOD - z.memoryReserved :=
    usub_wrap hres hresw
  simp only [getStatus, h1, h2]
  rw [if_neg (by omega), if_pos (by omega)]

/-- C2: the watermark does not hold in the code.  The zone of 100 pages with
90 allocated and 16 reserved has `F = 10 < 14 = ⌊7 * 16 / 8⌋`, the subtraction
`F - R` of `getStatus` wraps around, the state of a request of size 1 is
`ALLOCABLE`, and `getAction` answers `ALLOCATE` whatever the flags are. -/
theorem watermark_breached :
    100 - 90 < 7 * 16 / 8 ∧
    usub (usub 100 90) 16 = ULONG_MOD - 6 ∧
    getStatus 1 (mkZone 100 90 16 0 none) = .ALLOCABLE ∧
    ∀ (F : FlagDecls) (flags : Nat),
      getAction F (getStatus 1 (mkZone 100 90 16 0 none)) flags = .ALLOCATE := by
  refine ⟨by decide, by decide, by decide, ?_⟩
  intro F flags
  have h : getStatus 1 (mkZone 100 90 16 0 none) = .ALLOCABLE := by decide
  rw [h]
  rfl

theorem getAction_skip_ne (F : FlagDecls) (flags : Nat) :
    getAction.skip F flags ≠ .ALLOCATE := by
  unfold getAction.skip
  split_ifs <;> simp

theorem getAction_reserve_iff (F : FlagDecls) (flags : Nat) :
    getAction F .RESERVE_OVERLAP flags = .ALLOCATE ↔
      (F.FLAG_SET 11 F.ATOMIC || F.FLAG_SET 11 F.NO_FAILURE) = true := by
  unfold getAction
  simp only [ZoneState.toNat]
  by_cases h : (F.FLAG_SET 11 F.ATOMIC || F.FLAG_SET 11 F.NO_FAILURE) = true
  · simp [h]
  · simp [h, getAction_skip_ne]

/-- C3: in the state `RESERVE_OVERLAP` the answer of `getAction` to "allocate
or not" does not depend on the flag word: the two flags are tested on the
state constant 11.  With the flags read as masks or as bit positions (bit 0 is
`ATOMIC`), the request without any flag is answered `ALLOCATE` for the zone of
100 pages with 16 reserved, 20 free and a request of 17, and the search over
that single zone returns the zone, not nothing. -/
theorem reserve_overlap_ignores_flags :
    (∀ (F : FlagDecls) (f₁ f₂ : Nat),
      getAction F .RESERVE_OVERLAP f₁ = .ALLOCATE ↔
        getAction F .RESERVE_OVERLAP f₂ = .ALLOCATE) ∧
    maskFlags.FLAG_SET 0 maskFlags.ATOMIC = false ∧
    maskFlags.FLAG_SET 0 maskFlags.NO_FAILURE = false ∧
    getStatus 17 (mkZone 100 80 16 0 none) = .RESERVE_OVERLAP ∧
    getAction maskFlags (getStatus 17 (mkZone 100 80 16 0 none)) 0 = .ALLOCATE ∧
    getAction offsetFlags (getStatus 17 (mkZone 100 80 16 0 none)) 0 = .ALLOCATE ∧
    getZone maskFlags reserveLayout 17 0 0 0 2 = .ret (some 0, locked reserveLayout 0) := by
  refine ⟨?_, by decide, by decide, by decide, by decide, by decide, by decide⟩
  intro F f₁ f₂
  rw [getAction_reserve_iff, getAction_reserve_iff]

theorem getAction_of_ne (F : FlagDecls) (st : ZoneState) (flags : Nat)
    (hst : getAction F st flags ≠ .ALLOCATE) :
    getAction F st flags =
      if F.FLAG_SET flags F.ZONE_REQUIRED = true then .RET_FAIL else .GOTO_NEXT := by
  cases st
  · exact absurd rfl hst
  · unfold getAction at hst ⊢
    simp only [] at hst ⊢
    split_ifs at hst ⊢ <;> first | exact absurd rfl hst | (unfold getAction.skip; simp_all)
  · unfold getAction at hst ⊢
    simp only [] at hst ⊢
    split_ifs at hst ⊢ <;> first | exact absurd rfl hst | (unfold getAction.skip; simp_all)
  · unfold getAction at hst ⊢
    simp only [] at hst ⊢
    unfold getAction.skip
    simp_all

/-- C4: `getAction` answers `ALLOCATE` for `ALLOCABLE` whatever the flags,
answers `ALLOCATE` for `BARRIER_OVERLAP` iff `NO_FAILURE` is set, never answers
`ALLOCATE` for `LOW_ON_MEMORY`; and whenever its answer is not `ALLOCATE` it
is `RET_FAIL` if `ZONE_REQUIRED` is set and `GOTO_NEXT` otherwise. -/
theorem getAction_table (F : FlagDecls) (flags : Nat) :
    getAction F .ALLOCABLE flags = .ALLOCATE ∧
    (getAction F .BARRIER_OVERLAP flags = .ALLOCATE ↔
      F.FLAG_SET flags F.NO_FAILURE = true) ∧
    getAction F .LOW_ON_MEMORY flags ≠ .ALLOCATE ∧
    ∀ st : ZoneState, getAction F st flags ≠ .ALLOCATE →
      getAction F st flags =
        if F.FLAG_SET flags F.ZONE_REQUIRED = true then .RET_FAIL else .GOTO_NEXT := by
  refine ⟨rfl, ?_, ?_, ?_⟩
  · unfold getAction
    simp only []
    by_cases h : F.FLAG_SET flags F.NO_FAILURE = true
    · simp [h]
    · simp [h, getAction_skip_ne]
  · exact getAction_skip_ne F flags
  · exact fun st hst => getAction_of_ne F st flags hst

/-- Witness of C4: with the flags read as masks, the flag word 4 has only
`ZONE_REQUIRED` set: a zone low on memory is answered `RET_FAIL`, and a zone in
the emergency band too. -/
theorem getAction_table_witness :
    getAction maskFlags .LOW_ON_MEMORY 4 ≠ .ALLOCATE ∧
    getAction maskFlags .LOW_ON_MEMORY 4 =
      (if maskFlags.FLAG_SET 4 maskFlags.ZONE_REQUIRED = true then .RET_FAIL
        else .GOTO_NEXT) ∧
    getAction maskFlags .BARRIER_OVERLAP 4 = .RET_FAIL ∧
    getAction maskFlags .BARRIER_OVERLAP 2 = .ALLOCATE :=
  ⟨by decide, (getAction_table maskFlags 4).2.2.2 .LOW_ON_MEMORY (by decide), by decide,
    by decide⟩

/-! ## One ring -/

theorem set_self_of_getElem? {α : Type} (l : List α) (i : Nat) (a : α)
    (h : l[i]? = some a) : l.set i a = l := by
  apply List.ext_getElem?
  intro j
  rw [List.getElem?_set]
  by_cases hij : i = j
  · subst hij
    have hlt : i < l.length := by
      rcases Nat.lt_or_ge i l.length with h1 | h1
      · exact h1
      · rw [List.getElem?_eq_none h1] at h; cases h
    simp [hlt, h]
  · simp [hij]

theorem lt_length_of_getElem? {α : Type} (l : List α) (i : Nat) (a : α)
    (h : l[i]? = some a) : i < l.length := by
  rcases Nat.lt_or_ge i l.length with h1 | h1
  · exact h1
  · rw [List.getElem?_eq_none h1] at h; cases h

theorem SpinLock_free {β : Type} (s : ZoneAllocator β) (a : Nat) (z : Zone β)
    (hz : s.zoneTable[a]? = some z) (hfree : z.controlLock = false) :
    SpinLock s (some a) = .ret (locked s a) := by
  simp [SpinLock, locked, lockZone, hz, hfree]

theorem locked_getElem? {β : Type} (s : ZoneAllocator β) (a : Nat) (z : Zone β)
    (hz : s.zoneTable[a]? = some z) :
    (locked s a).zoneTable[a]? = some { z with controlLock := true } := by
  simp [locked, lockZone, hz, List.getElem?_set, lt_length_of_getElem? _ _ _ hz]

theorem SpinUnlock_locked {β : Type} (s : ZoneAllocator β) (a : Nat) (z : Zone β)
    (hz : s.zoneTable[a]? = some z) (hfree : z.controlLock = false) :
    SpinUnlock (locked s a) (some a) = .ret (skipped s [a]) := by
  have hset : s.zoneTable.set a z = s.zoneTable := set_self_of_getElem? _ _ _ hz
  have hz' : z = { z with controlLock := false } := by
    cases z; simp_all
  simp only [SpinUnlock, locked_getElem? s a z hz]
  simp only [locked, lockZone, hz, List.set_set, skipped, skipLog, List.flatMap_cons,
    List.flatMap_nil, List.append_nil, List.append_assoc, List.singleton_append]
  rw [← hz', hset]

theorem skipped_zoneTable {β : Type} (s : ZoneAllocator β) (l : List Nat) :
    (skipped s l).zoneTable = s.zoneTable := rfl

theorem skipped_prefTable {β : Type} (s : ZoneAllocator β) (l : List Nat) :
    (skipped s l).prefTable = s.prefTable := rfl

theorem skipped_nil {β : Type} (s : ZoneAllocator β) : skipped s [] = s := by
  simp [skipped, skipLog]

theorem skipped_skipped {β : Type} (s : ZoneAllocator β) (l₁ l₂ : List Nat) :
    skipped (skipped s l₁) l₂ = skipped s (l₁ ++ l₂) := by
  simp [skipped, skipLog, List.flatMap_append, List.append_assoc]

/-- One turn of the ring loop at a zone whose action is `ALLOCATE`. -/
theorem ring_step_allocate {β : Type} (F : FlagDecls) (bo af : Nat) (t0 : Option Nat)
    (s : ZoneAllocator β) (a : Nat) (z : Zone β) (fuel : Nat)
    (hz : s.zoneTable[a]? = some z) (hfree : z.controlLock = false)
    (hact : getAction F (getStatus bo z) af = .ALLOCATE) :
    getZone.ring F bo af t0 (fuel + 1) (some a) s = .ret (.returned (some a), locked s a) := by
  simp only [getZone.ring, SpinLock_free s a z hz hfree, Option.some_bind,
    locked_getElem? s a z hz, getStatus_lock, hact]

/-- One turn of the ring loop at a zone whose action is `RET_FAIL`. -/
theorem ring_step_fail {β : Type} (F : FlagDecls) (bo af : Nat) (t0 : Option Nat)
    (s : ZoneAllocator β) (a : Nat) (z : Zone β) (fuel : Nat)
    (hz : s.zoneTable[a]? = some z) (hfree : z.controlLock = false)
    (hact : getAction F (getStatus bo z) af = .RET_FAIL) :
    getZone.ring F bo af t0 (fuel + 1) (some a) s = .ret (.returned none, locked s a) := by
  simp only [getZone.ring, SpinLock_free s a z hz hfree, Option.some_bind,
    locked_getElem? s a z hz, getStatus_lock, hact]

/-- One turn of the ring loop at a zone whose action is `GOTO_NEXT`. -/
theorem ring_step_next {β : Type} (F : FlagDecls) (bo af : Nat) (t0 : Option Nat)
    (s : ZoneAllocator β) (a : Nat) (z : Zone β) (fuel : Nat)
    (hz : s.zoneTable[a]? = some z) (hfree : z.controlLock = false)
    (hact : getAction F (getStatus bo z) af = .GOTO_NEXT) :
    getZone.ring F bo af t0 (fuel + 1) (some a) s =
      if z.nextZone != t0 then getZone.ring F bo af t0 fuel z.nextZone (skipped s [a])
      else .ret (.wentRound, skipped s [a]) := by
  simp only [getZone.ring, SpinLock_free s a z hz hfree, Option.some_bind,
    locked_getElem? s a z hz, getStatus_lock, hact, SpinUnlock_locked s a z hz hfree]

theorem getAction_next_of_ne (F : FlagDecls) (st : ZoneState) (af : Nat)
    (hZR : F.FLAG_SET af F.ZONE_REQUIRED = false)
    (hne : getAction F st af ≠ .ALLOCATE) : getAction F st af = .GOTO_NEXT := by
  have h := getAction_of_ne F st af hne
  rw [h, hZR]
  simp

theorem allocates_eq_true {β : Type} (F : FlagDecls) (zt : List (Zone β)) (bo af a : Nat)
    (z : Zone β) (hz : zt[a]? = some z) (hact : getAction F (getStatus bo z) af = .ALLOCATE) :
    allocates F zt bo af a = true := by
  simp [allocates, hz, hact]

theorem allocates_eq_false {β : Type} (F : FlagDecls) (zt : List (Zone β)) (bo af a : Nat)
    (z : Zone β) (hz : zt[a]? = some z) (hact : getAction F (getStatus bo z) af ≠ .ALLOCATE) :
    allocates F zt bo af a = false := by
  simp [allocates, hz, hact]

/-- The ring loop, started at the first zone of a closed walk and with no
`ZONE_REQUIRED`, returns the first zone of the walk whose action is
`ALLOCATE`, locked, after having tried and left the zones before it; if there
is none it tries and leaves every zone and comes back to `trialZero`. -/
theorem ring_spec {β : Type} (F : FlagDecls) (bo af : Nat) (t0 : Option Nat)
    (hZR : F.FLAG_SET af F.ZONE_REQUIRED = false) :
    ∀ (l : List Nat) (a : Nat) (s : ZoneAllocator β) (fuel : Nat),
      RingPath s.zoneTable t0 (a :: l) → l.length + 1 ≤ fuel →
      getZone.ring F bo af t0 fuel (some a) s =
        match (a :: l).find? (allocates F s.zoneTable bo af) with
        | some z => .ret (.returned (some z),
            locked (skipped s ((a :: l).takeWhile
              (fun i => !allocates F s.zoneTable bo af i))) z)
        | none => .ret (.wentRound, skipped s (a :: l)) := by
  intro l
  induction l with
  | nil =>
    intro a s fuel hp hf
    obtain ⟨n, rfl⟩ : ∃ n, fuel = n + 1 := ⟨fuel - 1, by omega⟩
    obtain ⟨z, hz, hfree, hnext⟩ := hp
    by_cases hact : getAction F (getStatus bo z) af = .ALLOCATE
    · rw [ring_step_allocate F bo af t0 s a z n hz hfree hact]
      simp [List.find?_cons, List.takeWhile_cons, allocates_eq_true F _ bo af a z hz hact,
        skipped_nil]
    · rw [ring_step_next F bo af t0 s a z n hz hfree
        (getAction_next_of_ne F _ af hZR hact)]
      simp [List.find?_cons, allocates_eq_false F _ bo af a z hz hact, hnext]
  | cons b l ih =>
    intro a s fuel hp hf
    obtain ⟨n, rfl⟩ : ∃ n, fuel = n + 1 := ⟨fuel - 1, by simp at hf; omega⟩
    obtain ⟨z, hz, hfree, hnext, hne, hrest⟩ := hp
    by_cases hact : getAction F (getStatus bo z) af = .ALLOCATE
    · rw [ring_step_allocate F bo af t0 s a z n hz hfree hact]
      simp [List.find?_cons, List.takeWhile_cons, allocates_eq_true F _ bo af a z hz hact,
        skipped_nil]
    · rw [ring_step_next F bo af t0 s a z n hz hfree
        (getAction_next_of_ne F _ af hZR hact)]
      have hb : (z.nextZone != t0) = true := by
        rw [hnext]; simpa using hne
      rw [if_pos hb, hnext]
      have hf' : l.length + 1 ≤ n := by simp at hf; omega
      rw [ih b (skipped s [a]) n hrest hf']
      have hfa : allocates F s.zoneTable bo af a = false :=
        allocates_eq_false F _ bo af a z hz hact
      rw [skipped_zoneTable]
      rw [List.find?_cons (a := a), hfa, List.takeWhile_cons (a := a)]
      simp only [hfa, Bool.not_false, if_true]
      cases hfind : List.find? (allocates F s.zoneTable bo af) (b :: l) with
      | none => simp [skipped_skipped]
      | some w => simp [skipped_skipped]

/-! ## The rings of the preferences -/

theorem takeWhile_append_of_find?_none {α : Type} (p : α → Bool) (l r : List α)
    (h : l.find? p = none) :
    (l ++ r).takeWhile (fun i => !p i) = l ++ r.takeWhile (fun i => !p i) := by
  induction l with
  | nil => rfl
  | cons a l ih =>
    rw [List.find?_cons] at h
    cases hp : p a with
    | true => rw [hp] at h; cases h
    | false =>
      rw [hp] at h
      simp [List.takeWhile_cons, hp, ih h]

theorem takeWhile_append_of_find?_some {α : Type} (p : α → Bool) (l r : List α) (z : α)
    (h : l.find? p = some z) :
    (l ++ r).takeWhile (fun i => !p i) = l.takeWhile (fun i => !p i) := by
  induction l with
  | nil => cases h
  | cons a l ih =>
    rw [List.find?_cons] at h
    cases hp : p a with
    | true => simp [List.takeWhile_cons, hp]
    | false =>
      rw [hp] at h
      simp [List.takeWhile_cons, hp, ih h]

theorem usub_one {p : Nat} (h1 : 1 ≤ p) (hw : p < ULONG_MOD) : usub p 1 = p - 1 := by
  unfold usub ULONG_MOD at *
  omega

/-- The loop over the preferences, started at the first ring of a list of
rings that reaches down to `basePref` and with no `ZONE_REQUIRED`: it returns
the first zone, in the order of the rings, whose action is `ALLOCATE`; if there
is none it leaves the last ring, decrements `basePref` as a machine word, reads
the preference table there and loops on. -/
theorem prefs_spec {β : Type} (F : FlagDecls) (bo basePref af ringFuel : Nat)
    (hZR : F.FLAG_SET af F.ZONE_REQUIRED = false) :
    ∀ (rings : List (List Nat)) (p : Nat) (start : Option Nat) (s : ZoneAllocator β)
      (fuel : Nat),
      PrefRings s.zoneTable s.prefTable basePref p start rings →
      rings.length ≤ fuel → (∀ l ∈ rings, l.length ≤ ringFuel) →
      getZone.prefs F bo basePref af ringFuel fuel p start s =
        match rings.flatten.find? (allocates F s.zoneTable bo af) with
        | some z => .ret (some z,
            locked (skipped s (rings.flatten.takeWhile
              (fun i => !allocates F s.zoneTable bo af i))) z)
        | none =>
          match s.prefTable[usub basePref 1]? with
          | none => .fault
          | some pe =>
            getZone.prefs F bo basePref af ringFuel (fuel - rings.length)
              (usub basePref 1) pe.ClnMain (skipped s rings.flatten) := by
  intro rings
  induction rings with
  | nil => intro p start s fuel h; exact absurd h (by simp [PrefRings])
  | cons l ls ih =>
    intro p start s fuel h hf hrf
    obtain ⟨n, rfl⟩ : ∃ n, fuel = n + 1 := ⟨fuel - 1, by simp at hf; omega⟩
    cases ls with
    | nil =>
      obtain ⟨hp, hw, hhead, hpath, -⟩ := h
      cases l with
      | nil => exact absurd hpath (by simp [RingPath])
      | cons a l =>
        have hstart : start = some a := by simpa using hhead.symm
        subst hstart
        subst hp
        have hlen : l.length + 1 ≤ ringFuel := by
          have := hrf (a :: l) (by simp); simpa using this
        rw [getZone.prefs, if_pos (Nat.le_refl _), ring_spec F bo af (some a) hZR l a s ringFuel hpath hlen]
        simp only [List.flatten_cons, List.flatten_nil, List.append_nil, List.length_cons,
          List.length_nil]
        cases hfind : List.find? (allocates F s.zoneTable bo af) (a :: l) with
        | some z => rfl
        | none =>
          simp only [skipped_prefTable]
          cases hpe : s.prefTable[usub p 1]? with
          | none => rfl
          | some pe => simp
    | cons l₂ ls =>
      obtain ⟨hp, hw, hhead, hpath, -, pe, hpe, hrest⟩ := h
      cases l with
      | nil => exact absurd hpath (by simp [RingPath])
      | cons a l =>
        have hstart : start = some a := by simpa using hhead.symm
        subst hstart
        have hlen : l.length + 1 ≤ ringFuel := by
          have := hrf (a :: l) (by simp); simpa using this
        rw [getZone.prefs, if_pos (Nat.le_of_lt hp),
          ring_spec F bo af (some a) hZR l a s ringFuel hpath hlen]
        rw [List.flatten_cons, List.find?_append]
        cases hfind : List.find? (allocates F s.zoneTable bo af) (a :: l) with
        | some z =>
          simp only [Option.or_some]
          rw [takeWhile_append_of_find?_some _ _ _ z hfind]
        | none =>
          simp only [Option.none_or, skipped_prefTable]
          rw [usub_one (by omega) hw, hpe]
          simp only []
          have hf' : (l₂ :: ls).length ≤ n := by simp at hf ⊢; omega
          have hrf' : ∀ l' ∈ l₂ :: ls, l'.length ≤ ringFuel :=
            fun l' hl' => hrf l' (List.mem_cons_of_mem _ hl')
          rw [ih (p - 1) pe.ClnMain (skipped s (a :: l)) n hrest hf' hrf']
          simp only [skipped_zoneTable, skipped_prefTable]
          rw [takeWhile_append_of_find?_none _ _ _ hfind]
          cases hfind₂ : List.find? (allocates F s.zoneTable bo af) (l₂ :: ls).flatten with
          | some z => simp [skipped_skipped]
          | none =>
            simp only []
            cases hpe₂ : s.prefTable[usub basePref 1]? with
            | none => rfl
            | some pe₂ =>
              simp only [skipped_skipped, List.length_cons]
              congr 1
              omega

/-! ## A closed walk visits no zone twice -/

theorem ringPath_ne_nil {β : Type} (zt : List (Zone β)) (t0 : Option Nat) (l : List Nat)
    (h : RingPath zt t0 l) : l ≠ [] := by
  intro hl
  subst hl
  exact absurd h (by simp [RingPath])

theorem ringPath_suffix {β : Type} (zt : List (Zone β)) (t0 : Option Nat) :
    ∀ (u w : List Nat), w ≠ [] → RingPath zt t0 (u ++ w) → RingPath zt t0 w := by
  intro u
  induction u with
  | nil => intro w _ h; exact h
  | cons a u ih =>
    intro w hw h
    cases huw : u ++ w with
    | nil =>
      have : w = [] := (List.append_eq_nil.mp huw).2
      exact absurd this hw
    | cons b r =>
      rw [List.cons_append, huw] at h
      obtain ⟨_, _, _, _, _, hrest⟩ := h
      rw [← huw] at hrest
      exact ih w hw hrest

theorem ringPath_det {β : Type} (zt : List (Zone β)) (t0 : Option Nat) :
    ∀ (l₁ l₂ : List Nat) (a : Nat),
      RingPath zt t0 (a :: l₁) → RingPath zt t0 (a :: l₂) → l₁ = l₂ := by
  intro l₁
  induction l₁ with
  | nil =>
    intro l₂ a h₁ h₂
    cases l₂ with
    | nil => rfl
    | cons c r₂ =>
      obtain ⟨z, hz, _, hnext⟩ := h₁
      obtain ⟨z', hz', _, hnext', hne, _⟩ := h₂
      rw [hz] at hz'
      cases hz'
      rw [hnext] at hnext'
      exact absurd hnext'.symm hne
  | cons b r₁ ih =>
    intro l₂ a h₁ h₂
    obtain ⟨z, hz, _, hnext, hne, hrest⟩ := h₁
    cases l₂ with
    | nil =>
      obtain ⟨z', hz', _, hnext'⟩ := h₂
      rw [hz] at hz'
      cases hz'
      rw [hnext'] at hnext
      exact absurd hnext.symm hne
    | cons c r₂ =>
      obtain ⟨z', hz', _, hnext', _, hrest'⟩ := h₂
      rw [hz] at hz'
      cases hz'
      rw [hnext] at hnext'
      cases hnext'
      rw [ih r₂ b hrest hrest']

theorem ringPath_nodup {β : Type} (zt : List (Zone β)) (t0 : Option Nat) :
    ∀ l : List Nat, RingPath zt t0 l → l.Nodup := by
  intro l
  induction l with
  | nil => intro _; exact List.nodup_nil
  | cons a l ih =>
    intro h
    rw [List.nodup_cons]
    constructor
    · intro hmem
      obtain ⟨u, v, huv⟩ := List.append_of_mem hmem
      have hsuf : RingPath zt t0 (a :: v) := by
        apply ringPath_suffix zt t0 (a :: u) (a :: v) (by simp)
        rw [List.cons_append, ← huv]
        exact h
      have hlv : l = v := ringPath_det zt t0 l v a h hsuf
      have hlen : l.length = u.length + (v.length + 1) := by
        rw [huv]; simp
      rw [hlv] at hlen
      omega
    · cases l with
      | nil => exact List.nodup_nil
      | cons b r =>
        apply ih
        exact ringPath_suffix zt t0 [a] (b :: r) (by simp) h

/-- Every zone of the rings from preference `p` down to `basePref` exists and
has a preference between the two. -/
theorem prefRings_range {β : Type} (zt : List (Zone β)) (pt : List ZonePreference)
    (basePref : Nat) :
    ∀ (rings : List (List Nat)) (p : Nat) (start : Option Nat),
      PrefRings zt pt basePref p start rings →
      ∀ a ∈ rings.flatten, ∃ z, zt[a]? = some z ∧
        basePref ≤ z.preferenceIndex ∧ z.preferenceIndex ≤ p := by
  intro rings
  induction rings with
  | nil => intro p start h; exact absurd h (by simp [PrefRings])
  | cons l ls ih =>
    intro p start h a ha
    cases ls with
    | nil =>
      obtain ⟨hp, _, _, _, hpref⟩ := h
      simp only [List.flatten_cons, List.flatten_nil, List.append_nil] at ha
      obtain ⟨z, hz, hzp⟩ := hpref a ha
      exact ⟨z, hz, by omega, by omega⟩
    | cons l₂ ls =>
      obtain ⟨hp, _, _, _, hpref, pe, _, hrest⟩ := h
      rw [List.flatten_cons, List.mem_append] at ha
      rcases ha with ha | ha
      · obtain ⟨z, hz, hzp⟩ := hpref a ha
        exact ⟨z, hz, by omega, by omega⟩
      · obtain ⟨z, hz, h1, h2⟩ := ih (p - 1) pe.ClnMain hrest a ha
        exact ⟨z, hz, h1, by omega⟩

/-- The rings from preference `p` down to `basePref` have no zone in common,
and no ring lists a zone twice. -/
theorem prefRings_nodup {β : Type} (zt : List (Zone β)) (pt : List ZonePreference)
    (basePref : Nat) :
    ∀ (rings : List (List Nat)) (p : Nat) (start : Option Nat),
      PrefRings zt pt basePref p start rings → rings.flatten.Nodup := by
  intro rings
  induction rings with
  | nil => intro p start h; exact absurd h (by simp [PrefRings])
  | cons l ls ih =>
    intro p start h
    cases ls with
    | nil =>
      obtain ⟨_, _, _, hpath, _⟩ := h
      simpa using ringPath_nodup zt start l hpath
    | cons l₂ ls =>
      obtain ⟨hp, _, _, hpath, hpref, pe, _, hrest⟩ := h
      rw [List.flatten_cons, List.nodup_append]
      refine ⟨ringPath_nodup zt start l hpath, ih (p - 1) pe.ClnMain hrest, ?_⟩
      intro a ha hb
      obtain ⟨z, hz, hzp⟩ := hpref a ha
      obtain ⟨z', hz', _, h2⟩ := prefRings_range zt pt basePref _ (p - 1) pe.ClnMain hrest a hb
      rw [hz] at hz'
      cases hz'
      omega

theorem length_le_length_flatten {α : Type} (rings : List (List α)) (l : List α)
    (h : l ∈ rings) : l.length ≤ rings.flatten.length := by
  induction rings with
  | nil => cases h
  | cons r rs ih =>
    rw [List.flatten_cons, List.length_append]
    rcases List.mem_cons.mp h with h | h
    · subst h; omega
    · have := ih h; omega

/-! ## The search `getZone` -/

/-- The search returns the first allocating zone of the rings, locked, after
having tried and left the zones before it. -/
theorem getZone_first {β : Type} (F : FlagDecls) (s : ZoneAllocator β)
    (blockOrder basePref allocFlags zonePref : Nat) (zp : Zone β)
    (rings : List (List Nat)) (z fuel : Nat)
    (hZR : F.FLAG_SET allocFlags F.ZONE_REQUIRED = false)
    (hzp : s.zoneTable[zonePref]? = some zp)
    (hrings : PrefRings s.zoneTable s.prefTable basePref zp.preferenceIndex
      (some zonePref) rings)
    (hfirst : rings.flatten.find? (allocates F s.zoneTable blockOrder allocFlags) = some z)
    (hfuel : rings.length + rings.flatten.length ≤ fuel) :
    getZone F s blockOrder basePref allocFlags zonePref fuel =
      .ret (some z, locked (skipped s (rings.flatten.takeWhile
        (fun i => !allocates F s.zoneTable blockOrder allocFlags i))) z) := by
  have hrf : ∀ l ∈ rings, l.length ≤ fuel := fun l hl =>
    Nat.le_trans (length_le_length_flatten rings l hl) (by omega)
  rw [getZone, hzp]
  simp only []
  rw [prefs_spec F blockOrder basePref allocFlags fuel hZR rings zp.preferenceIndex
    (some zonePref) s fuel hrings (by omega) hrf, hfirst]

/-- C5: without `ZONE_REQUIRED`, on rings that are closed walks of unlocked
zones, `getZone` returns the first zone whose action is `ALLOCATE` in this
order: the ring of the preferred zone from the preferred zone once around,
then the ring of `prefTable[p]` from its head for each lower `p` down to
`basePref`.  It returns the zone locked, having locked and unlocked exactly
the zones before it in that order; the order lists no zone twice, and the
zone returned has a preference from `basePref` to that of the preferred
zone. -/
theorem getZone_selection_order {β : Type} (F : FlagDecls) (s : ZoneAllocator β)
    (blockOrder basePref allocFlags zonePref : Nat) (zp : Zone β)
    (rings : List (List Nat)) (z fuel : Nat)
    (hZR : F.FLAG_SET allocFlags F.ZONE_REQUIRED = false)
    (hzp : s.zoneTable[zonePref]? = some zp)
    (hrings : PrefRings s.zoneTable s.prefTable basePref zp.preferenceIndex
      (some zonePref) rings)
    (hfirst : rings.flatten.find? (allocates F s.zoneTable blockOrder allocFlags) = some z)
    (hfuel : rings.length + rings.flatten.length ≤ fuel) :
    getZone F s blockOrder basePref allocFlags zonePref fuel =
      .ret (some z, locked (skipped s (rings.flatten.takeWhile
        (fun i => !allocates F s.zoneTable blockOrder allocFlags i))) z) ∧
    rings.flatten.Nodup ∧
    ∃ zz, s.zoneTable[z]? = some zz ∧
      basePref ≤ zz.preferenceIndex ∧ zz.preferenceIndex ≤ zp.preferenceIndex := by
  exact ⟨getZone_first F s blockOrder basePref allocFlags zonePref zp rings z fuel hZR hzp
      hrings hfirst hfuel,
    prefRings_nodup _ _ _ _ _ _ hrings,
    prefRings_range _ _ _ _ _ _ hrings z (List.mem_of_find?_eq_some hfirst)⟩

/-- Witness of C5, the preference fallback: the zone of preference 1 is full,
the zone of preference 0 is empty, `basePref = 0`, the preferred zone is the
zone of preference 1, the request has order 1: the zone of preference 0 is
returned. -/
theorem getZone_selection_order_witness :
    getZone maskFlags fallbackLayout 1 0 0 1 4 =
      .ret (some 0, locked (skipped fallbackLayout [1]) 0) :=
  (getZone_selection_order maskFlags fallbackLayout 1 0 0 1 (mkZone 8 8 0 1 (some 1))
    [[1], [0]] 0 4 (by decide) rfl
    (by simp [PrefRings, RingPath, fallbackLayout, mkZone, ULONG_MOD])
    (by decide) (by decide)).1

theorem getZone_zone_required_returns {β : Type} (F : FlagDecls) (s : ZoneAllocator β)
    (blockOrder basePref allocFlags zonePref : Nat) (zp : Zone β) (fuel : Nat)
    (hZR : F.FLAG_SET allocFlags F.ZONE_REQUIRED = true)
    (hzp : s.zoneTable[zonePref]? = some zp)
    (hfree : zp.controlLock = false)
    (hfuel : 1 ≤ fuel) :
    ∃ s', getZone F s blockOrder basePref allocFlags zonePref fuel = .ret (some zonePref, s') ∨
      getZone F s blockOrder basePref allocFlags zonePref fuel = .ret (none, s') := by
  obtain ⟨n, rfl⟩ : ∃ n, fuel = n + 1 := ⟨fuel - 1, by omega⟩
  rw [getZone, hzp]
  simp only [getZone.prefs]
  by_cases hp : zp.preferenceIndex ≥ basePref
  · rw [if_pos hp]
    by_cases hact : getAction F (getStatus blockOrder zp) allocFlags = .ALLOCATE
    · rw [ring_step_allocate F blockOrder allocFlags _ s zonePref zp n hzp hfree hact]
      exact ⟨_, Or.inl rfl⟩
    · have hfail : getAction F (getStatus blockOrder zp) allocFlags = .RET_FAIL := by
        rw [getAction_of_ne F _ allocFlags hact, if_pos hZR]
      rw [ring_step_fail F blockOrder allocFlags _ s zonePref zp n hzp hfree hfail]
      exact ⟨_, Or.inr rfl⟩
  · rw [if_neg hp]
    exact ⟨_, Or.inr rfl⟩

theorem ring_locked_spins {β : Type} (F : FlagDecls) (bo af : Nat) (t0 : Option Nat)
    (s : ZoneAllocator β) (a : Nat) (z : Zone β) (fuel : Nat)
    (hz : s.zoneTable[a]? = some z) (hheld : z.controlLock = true) :
    getZone.ring F bo af t0 (fuel + 1) (some a) s = .spin := by
  simp [getZone.ring, SpinLock, hz, hheld]

/-- C6: with `ZONE_REQUIRED` set, whatever `getZone` returns is the preferred
zone or nothing, in every configuration; and when the preferred zone is a zone
of the table, its lock is free and there is some fuel, `getZone` does return. -/
theorem getZone_zone_required {β : Type} (F : FlagDecls) (s : ZoneAllocator β)
    (blockOrder basePref allocFlags zonePref : Nat) (fuel : Nat)
    (hZR : F.FLAG_SET allocFlags F.ZONE_REQUIRED = true) :
    (∀ r s', getZone F s blockOrder basePref allocFlags zonePref fuel = .ret (r, s') →
      r = some zonePref ∨ r = none) ∧
    (∀ zp, s.zoneTable[zonePref]? = some zp → zp.controlLock = false → 1 ≤ fuel →
      ∃ s', getZone F s blockOrder basePref allocFlags zonePref fuel
          = .ret (some zonePref, s') ∨
        getZone F s blockOrder basePref allocFlags zonePref fuel = .ret (none, s')) := by
  refine ⟨?_, fun zp hzp hfree hfuel =>
    getZone_zone_required_returns F s blockOrder basePref allocFlags zonePref zp fuel
      hZR hzp hfree hfuel⟩
  intro r s' hret
  cases hzp : s.zoneTable[zonePref]? with
  | none => rw [getZone, hzp] at hret; cases hret
  | some zp =>
    cases fuel with
    | zero => rw [getZone, hzp] at hret; simp [getZone.prefs] at hret
    | succ n =>
      cases hlock : zp.controlLock with
      | false =>
        obtain ⟨s'', h | h⟩ := getZone_zone_required_returns F s blockOrder basePref
          allocFlags zonePref zp (n + 1) hZR hzp hlock (by omega)
        · rw [h] at hret; cases hret; exact Or.inl rfl
        · rw [h] at hret; cases hret; exact Or.inr rfl
      | true =>
        rw [getZone, hzp] at hret
        simp only [getZone.prefs] at hret
        by_cases hp : zp.preferenceIndex ≥ basePref
        · rw [if_pos hp, ring_locked_spins F blockOrder allocFlags _ s zonePref zp n hzp
            hlock] at hret
          cases hret
        · rw [if_neg hp] at hret
          cases hret
          exact Or.inr rfl

/-- Witness of C6: the preference-fallback layout with `ZONE_REQUIRED` set;
nothing is returned although the zone of preference 0 is empty. -/
theorem getZone_zone_required_witness :
    maskFlags.FLAG_SET 4 maskFlags.ZONE_REQUIRED = true ∧
    (∃ s', getZone maskFlags fallbackLayout 1 0 4 1 4 = .ret (some 1, s') ∨
      getZone maskFlags fallbackLayout 1 0 4 1 4 = .ret (none, s')) ∧
    getZone maskFlags fallbackLayout 1 0 4 1 4 = .ret (none, locked fallbackLayout 1) ∧
    allocates maskFlags fallbackLayout.zoneTable 1 4 0 = true :=
  ⟨by decide,
    (getZone_zone_required maskFlags fallbackLayout 1 0 4 1 4 (by decide)).2
      (mkZone 8 8 0 1 (some 1)) rfl rfl (by decide),
    by decide, by decide⟩

/-- A preferred zone whose preference is below `basePref` is not tried: with
some fuel `getZone` returns nothing and has touched no lock. -/
theorem getZone_below_base {β : Type} (F : FlagDecls) (s : ZoneAllocator β)
    (blockOrder basePref allocFlags zonePref : Nat) (zp : Zone β) (n : Nat)
    (hzp : s.zoneTable[zonePref]? = some zp)
    (hlow : zp.preferenceIndex < basePref) :
    getZone F s blockOrder basePref allocFlags zonePref (n + 1) = .ret (none, s) := by
  rw [getZone, hzp]
  simp only [getZone.prefs]
  rw [if_neg (by omega)]

/-! ## Exhaustion -/

theorem prefRings_base_le {β : Type} (zt : List (Zone β)) (pt : List ZonePreference)
    (basePref p : Nat) (start : Option Nat) (rings : List (List Nat))
    (h : PrefRings zt pt basePref p start rings) : basePref ≤ p ∧ p < ULONG_MOD := by
  cases rings with
  | nil => exact absurd h (by simp [PrefRings])
  | cons l ls =>
    cases ls with
    | nil => obtain ⟨hp, hw, _⟩ := h; exact ⟨by omega, hw⟩
    | cons l₂ ls => obtain ⟨hp, hw, _⟩ := h; exact ⟨by omega, hw⟩

/-- With `basePref ≥ 1`, no `ZONE_REQUIRED`, and no zone of the rings from the
preferred preference down to `basePref` allocating, `getZone` tries and leaves
every zone once and returns nothing. -/
theorem getZone_exhausted {β : Type} (F : FlagDecls) (s : ZoneAllocator β)
    (blockOrder basePref allocFlags zonePref : Nat) (zp : Zone β)
    (rings : List (List Nat)) (pe : ZonePreference) (fuel : Nat)
    (hZR : F.FLAG_SET allocFlags F.ZONE_REQUIRED = false)
    (hzp : s.zoneTable[zonePref]? = some zp)
    (hrings : PrefRings s.zoneTable s.prefTable basePref zp.preferenceIndex
      (some zonePref) rings)
    (hnone : rings.flatten.find? (allocates F s.zoneTable blockOrder allocFlags) = none)
    (hbase : 1 ≤ basePref)
    (hpe : s.prefTable[basePref - 1]? = some pe)
    (hfuel : rings.length + rings.flatten.length + 1 ≤ fuel) :
    getZone F s blockOrder basePref allocFlags zonePref fuel =
      .ret (none, skipped s rings.flatten) := by
  have hrf : ∀ l ∈ rings, l.length ≤ fuel := fun l hl =>
    Nat.le_trans (length_le_length_flatten rings l hl) (by omega)
  have hb := prefRings_base_le _ _ _ _ _ _ hrings
  rw [getZone, hzp]
  simp only []
  rw [prefs_spec F blockOrder basePref allocFlags fuel hZR rings zp.preferenceIndex
    (some zonePref) s fuel hrings (by omega) hrf, hnone]
  simp only []
  rw [usub_one hbase (by omega), hpe]
  simp only []
  obtain ⟨n, hn⟩ : ∃ n, fuel - rings.length = n + 1 := ⟨fuel - rings.length - 1, by omega⟩
  rw [hn, getZone.prefs, if_neg (by omega)]

/-- With `basePref = 0`, no `ZONE_REQUIRED`, and no zone of the rings from the
preferred preference down to 0 allocating, `getZone` does not return nothing:
the decrement of `testPref` wraps around to `ULONG_MOD - 1`, and the read of
the preference table at that index is outside the table. -/
theorem getZone_exhausted_zero {β : Type} (F : FlagDecls) (s : ZoneAllocator β)
    (blockOrder allocFlags zonePref : Nat) (zp : Zone β)
    (rings : List (List Nat)) (fuel : Nat)
    (hZR : F.FLAG_SET allocFlags F.ZONE_REQUIRED = false)
    (hzp : s.zoneTable[zonePref]? = some zp)
    (hrings : PrefRings s.zoneTable s.prefTable 0 zp.preferenceIndex
      (some zonePref) rings)
    (hnone : rings.flatten.find? (allocates F s.zoneTable blockOrder allocFlags) = none)
    (htable : s.prefTable.length < ULONG_MOD)
    (hfuel : rings.length + rings.flatten.length ≤ fuel) :
    getZone F s blockOrder 0 allocFlags zonePref fuel = .fault := by
  have hrf : ∀ l ∈ rings, l.length ≤ fuel := fun l hl =>
    Nat.le_trans (length_le_length_flatten rings l hl) (by omega)
  rw [getZone, hzp]
  simp only []
  rw [prefs_spec F blockOrder 0 allocFlags fuel hZR rings zp.preferenceIndex
    (some zonePref) s fuel hrings (by omega) hrf, hnone]
  simp only []
  have hw : usub 0 1 = ULONG_MOD - 1 := by decide
  rw [hw, List.getElem?_eq_none (by omega)]

/-- C7: with `basePref = 0` the search does not stop below `basePref`.  One
full zone at preference 0, a request of order 1 without flags, `basePref = 0`:
the zone does not allocate, `testPref` is decremented from 0 to
`ULONG_MOD - 1`, still `≥ basePref`, and `getZone` reads the preference table
outside its one entry instead of returning nothing, whatever the fuel. -/
theorem getZone_base_zero_wraps :
    allocates maskFlags oneFullZone.zoneTable 1 0 0 = false ∧
    usub 0 1 = 4294967295 ∧
    ∀ n : Nat, getZone maskFlags oneFullZone 1 0 0 0 (n + 2) = .fault := by
  refine ⟨by decide, by decide, fun n => ?_⟩
  exact getZone_exhausted_zero maskFlags oneFullZone 1 0 0 (mkZone 8 8 0 0 (some 0))
    [[0]] (n + 2) (by decide) rfl
    (by simp [PrefRings, RingPath, oneFullZone, mkZone, ULONG_MOD])
    (by decide) (by decide) (by simp)

/-! ## The search changes locks only -/

theorem sameButLocks_refl {β : Type} (s : ZoneAllocator β) : SameButLocks s s := ⟨rfl, rfl⟩

theorem sameButLocks_trans {β : Type} {s s₁ s₂ : ZoneAllocator β}
    (h₁ : SameButLocks s s₁) (h₂ : SameButLocks s₁ s₂) : SameButLocks s s₂ :=
  ⟨h₂.1.trans h₁.1, h₂.2.trans h₁.2⟩

theorem map_unlock_set {β : Type} (zt : List (Zone β)) (i : Nat) (z : Zone β) (b : Bool)
    (hz : zt[i]? = some z) :
    (zt.set i { z with controlLock := b }).map Zone.unlock = zt.map Zone.unlock := by
  rw [List.map_set]
  apply set_self_of_getElem?
  rw [List.getElem?_map, hz]
  rfl

theorem SpinLock_frame {β : Type} (s s₁ : ZoneAllocator β) (p : Option Nat)
    (h : SpinLock s p = .ret s₁) : SameButLocks s s₁ := by
  unfold SpinLock at h
  split at h
  · cases h
  · split at h
    · cases h
    · rename_i i z hz
      split at h
      · cases h
      · cases h
        exact ⟨rfl, map_unlock_set _ _ _ _ hz⟩

theorem SpinUnlock_frame {β : Type} (s s₁ : ZoneAllocator β) (p : Option Nat)
    (h : SpinUnlock s p = .ret s₁) : SameButLocks s s₁ := by
  unfold SpinUnlock at h
  split at h
  · cases h
  · split at h
    · cases h
    · rename_i i z hz
      cases h
      exact ⟨rfl, map_unlock_set _ _ _ _ hz⟩

/-- The ring loop changes nothing but locks, and a zone it returns is a zone
of the table. -/
theorem ring_frame {β : Type} (F : FlagDecls) (bo af : Nat) (t0 : Option Nat) :
    ∀ (fuel : Nat) (tz : Option Nat) (s : ZoneAllocator β) (r : RingExit)
      (s₁ : ZoneAllocator β),
      getZone.ring F bo af t0 fuel tz s = .ret (r, s₁) →
      SameButLocks s s₁ ∧ ∀ i, r = .returned (some i) → ∃ z, s₁.zoneTable[i]? = some z := by
  intro fuel
  induction fuel with
  | zero => intro tz s r s₁ h; simp [getZone.ring] at h
  | succ n ih =>
    intro tz s r s₁ h
    rw [getZone.ring] at h
    split at h
    · cases h
    · cases h
    · cases h
    · rename_i sl hlock
      have hfl := SpinLock_frame s sl tz hlock
      split at h
      · cases h
      · rename_i z hz
        split at h
        · cases h
          refine ⟨hfl, fun i hi => ?_⟩
          cases hi
          exact ⟨z, by simpa using hz⟩
        · cases h
          exact ⟨hfl, fun i hi => by cases hi⟩
        · split at h
          · cases h
          · cases h
          · cases h
          · rename_i su hunlock
            have hfu := SpinUnlock_frame sl su tz hunlock
            dsimp only at h
            split at h
            · obtain ⟨h1, h2⟩ := ih _ _ _ _ h
              exact ⟨sameButLocks_trans (sameButLocks_trans hfl hfu) h1, h2⟩
            · cases h
              exact ⟨sameButLocks_trans hfl hfu, fun i hi => by cases hi⟩

/-- The loop over the preferences changes nothing but locks, and a zone it
returns is a zone of the table. -/
theorem prefs_frame {β : Type} (F : FlagDecls) (bo basePref af ringFuel : Nat) :
    ∀ (fuel p : Nat) (tz : Option Nat) (s : ZoneAllocator β) (r : Option Nat)
      (s₁ : ZoneAllocator β),
      getZone.prefs F bo basePref af ringFuel fuel p tz s = .ret (r, s₁) →
      SameButLocks s s₁ ∧ ∀ i, r = some i → ∃ z, s₁.zoneTable[i]? = some z := by
  intro fuel
  induction fuel with
  | zero => intro p tz s r s₁ h; simp [getZone.prefs] at h
  | succ n ih =>
    intro p tz s r s₁ h
    rw [getZone.prefs] at h
    split at h
    · split at h
      · cases h
      · cases h
      · cases h
      · rename_i zone sr hring
        cases h
        obtain ⟨h1, h2⟩ := ring_frame F bo af tz ringFuel tz s _ _ hring
        exact ⟨h1, fun i hi => h2 i (by rw [hi])⟩
      · rename_i sr hring
        obtain ⟨h1, -⟩ := ring_frame F bo af tz ringFuel tz s _ _ hring
        dsimp only at h
        split at h
        · cases h
        · obtain ⟨h3, h4⟩ := ih _ _ _ _ _ h
          exact ⟨sameButLocks_trans h1 h3, h4⟩
    · cases h
      exact ⟨sameButLocks_refl s, fun i hi => by cases hi⟩

/-- The search `getZone` changes nothing but locks, and a zone it returns is a
zone of the table. -/
theorem getZone_frame {β : Type} (F : FlagDecls) (s : ZoneAllocator β)
    (bo basePref af zonePref fuel : Nat) (r : Option Nat) (s₁ : ZoneAllocator β)
    (h : getZone F s bo basePref af zonePref fuel = .ret (r, s₁)) :
    SameButLocks s s₁ ∧ ∀ i, r = some i → ∃ z, s₁.zoneTable[i]? = some z := by
  unfold getZone at h
  split at h
  · cases h
  · exact prefs_frame F bo basePref af fuel fuel _ _ s r s₁ h

theorem sameButLocks_getElem? {β : Type} {s s₁ : ZoneAllocator β} (h : SameButLocks s s₁)
    (j : Nat) : (s₁.zoneTable[j]?).map Zone.unlock = (s.zoneTable[j]?).map Zone.unlock := by
  rw [← List.getElem?_map, ← List.getElem?_map, h.2]

theorem counters_unlock {β : Type} (z : Zone β) : z.unlock.counters = z.counters := rfl

theorem sameButLocks_counters {β : Type} {s s₁ : ZoneAllocator β} (h : SameButLocks s s₁)
    (j : Nat) :
    (s₁.zoneTable[j]?).map Zone.counters = (s.zoneTable[j]?).map Zone.counters := by
  have h1 := congrArg (Option.map Zone.counters) (sameButLocks_getElem? h j)
  simpa [Option.map_map, Function.comp_def, counters_unlock] using h1

/-! ## `allocateBlock` -/

/-- What `allocateBlock` does once `getZone` has returned zone `i`: it asks
the buddy allocator of the zone, adds `SIZEOF_ORDER(blockOrder)` to
`memoryAllocated` whatever the answer, unlocks the zone and returns the
answer. -/
theorem allocateBlock_selected {β : Type} (F : FlagDecls)
    (buddyAllocate : β → Nat → Option Nat × β) (s s₁ : ZoneAllocator β)
    (k basePref zonePref flags fuel i : Nat) (z₁ : Zone β)
    (hsel : getZone F s k basePref flags zonePref fuel = .ret (some i, s₁))
    (hz₁ : s₁.zoneTable[i]? = some z₁) :
    allocateBlock F buddyAllocate s k basePref zonePref flags fuel =
      .ret ((buddyAllocate z₁.memoryAllocator k).1,
        { s₁ with
          zoneTable := s₁.zoneTable.set i
            { z₁ with
              memoryAllocator := (buddyAllocate z₁.memoryAllocator k).2
              memoryAllocated := uadd z₁.memoryAllocated (SIZEOF_ORDER k)
              controlLock := false }
          lockLog := s₁.lockLog ++ [.SpinUnlock i] }) := by
  have hlt := lt_length_of_getElem? _ _ _ hz₁
  simp [allocateBlock, hsel, hz₁, SpinUnlock, List.getElem?_set, hlt]

/-- When `getZone` returns nothing, `allocateBlock` returns nothing and no
counter of any zone has changed. -/
theorem allocateBlock_no_zone {β : Type} (F : FlagDecls)
    (buddyAllocate : β → Nat → Option Nat × β) (s s₁ : ZoneAllocator β)
    (k basePref zonePref flags fuel : Nat)
    (hsel : getZone F s k basePref flags zonePref fuel = .ret (none, s₁)) :
    allocateBlock F buddyAllocate s k basePref zonePref flags fuel = .ret (none, s₁) ∧
    ∀ j : Nat, (s₁.zoneTable[j]?).map Zone.counters = (s.zoneTable[j]?).map Zone.counters := by
  refine ⟨by simp [allocateBlock, hsel], fun j => ?_⟩
  exact sameButLocks_counters (getZone_frame F s k basePref flags zonePref fuel _ _ hsel).1 j

theorem SIZEOF_ORDER_uadd (a k : Nat) :
    uadd a (SIZEOF_ORDER k) = (a + 2 ^ k) % ULONG_MOD := by
  unfold uadd SIZEOF_ORDER
  rw [Nat.add_mod_mod]

/-- C8: when `getZone` selects zone `i` and the buddy allocator of that zone
returns a block for the order `k`, `allocateBlock` returns that block;
`memoryAllocated` of zone `i` has grown by `2 ^ k` as a machine word, which is
exactly `2 ^ k` more whenever the sum fits the word; its `memorySize` and
`memoryReserved` are unchanged, and the three counters of every other zone
are unchanged. -/
theorem allocateBlock_success {β : Type} (F : FlagDecls)
    (buddyAllocate : β → Nat → Option Nat × β) (s s₁ : ZoneAllocator β)
    (k basePref zonePref flags fuel i : Nat) (z : Zone β) (b : Nat)
    (hsel : getZone F s k basePref flags zonePref fuel = .ret (some i, s₁))
    (hz : s.zoneTable[i]? = some z)
    (hblock : (buddyAllocate z.memoryAllocator k).1 = some b) :
    ∃ s₂ z₂, allocateBlock F buddyAllocate s k basePref zonePref flags fuel
        = .ret (some b, s₂) ∧
      s₂.zoneTable[i]? = some z₂ ∧
      z₂.memoryAllocated = (z.memoryAllocated + 2 ^ k) % ULONG_MOD ∧
      (z.memoryAllocated + 2 ^ k < ULONG_MOD →
        z₂.memoryAllocated = z.memoryAllocated + 2 ^ k) ∧
      z₂.memorySize = z.memorySize ∧
      z₂.memoryReserved = z.memoryReserved ∧
      ∀ j : Nat, j ≠ i →
        (s₂.zoneTable[j]?).map Zone.counters = (s.zoneTable[j]?).map Zone.counters := by
  obtain ⟨hsame, hvalid⟩ := getZone_frame F s k basePref flags zonePref fuel _ _ hsel
  obtain ⟨z₁, hz₁⟩ := hvalid i rfl
  have hunl : z₁.unlock = z.unlock := by
    have := sameButLocks_getElem? hsame i
    rw [hz₁, hz] at this
    simpa using this
  have hA : z₁.memoryAllocator = z.memoryAllocator := by
    show z₁.unlock.memoryAllocator = z.unlock.memoryAllocator
    rw [hunl]
  have hM : z₁.memoryAllocated = z.memoryAllocated := by
    show z₁.unlock.memoryAllocated = z.unlock.memoryAllocated
    rw [hunl]
  have hS : z₁.memorySize = z.memorySize := by
    show z₁.unlock.memorySize = z.unlock.memorySize
    rw [hunl]
  have hR : z₁.memoryReserved = z.memoryReserved := by
    show z₁.unlock.memoryReserved = z.unlock.memoryReserved
    rw [hunl]
  have hlt := lt_length_of_getElem? _ _ _ hz₁
  have hab := allocateBlock_selected F buddyAllocate s s₁ k basePref zonePref flags fuel i z₁
    hsel hz₁
  rw [hA, hblock] at hab
  refine ⟨_, { z₁ with
      memoryAllocator := (buddyAllocate z.memoryAllocator k).2
      memoryAllocated := uadd z₁.memoryAllocated (SIZEOF_ORDER k)
      controlLock := false }, hab, ?_, ?_, ?_, ?_, ?_, ?_⟩
  · simp only [List.getElem?_set, hlt, if_true]
  · simp only [hM, SIZEOF_ORDER_uadd]
  · intro hword
    simp only [hM, SIZEOF_ORDER_uadd, Nat.mod_eq_of_lt hword]
  · exact hS
  · exact hR
  · intro j hj
    simp only [List.getElem?_set_ne (Ne.symm hj)]
    exact sameButLocks_counters hsame j

/-- Witness of C8: in the preference-fallback layout a request of order 1 is
served by the empty zone 0, whose `memoryAllocated` goes from 0 to 2. -/
theorem allocateBlock_success_witness :
    ∃ s₂ z₂, allocateBlock maskFlags buddyGives fallbackLayout 1 0 1 0 4
        = .ret (some 0, s₂) ∧
      s₂.zoneTable[0]? = some z₂ ∧
      z₂.memoryAllocated = (0 + 2 ^ 1) % ULONG_MOD ∧
      (0 + 2 ^ 1 < ULONG_MOD → z₂.memoryAllocated = 0 + 2 ^ 1) ∧
      z₂.memorySize = 8 ∧
      z₂.memoryReserved = 0 ∧
      ∀ j : Nat, j ≠ 0 →
        (s₂.zoneTable[j]?).map Zone.counters
          = (fallbackLayout.zoneTable[j]?).map Zone.counters :=
  allocateBlock_success maskFlags buddyGives fallbackLayout
    (locked (skipped fallbackLayout [1]) 0) 1 0 1 0 4 0 (mkZone 8 0 0 0 (some 0)) 0
    (by decide) rfl rfl

/-- C9: `allocateBlock` adds to `memoryAllocated` before it looks at what the
buddy allocator returned.  One zone of 4 pages with 2 allocated, a request of
order 1 that the zone state admits and for which the buddy allocator has no
block: `allocateBlock` returns nothing and `memoryAllocated` has gone from 2
to 4. -/
theorem allocateBlock_failure_counts :
    getStatus 1 (mkZone 4 2 0 0 (some 0)) = .ALLOCABLE ∧
    fragmentedZone.zoneTable.map Zone.counters = [(4, 0, 2)] ∧
    ∀ n : Nat, ∃ s₂, allocateBlock maskFlags buddyEmpty fragmentedZone 1 0 0 0 (n + 2)
        = .ret (none, s₂) ∧
      s₂.zoneTable.map Zone.counters = [(4, 0, 4)] := by
  refine ⟨by decide, by decide, fun n => ?_⟩
  have hsel := getZone_first maskFlags fragmentedZone 1 0 0 0
    (mkZone 4 2 0 0 (some 0)) [[0]] 0 (n + 2) (by decide) rfl
    (by simp [PrefRings, RingPath, fragmentedZone, mkZone, ULONG_MOD])
    (by decide) (by simp)
  have hz₁ : (locked (skipped fragmentedZone ((List.flatten [[0]]).takeWhile
      (fun i => !allocates maskFlags fragmentedZone.zoneTable 1 0 i))) 0).zoneTable[0]?
      = some { mkZone 4 2 0 0 (some 0) with controlLock := true } := by decide
  refine ⟨_, allocateBlock_selected maskFlags buddyEmpty fragmentedZone _ 1 0 0 0 (n + 2) 0
    _ hsel hz₁, ?_⟩
  decide

/-- C10: the zone state is computed from the order, not from the number of
pages.  One zone of one page, which is allocated, and a request of order 0:
`getStatus 0` is `ALLOCABLE`, `getZone` selects the zone although it has no
page left, and after `allocateBlock`, whatever the buddy allocator answers,
`memoryAllocated` is 2 in a zone of 1 page. -/
theorem allocateBlock_exceeds_size :
    (∀ z ∈ tinyFullZone.zoneTable, z.memoryAllocated ≤ z.memorySize) ∧
    getStatus 0 (mkZone 1 1 0 0 (some 0)) = .ALLOCABLE ∧
    ∀ n : Nat,
      (∃ s₁, getZone maskFlags tinyFullZone 0 0 0 0 (n + 2) = .ret (some 0, s₁)) ∧
      ∀ buddyAllocate : Unit → Nat → Option Nat × Unit,
        ∃ r s₂, allocateBlock maskFlags buddyAllocate tinyFullZone 0 0 0 0 (n + 2)
            = .ret (r, s₂) ∧
          s₂.zoneTable.map Zone.counters = [(1, 0, 2)] := by
  refine ⟨by decide, by decide, fun n => ?_⟩
  have hsel := getZone_first maskFlags tinyFullZone 0 0 0 0
    (mkZone 1 1 0 0 (some 0)) [[0]] 0 (n + 2) (by decide) rfl
    (by simp [PrefRings, RingPath, tinyFullZone, mkZone, ULONG_MOD])
    (by decide) (by simp)
  have hz₁ : (locked (skipped tinyFullZone ((List.flatten [[0]]).takeWhile
      (fun i => !allocates maskFlags tinyFullZone.zoneTable 0 0 i))) 0).zoneTable[0]?
      = some { mkZone 1 1 0 0 (some 0) with controlLock := true } := by decide
  refine ⟨⟨_, hsel⟩, fun buddyAllocate => ?_⟩
  refine ⟨_, _, allocateBlock_selected maskFlags buddyAllocate tinyFullZone _ 0 0 0 0 (n + 2) 0
    _ hsel hz₁, ?_⟩
  rfl

/-! ## `freeBlock` -/

/-- C11: `freeBlock` on a block whose `ZnOffset` is a zone of the table
returns; `memoryAllocated` of that zone has gone down by `2 ^ Order` as a
machine word, exactly by `2 ^ Order` when the counter holds that much, the
order being the one of the descriptor passed, whatever the buddy allocator
makes of it; the buddy allocator of that zone has been given the block; the
size and the reserve of the zone, every other zone, the preference table and
the log of spinlock calls are unchanged: no zone is searched or locked. -/
theorem freeBlock_frame {β : Type} (buddyFree : β → BuddyBlock → β × BuddyBlock)
    (s : ZoneAllocator β) (blockGiven : BuddyBlock) (z : Zone β)
    (hz : s.zoneTable[blockGiven.ZnOffset]? = some z) :
    ∃ s' z', freeBlock buddyFree s blockGiven
        = .ret (s', (buddyFree z.memoryAllocator blockGiven).2) ∧
      s'.zoneTable[blockGiven.ZnOffset]? = some z' ∧
      z'.memoryAllocated = usub z.memoryAllocated (2 ^ blockGiven.Order % ULONG_MOD) ∧
      (2 ^ blockGiven.Order ≤ z.memoryAllocated → z.memoryAllocated < ULONG_MOD →
        z'.memoryAllocated = z.memoryAllocated - 2 ^ blockGiven.Order) ∧
      z'.memoryAllocator = (buddyFree z.memoryAllocator blockGiven).1 ∧
      z'.memorySize = z.memorySize ∧
      z'.memoryReserved = z.memoryReserved ∧
      z'.controlLock = z.controlLock ∧
      (∀ j : Nat, j ≠ blockGiven.ZnOffset → s'.zoneTable[j]? = s.zoneTable[j]?) ∧
      s'.prefTable = s.prefTable ∧
      s'.lockLog = s.lockLog := by
  have hlt := lt_length_of_getElem? _ _ _ hz
  refine ⟨{ s with
      zoneTable := s.zoneTable.set blockGiven.ZnOffset
        { z with
          memoryAllocated := usub z.memoryAllocated (SIZEOF_ORDER blockGiven.Order)
          memoryAllocator := (buddyFree z.memoryAllocator blockGiven).1 } },
    { z with
      memoryAllocated := usub z.memoryAllocated (SIZEOF_ORDER blockGiven.Order)
      memoryAllocator := (buddyFree z.memoryAllocator blockGiven).1 },
    by simp only [freeBlock, hz], ?_, rfl, ?_, rfl, rfl, rfl, rfl, ?_, rfl, rfl⟩
  · simp only [List.getElem?_set, hlt, if_true]
  · intro h1 h2
    have h3 : 2 ^ blockGiven.Order % ULONG_MOD = 2 ^ blockGiven.Order :=
      Nat.mod_eq_of_lt (by omega)
    simp only [SIZEOF_ORDER, h3]
    exact usub_of_le h1 h2
  · intro j hj
    simp only [List.getElem?_set_ne (Ne.symm hj)]

/-- Witness of C11: in the preference-fallback layout the block of order 2 of
zone 1 is freed; `memoryAllocated` of zone 1 goes from 8 to 4 although the
descriptor comes back with order 3. -/
theorem freeBlock_frame_witness :
    ∃ s' z', freeBlock buddyCoalesces fallbackLayout ⟨1, 2⟩
        = .ret (s', ⟨1, 3⟩) ∧
      s'.zoneTable[1]? = some z' ∧
      z'.memoryAllocated = usub 8 (2 ^ 2 % ULONG_MOD) ∧
      (2 ^ 2 ≤ 8 → 8 < ULONG_MOD → z'.memoryAllocated = 8 - 2 ^ 2) ∧
      z'.memoryAllocator = () ∧
      z'.memorySize = 8 ∧
      z'.memoryReserved = 0 ∧
      z'.controlLock = false ∧
      (∀ j : Nat, j ≠ 1 → s'.zoneTable[j]? = fallbackLayout.zoneTable[j]?) ∧
      s'.prefTable = fallbackLayout.prefTable ∧
      s'.lockLog = fallbackLayout.lockLog :=
  freeBlock_frame buddyCoalesces fallbackLayout ⟨1, 2⟩ (mkZone 8 8 0 1 (some 1)) rfl

/-! ## The buffer size -/

theorem Run.exists_of_returns {α : Type} {r : Run α} {p : α → Prop} (h : r.Returns p) :
    ∃ a, r = .ret a ∧ p a := by
  cases r with
  | ret a => exact ⟨a, rfl, h⟩
  | fault => exact absurd h (fun h => h)
  | spin => exact absurd h (fun h => h)
  | timeout => exact absurd h (fun h => h)

/-- For every size and every alignment `align > 0` with `size + align` inside
the machine word, the expression of `KiCreateType` for the buffer size has the
value of the macro `BUFFER_SIZE`, which is the smallest multiple of `align`
that is at least `size`: it is a multiple of `align`, at least `size`, at most
every such multiple, equal to `size` when `align` divides `size`, and less
than `align` above `size`. -/
theorem BUFFER_SIZE_spec (size align : Nat) (halign : 0 < align)
    (hword : size + align < ULONG_MOD) :
    KiCreateType.bufferSize size align = BUFFER_SIZE size align ∧
    align ∣ BUFFER_SIZE size align ∧
    size ≤ BUFFER_SIZE size align ∧
    (∀ m : Nat, align ∣ m → size ≤ m → BUFFER_SIZE size align ≤ m) ∧
    (align ∣ size → BUFFER_SIZE size align = size) ∧
    BUFFER_SIZE size align - size < align := by
  have hmod : size % align < align := Nat.mod_lt _ halign
  have hdm : align * (size / align) + size % align = size := Nat.div_add_mod size align
  have hval : BUFFER_SIZE size align
      = if size % align = 0 then size else align * (size / align + 1) := by
    unfold BUFFER_SIZE
    by_cases h0 : size % align = 0
    · rw [if_neg (by simpa using h0), if_pos h0]
    · rw [if_pos h0, if_neg h0]
      have h3 : uadd size align = size + align := Nat.mod_eq_of_lt hword
      have h4 : usub (size + align) (size % align) = size + align - size % align :=
        usub_of_le (by omega) hword
      rw [h3, h4, Nat.mul_add, Nat.mul_one]
      omega
  refine ⟨rfl, ?_, ?_, ?_, ?_, ?_⟩
  · rw [hval]
    split_ifs with h0
    · exact Nat.dvd_of_mod_eq_zero h0
    · exact Nat.dvd_mul_right _ _
  · rw [hval]
    split_ifs with h0
    · exact Nat.le_refl _
    · rw [Nat.mul_add, Nat.mul_one]; omega
  · intro m hm hsm
    rw [hval]
    split_ifs with h0
    · exact hsm
    · obtain ⟨q, rfl⟩ := hm
      have hq : size / align < q := by
        by_contra hq
        have hq' : q ≤ size / align := Nat.le_of_not_lt hq
        have : align * q ≤ align * (size / align) := Nat.mul_le_mul_left _ hq'
        omega
      exact Nat.mul_le_mul_left _ hq
  · intro hdvd
    rw [hval, if_pos (Nat.mod_eq_zero_of_dvd hdvd)]
  · rw [hval]
    split_ifs with h0
    · omega
    · rw [Nat.mul_add, Nat.mul_one]; omega

/-! ## Slab construction -/

theorem slabBuffers_succ (page bs : Nat) :
    ∀ k : Nat, slabBuffers page bs (k + 1) = slabBuffers (page + bs) bs k ++ [page] := by
  intro k
  induction k with
  | zero => simp [slabBuffers]
  | succ k ih =>
    rw [slabBuffers, ih, slabBuffers, List.cons_append]
    congr 1
    rw [Nat.add_mul, Nat.one_mul]
    omega

theorem ctorCalls_succ (page bs k : Nat) :
    ctorCalls page bs (k + 1) = .ctor page :: ctorCalls (page + bs) bs k := by
  unfold ctorCalls
  rw [List.range_succ_eq_map, List.map_cons, List.map_map]
  simp only [Nat.zero_mul, Nat.add_zero, List.cons.injEq, true_and]
  apply List.map_congr_left
  intro i _
  simp only [Function.comp, Nat.succ_eq_add_one, Nat.add_mul, Nat.one_mul]
  congr 1
  omega

theorem slabBuffers_length (page bs : Nat) : ∀ k : Nat, (slabBuffers page bs k).length = k := by
  intro k
  induction k with
  | zero => rfl
  | succ k ih => simp [slabBuffers, ih]

theorem mem_slabBuffers (page bs : Nat) :
    ∀ (k b : Nat), b ∈ slabBuffers page bs k ↔ ∃ i, i < k ∧ b = page + i * bs := by
  intro k
  induction k with
  | zero => intro b; simp [slabBuffers]
  | succ k ih =>
    intro b
    rw [slabBuffers, List.mem_cons, ih]
    constructor
    · rintro (h | ⟨i, hi, h⟩)
      · exact ⟨k, by omega, h⟩
      · exact ⟨i, by omega, h⟩
    · rintro ⟨i, hi, h⟩
      by_cases hik : i = k
      · subst hik; exact Or.inl h
      · exact Or.inr ⟨i, by omega, h⟩

/-- The loop of `ObCreateSlab` makes exactly `k` turns when the `k`-th address
from `obPtr` is the first not below the fence and no address wraps round: it
pushes the `k` buffers from `obPtr`, and constructs them if asked to. -/
theorem fill_spec (bs fence : Nat) (construct : Bool) :
    ∀ (k fuel obPtr : Nat) (stack : List Nat) (calls : List ObEvent),
      k < fuel → fence ≤ obPtr + k * bs → (∀ i, i < k → obPtr + i * bs < fence) →
      obPtr + k * bs < ULONG_MOD →
      ObCreateSlab.fill bs fence construct fuel obPtr stack calls =
        some (slabBuffers obPtr bs k ++ stack,
          calls ++ (if construct then ctorCalls obPtr bs k else [])) := by
  intro k
  induction k with
  | zero =>
    intro fuel obPtr stack calls hf hlast _ _
    obtain ⟨n, rfl⟩ : ∃ n, fuel = n + 1 := ⟨fuel - 1, by omega⟩
    rw [ObCreateSlab.fill, if_neg (by omega)]
    cases construct <;> simp [slabBuffers, ctorCalls]
  | succ k ih =>
    intro fuel obPtr stack calls hf hlast hprev hw
    obtain ⟨n, rfl⟩ : ∃ n, fuel = n + 1 := ⟨fuel - 1, by omega⟩
    have h0 : obPtr < fence := by simpa using hprev 0 (by omega)
    have hmul : (k + 1) * bs = k * bs + bs := by rw [Nat.add_mul, Nat.one_mul]
    have hadd : uadd obPtr bs = obPtr + bs := Nat.mod_eq_of_lt (by omega)
    rw [ObCreateSlab.fill, if_pos h0, hadd,
      ih n (obPtr + bs) _ _ (by omega) (by omega)
        (fun i hi => by
          have := hprev (i + 1) (by omega)
          rw [Nat.add_mul, Nat.one_mul] at this
          omega)
        (by omega),
      slabBuffers_succ, ctorCalls_succ]
    cases construct <;> simp [PushElement]

/-! ## Reading the memory of the object manager -/

@[simp] theorem Run.bind_ret {α β : Type} (a : α) (f : α → Run β) :
    (Run.ret a).bind f = f a := rfl

@[simp] theorem Run.bind_fault {α β : Type} (f : α → Run β) :
    (Run.fault : Run α).bind f = .fault := rfl

@[simp] theorem Run.bind_spin {α β : Type} (f : α → Run β) :
    (Run.spin : Run α).bind f = .spin := rfl

@[simp] theorem Run.bind_timeout {α β : Type} (f : α → Run β) :
    (Run.timeout : Run α).bind f = .timeout := rfl

@[simp] theorem setType_types_self (st : ObState) (a : Nat) (info : ObjectInfo) :
    (st.setType a info).types a = some info := by
  simp [ObState.setType]

theorem setType_types_ne (st : ObState) (a x : Nat) (info : ObjectInfo) (h : x ≠ a) :
    (st.setType a info).types x = st.types x := by
  simp [ObState.setType, h]

@[simp] theorem setType_slabs (st : ObState) (a : Nat) (info : ObjectInfo) :
    (st.setType a info).slabs = st.slabs := rfl

@[simp] theorem setType_tList (st : ObState) (a : Nat) (info : ObjectInfo) :
    (st.setType a info).tList = st.tList := rfl

@[simp] theorem setType_obLog (st : ObState) (a : Nat) (info : ObjectInfo) :
    (st.setType a info).obLog = st.obLog := rfl

@[simp] theorem setType_normal (st : ObState) (a : Nat) (info : ObjectInfo) :
    (st.setType a info).oballocNormaleUse = st.oballocNormaleUse := rfl

@[simp] theorem setSlab_slabs_self (st : ObState) (a : Nat) (slab : Slab) :
    (st.setSlab a slab).slabs a = some slab := by
  simp [ObState.setSlab]

theorem setSlab_slabs_ne (st : ObState) (a x : Nat) (slab : Slab) (h : x ≠ a) :
    (st.setSlab a slab).slabs x = st.slabs x := by
  simp [ObState.setSlab, h]

@[simp] theorem setSlab_types (st : ObState) (a : Nat) (slab : Slab) :
    (st.setSlab a slab).types = st.types := rfl

@[simp] theorem setSlab_tList (st : ObState) (a : Nat) (slab : Slab) :
    (st.setSlab a slab).tList = st.tList := rfl

@[simp] theorem setSlab_obLog (st : ObState) (a : Nat) (slab : Slab) :
    (st.setSlab a slab).obLog = st.obLog := rfl

@[simp] theorem setSlab_normal (st : ObState) (a : Nat) (slab : Slab) :
    (st.setSlab a slab).oballocNormaleUse = st.oballocNormaleUse := rfl

@[simp] theorem emit_types (st : ObState) (es : List ObEvent) :
    (st.emit es).types = st.types := rfl

@[simp] theorem emit_slabs (st : ObState) (es : List ObEvent) :
    (st.emit es).slabs = st.slabs := rfl

@[simp] theorem emit_tList (st : ObState) (es : List ObEvent) :
    (st.emit es).tList = st.tList := rfl

@[simp] theorem emit_obLog (st : ObState) (es : List ObEvent) :
    (st.emit es).obLog = st.obLog ++ es := rfl

@[simp] theorem emit_normal (st : ObState) (es : List ObEvent) :
    (st.emit es).oballocNormaleUse = st.oballocNormaleUse := rfl

theorem emit_emit (st : ObState) (a b : List ObEvent) :
    (st.emit a).emit b = st.emit (a ++ b) := by
  simp [ObState.emit, List.append_assoc]

theorem setType_emit (st : ObState) (h : Nat) (info : ObjectInfo) (e : List ObEvent) :
    (st.emit e).setType h info = (st.setType h info).emit e := rfl

theorem setSlab_emit (st : ObState) (a : Nat) (slab : Slab) (e : List ObEvent) :
    (st.emit e).setSlab a slab = (st.setSlab a slab).emit e := rfl

theorem setSlab_setType (st : ObState) (a h : Nat) (slab : Slab) (info : ObjectInfo) :
    (st.setSlab a slab).setType h info = (st.setType h info).setSlab a slab := rfl

theorem setType_setType (st : ObState) (h : Nat) (a b : ObjectInfo) :
    (st.setType h a).setType h b = st.setType h b := by
  unfold ObState.setType
  congr 1
  funext x
  by_cases hx : x = h <;> simp [hx]

theorem setSlab_setSlab (st : ObState) (a : Nat) (s₁ s₂ : Slab) :
    (st.setSlab a s₁).setSlab a s₂ = st.setSlab a s₂ := by
  unfold ObState.setSlab
  congr 1
  funext x
  by_cases hx : x = a <;> simp [hx]

/-! ## The buffer size `KiCreateType` stores -/

/-- C12: `KiCreateType` for an alignment `tAlign > 0` with `tSize + tAlign`
inside the machine word, when `KNew` gives it an `ObjectInfo`.  The buffer
size it computes is the value of the macro `BUFFER_SIZE`, which is the
smallest multiple of `tAlign` that is at least `tSize`: a multiple of
`tAlign`, at least `tSize`, at most every such multiple, equal to `tSize` when
`tAlign` divides `tSize`, and less than `tAlign` above `tSize`.  For a size
from 1 the call returns the `ObjectInfo`, in which that value is stored as
`bufferSize`, next to the size and the alignment; for the size 0 the value is
0 and the division by it, for `bufferPerSlab`, is a fault. -/
theorem BUFFER_SIZE_round_up (D : SlabDecls) (st st₁ : ObState)
    (tName tSize tAlign ctor dtor page fuel typeInfo : Nat)
    (halign : 0 < tAlign) (hword : tSize + tAlign < ULONG_MOD)
    (hnew : KNew D st D.tObjectInfo
      (if st.oballocNormaleUse then D.KM_SLEEP
        else D.FLG_ATOMIC ||| D.FLG_NOCACHE ||| D.KF_NOINTR) page fuel
      = .ret (typeInfo, st₁))
    (hobj : typeInfo ≠ 0) :
    KiCreateType.bufferSize tSize tAlign = BUFFER_SIZE tSize tAlign ∧
    tAlign ∣ BUFFER_SIZE tSize tAlign ∧
    tSize ≤ BUFFER_SIZE tSize tAlign ∧
    (∀ m : Nat, tAlign ∣ m → tSize ≤ m → BUFFER_SIZE tSize tAlign ≤ m) ∧
    (tAlign ∣ tSize → BUFFER_SIZE tSize tAlign = tSize) ∧
    BUFFER_SIZE tSize tAlign - tSize < tAlign ∧
    (0 < tSize →
      ∃ st₂ info, KiCreateType D st tName tSize tAlign ctor dtor page fuel
          = .ret (typeInfo, st₂) ∧
        st₂.types typeInfo = some info ∧
        info.rawSize = tSize ∧ info.align = tAlign ∧
        info.bufferSize = BUFFER_SIZE tSize tAlign) ∧
    (tSize = 0 →
      BUFFER_SIZE tSize tAlign = 0 ∧
      KiCreateType D st tName tSize tAlign ctor dtor page fuel = .fault) := by
  obtain ⟨heq, hdvd, hle, hmin, hsame, hlt⟩ := BUFFER_SIZE_spec tSize tAlign halign hword
  refine ⟨heq, hdvd, hle, hmin, hsame, hlt, ?_, ?_⟩
  · intro hsize
    have hne : KiCreateType.bufferSize tSize tAlign ≠ 0 := by rw [heq]; omega
    have hrun : (KiCreateType D st tName tSize tAlign ctor dtor page fuel).Returns (fun x =>
        x.1 = typeInfo ∧ ∃ info, x.2.types typeInfo = some info ∧
          info.rawSize = tSize ∧ info.align = tAlign ∧
          info.bufferSize = KiCreateType.bufferSize tSize tAlign) := by
      simp only [KiCreateType, hnew, Run.bind_ret, if_neg hobj, if_neg halign.ne', if_neg hne]
      exact ⟨rfl, _, setType_types_self _ _ _, rfl, rfl, rfl⟩
    obtain ⟨⟨r, st₂⟩, h2, hr, info, hinfo, hraw, hal, hbuf⟩ := Run.exists_of_returns hrun
    simp only at hr hinfo
    subst hr
    rw [heq] at hbuf
    exact ⟨st₂, info, h2, hinfo, hraw, hal, hbuf⟩
  · intro h0
    have hz : BUFFER_SIZE tSize tAlign = 0 := by
      have := hsame (h0 ▸ Nat.dvd_zero tAlign)
      omega
    have hz' : KiCreateType.bufferSize tSize tAlign = 0 := heq.trans hz
    refine ⟨hz, ?_⟩
    simp only [KiCreateType, hnew, Run.bind_ret, if_neg hobj, if_neg halign.ne', if_pos hz']

set_option maxRecDepth 100000 in
/-- Witness of C12: the first type created after `obSetupAllocator`, of 76
bytes on an alignment of 32; the `ObjectInfo` is the buffer at 2101088 of the
slab on the page at 2097152, and the type takes buffers of 96 bytes. -/
theorem BUFFER_SIZE_round_up_witness :
    BUFFER_SIZE 76 32 = 96 ∧
    KiCreateType.bufferSize 76 32 = BUFFER_SIZE 76 32 ∧
    32 ∣ BUFFER_SIZE 76 32 ∧
    76 ≤ BUFFER_SIZE 76 32 ∧
    (∀ m : Nat, 32 ∣ m → 76 ≤ m → BUFFER_SIZE 76 32 ≤ m) ∧
    (32 ∣ 76 → BUFFER_SIZE 76 32 = 76) ∧
    BUFFER_SIZE 76 32 - 76 < 32 ∧
    (0 < 76 →
      ∃ st₂ info,
        KiCreateType ia32Decls (obSetupAllocator ia32Decls bootState) 7 76 32 0 0 2097152 64
          = .ret (2101088, st₂) ∧
        st₂.types 2101088 = some info ∧
        info.rawSize = 76 ∧ info.align = 32 ∧
        info.bufferSize = BUFFER_SIZE 76 32) ∧
    (76 = 0 →
      BUFFER_SIZE 76 32 = 0 ∧
      KiCreateType ia32Decls (obSetupAllocator ia32Decls bootState) 7 76 32 0 0 2097152 64
        = .fault) := by
  have h : (KNew ia32Decls (obSetupAllocator ia32Decls bootState) ia32Decls.tObjectInfo
      (if (obSetupAllocator ia32Decls bootState).oballocNormaleUse then ia32Decls.KM_SLEEP
        else ia32Decls.FLG_ATOMIC ||| ia32Decls.FLG_NOCACHE ||| ia32Decls.KF_NOINTR)
      2097152 64).Returns (fun x => x.1 = 2101088) := by
    decide
  obtain ⟨⟨typeInfo, st₁⟩, h1, ht⟩ := Run.exists_of_returns h
  simp only at ht
  subst ht
  exact ⟨by decide, BUFFER_SIZE_round_up ia32Decls (obSetupAllocator ia32Decls bootState) st₁
    7 76 32 0 0 2097152 64 2101088 (by decide) (by decide) h1 (by decide)⟩

/-! ## The slab `ObCreateSlab` builds -/

/-- The slab `ObCreateSlab` builds on a page that does not wrap round the
address space, for buffers of a size from 1 to the room below the header: the
header is at `page + KPGSIZE - sizeof(Slab)`, its free stack holds the first
`(KPGSIZE - sizeof(Slab) - 1) / bufferSize` buffers of the page, its
`freeCount` is `bufferPerSlab`; nothing else changes but the log of calls. -/
theorem ObCreateSlab_eq (D : SlabDecls) (st : ObState) (metaInfo kmSleep page fuel : Nat)
    (info : ObjectInfo)
    (hinfo : st.types metaInfo = some info)
    (hbs : 0 < info.bufferSize)
    (hfit : info.bufferSize ≤ D.KPGSIZE - D.sizeofSlab)
    (hword : page + D.KPGSIZE < ULONG_MOD)
    (hfuel : ObCreateSlab.turns D info.bufferSize < fuel) :
    ObCreateSlab D st metaInfo kmSleep page fuel
      = .ret (page + D.KPGSIZE - D.sizeofSlab,
        (st.setSlab (page + D.KPGSIZE - D.sizeofSlab)
          { colouringOffset := info.colorScheme
            bufferStack := slabBuffers page info.bufferSize
              (ObCreateSlab.turns D info.bufferSize)
            freeCount := info.bufferPerSlab }).emit
          (ObCreateSlab.calls D st.oballocNormaleUse metaInfo kmSleep page info.ctor
            info.bufferSize)) := by
  unfold ObCreateSlab.turns at hfuel ⊢
  have hA : D.sizeofSlab < D.KPGSIZE := by omega
  have h1 : uadd page D.KPGSIZE = page + D.KPGSIZE := Nat.mod_eq_of_lt hword
  have h2 : usub (page + D.KPGSIZE) D.sizeofSlab = page + D.KPGSIZE - D.sizeofSlab :=
    usub_of_le (by omega) hword
  have h3 : usub D.KPGSIZE D.sizeofSlab = D.KPGSIZE - D.sizeofSlab :=
    usub_of_le (by omega) (by omega)
  have h4 : uadd page (D.KPGSIZE - D.sizeofSlab) = page + (D.KPGSIZE - D.sizeofSlab) :=
    Nat.mod_eq_of_lt (by omega)
  have h5 : usub (page + (D.KPGSIZE - D.sizeofSlab)) info.bufferSize
      = page + (D.KPGSIZE - D.sizeofSlab) - info.bufferSize :=
    usub_of_le (by omega) (by omega)
  have hdm := Nat.div_add_mod (D.KPGSIZE - D.sizeofSlab - 1) info.bufferSize
  have hmod := Nat.mod_lt (D.KPGSIZE - D.sizeofSlab - 1) hbs
  have hcomm : info.bufferSize * ((D.KPGSIZE - D.sizeofSlab - 1) / info.bufferSize)
      = (D.KPGSIZE - D.sizeofSlab - 1) / info.bufferSize * info.bufferSize := Nat.mul_comm _ _
  have hfill := fill_spec info.bufferSize
    (page + (D.KPGSIZE - D.sizeofSlab) - info.bufferSize) (info.ctor != 0)
    ((D.KPGSIZE - D.sizeofSlab - 1) / info.bufferSize) fuel page [] [] hfuel
    (by omega)
    (fun i hi => by
      have hle : (i + 1) * info.bufferSize
          ≤ (D.KPGSIZE - D.sizeofSlab - 1) / info.bufferSize * info.bufferSize :=
        Nat.mul_le_mul_right _ (by omega)
      rw [Nat.add_mul, Nat.one_mul] at hle
      omega)
    (by omega)
  simp only [ObCreateSlab, hinfo, h1, h2, h3, h4, h5, hfill, List.append_nil,
    List.nil_append, ObCreateSlab.calls, ObCreateSlab.slFlags, ObCreateSlab.turns]
  by_cases hc : info.ctor = 0 <;>
    simp [hc, setSlab_emit, emit_emit]

/-- The slab of `ObCreateSlab`, read field by field. -/
theorem ObCreateSlab_spec (D : SlabDecls) (st : ObState) (metaInfo kmSleep page fuel : Nat)
    (info : ObjectInfo)
    (hinfo : st.types metaInfo = some info)
    (hbs : 0 < info.bufferSize)
    (hfit : info.bufferSize ≤ D.KPGSIZE - D.sizeofSlab)
    (hword : page + D.KPGSIZE < ULONG_MOD)
    (hfuel : (D.KPGSIZE - D.sizeofSlab - 1) / info.bufferSize < fuel) :
    ∃ st', ObCreateSlab D st metaInfo kmSleep page fuel
        = .ret (page + D.KPGSIZE - D.sizeofSlab, st') ∧
      st'.slabs (page + D.KPGSIZE - D.sizeofSlab) = some
        { colouringOffset := info.colorScheme
          bufferStack := slabBuffers page info.bufferSize
            ((D.KPGSIZE - D.sizeofSlab - 1) / info.bufferSize)
          freeCount := info.bufferPerSlab } ∧
      (∀ x, x ≠ page + D.KPGSIZE - D.sizeofSlab → st'.slabs x = st.slabs x) ∧
      st'.types = st.types ∧ st'.tList = st.tList ∧
      st'.oballocNormaleUse = st.oballocNormaleUse ∧
      st'.obLog = st.obLog ++
        ObCreateSlab.calls D st.oballocNormaleUse metaInfo kmSleep page info.ctor
          info.bufferSize := by
  refine ⟨_, ObCreateSlab_eq D st metaInfo kmSleep page fuel info hinfo hbs hfit hword hfuel,
    ?_, ?_, ?_, ?_, ?_, ?_⟩
  · simp [ObCreateSlab.turns]
  · intro x hx
    simp [setSlab_slabs_ne _ _ _ _ hx]
  · simp
  · simp
  · simp
  · simp

/-- The slab `ObCreateSlab` builds on a page inside the address space, for
every buffer size from 1 for which the fence
`pageAddress + (KPGSIZE - sizeof(Slab)) - bufferSize` does not wrap round,
larger than the room below the header or not: the header is at
`page + KPGSIZE - sizeof(Slab)`, the free stack holds the first
`(KPGSIZE - sizeof(Slab) - 1) / bufferSize` buffers of the page, none for a
buffer size from the room upwards, and `freeCount` is `bufferPerSlab`. -/
theorem ObCreateSlab_no_wrap (D : SlabDecls) (st : ObState)
    (metaInfo kmSleep page fuel : Nat) (info : ObjectInfo)
    (hinfo : st.types metaInfo = some info)
    (hbs : 0 < info.bufferSize)
    (hnowrap : info.bufferSize ≤ page + (D.KPGSIZE - D.sizeofSlab))
    (hhdr : 0 < D.sizeofSlab) (hroom : D.sizeofSlab < D.KPGSIZE)
    (hword : page + D.KPGSIZE ≤ ULONG_MOD)
    (hfuel : ObCreateSlab.turns D info.bufferSize < fuel) :
    ObCreateSlab D st metaInfo kmSleep page fuel
      = .ret (page + D.KPGSIZE - D.sizeofSlab,
        (st.setSlab (page + D.KPGSIZE - D.sizeofSlab)
          { colouringOffset := info.colorScheme
            bufferStack := slabBuffers page info.bufferSize
              (ObCreateSlab.turns D info.bufferSize)
            freeCount := info.bufferPerSlab }).emit
          (ObCreateSlab.calls D st.oballocNormaleUse metaInfo kmSleep page info.ctor
            info.bufferSize)) := by
  unfold ObCreateSlab.turns at hfuel ⊢
  have h12 : usub (uadd page D.KPGSIZE) D.sizeofSlab = page + D.KPGSIZE - D.sizeofSlab := by
    unfold usub uadd ULONG_MOD
    unfold ULONG_MOD at hword
    omega
  have h3 : usub D.KPGSIZE D.sizeofSlab = D.KPGSIZE - D.sizeofSlab := by
    unfold usub ULONG_MOD
    unfold ULONG_MOD at hword
    omega
  have h4 : uadd page (D.KPGSIZE - D.sizeofSlab) = page + (D.KPGSIZE - D.sizeofSlab) := by
    unfold uadd ULONG_MOD
    unfold ULONG_MOD at hword
    omega
  have h5 : usub (page + (D.KPGSIZE - D.sizeofSlab)) info.bufferSize
      = page + (D.KPGSIZE - D.sizeofSlab) - info.bufferSize :=
    usub_of_le hnowrap (by unfold ULONG_MOD at hword ⊢; omega)
  have hdm := Nat.div_add_mod (D.KPGSIZE - D.sizeofSlab - 1) info.bufferSize
  have hmod := Nat.mod_lt (D.KPGSIZE - D.sizeofSlab - 1) hbs
  have hcomm : info.bufferSize * ((D.KPGSIZE - D.sizeofSlab - 1) / info.bufferSize)
      = (D.KPGSIZE - D.sizeofSlab - 1) / info.bufferSize * info.bufferSize := Nat.mul_comm _ _
  have hfill := fill_spec info.bufferSize
    (page + (D.KPGSIZE - D.sizeofSlab) - info.bufferSize) (info.ctor != 0)
    ((D.KPGSIZE - D.sizeofSlab - 1) / info.bufferSize) fuel page [] [] hfuel
    (by omega)
    (fun i hi => by
      have hle : (i + 1) * info.bufferSize
          ≤ (D.KPGSIZE - D.sizeofSlab - 1) / info.bufferSize * info.bufferSize :=
        Nat.mul_le_mul_right _ (by omega)
      rw [Nat.add_mul, Nat.one_mul] at hle
      omega)
    (by unfold ULONG_MOD at hword ⊢; omega)
  simp only [ObCreateSlab, hinfo, h12, h3, h4, h5, hfill, List.append_nil,
    List.nil_append, ObCreateSlab.calls, ObCreateSlab.slFlags, ObCreateSlab.turns]
  by_cases hc : info.ctor = 0 <;>
    simp [hc, setSlab_emit, emit_emit]

/-- When the buffer size divides the room below the header, the free stack
`ObCreateSlab` builds is one buffer short of `bufferPerSlab` as `KiCreateType`
computes it, while `freeCount` is set to `bufferPerSlab`: the buffer that ends
exactly at the header is not pushed. -/
theorem ObCreateSlab_divisible (D : SlabDecls) (st : ObState)
    (metaInfo kmSleep page fuel : Nat) (info : ObjectInfo)
    (hinfo : st.types metaInfo = some info)
    (hbs : 0 < info.bufferSize)
    (hdvd : info.bufferSize ∣ D.KPGSIZE - D.sizeofSlab)
    (hroom : 0 < D.KPGSIZE - D.sizeofSlab)
    (hper : info.bufferPerSlab = (D.KPGSIZE - D.sizeofSlab) / info.bufferSize)
    (hword : page + D.KPGSIZE < ULONG_MOD)
    (hfuel : (D.KPGSIZE - D.sizeofSlab) / info.bufferSize ≤ fuel) :
    ∃ st' slab, ObCreateSlab D st metaInfo kmSleep page fuel
        = .ret (page + D.KPGSIZE - D.sizeofSlab, st') ∧
      st'.slabs (page + D.KPGSIZE - D.sizeofSlab) = some slab ∧
      slab.freeCount = info.bufferPerSlab ∧
      slab.bufferStack.length + 1 = info.bufferPerSlab ∧
      page + (info.bufferPerSlab - 1) * info.bufferSize + info.bufferSize
        = page + D.KPGSIZE - D.sizeofSlab ∧
      page + (info.bufferPerSlab - 1) * info.bufferSize ∉ slab.bufferStack := by
  obtain ⟨q, hq⟩ := hdvd
  have hq0 : 0 < q := by
    rcases Nat.eq_zero_or_pos q with h | h
    · subst h; omega
    · exact h
  have hdiv : (D.KPGSIZE - D.sizeofSlab) / info.bufferSize = q := by
    rw [hq, Nat.mul_div_cancel_left _ hbs]
  have hdiv1 : (D.KPGSIZE - D.sizeofSlab - 1) / info.bufferSize = q - 1 := by
    have h1 : D.KPGSIZE - D.sizeofSlab - 1
        = (info.bufferSize - 1) + (q - 1) * info.bufferSize := by
      have : q = (q - 1) + 1 := by omega
      rw [hq]
      conv_lhs => rw [this, Nat.mul_add, Nat.mul_one, Nat.mul_comm]
      omega
    rw [h1, Nat.add_mul_div_right _ _ hbs, Nat.div_eq_of_lt (by omega), Nat.zero_add]
  have hle : info.bufferSize ≤ D.KPGSIZE - D.sizeofSlab := by
    rw [hq]; exact Nat.le_mul_of_pos_right _ hq0
  obtain ⟨st', hrun, hslab, -⟩ := ObCreateSlab_spec D st metaInfo kmSleep page fuel info hinfo
    hbs hle hword (by rw [hdiv1]; rw [hdiv] at hfuel; omega)
  rw [hdiv1] at hslab
  refine ⟨st', _, hrun, hslab, rfl, ?_, ?_, ?_⟩
  · simp only [slabBuffers_length, hper, hdiv]; omega
  · rw [hper, hdiv]
    have : (q - 1) * info.bufferSize + info.bufferSize = info.bufferSize * q := by
      have hq1 : q = (q - 1) + 1 := by omega
      conv_rhs => rw [hq1, Nat.mul_add, Nat.mul_one, Nat.mul_comm]
    omega
  · simp only [mem_slabBuffers, hper, hdiv]
    rintro ⟨i, hi, h⟩
    have h' : (q - 1) * info.bufferSize = i * info.bufferSize := by omega
    have := Nat.eq_of_mul_eq_mul_right hbs h'
    omega

set_option maxRecDepth 100000 in
/-- C13: `ObCreateSlab` leaves out the buffer that ends exactly at the header.
With pages of 4096 bytes and a header of 32 bytes, a type of size 508 and
alignment 4 has `bufferSize = 508` and `bufferPerSlab = 8`; the slab built on
the page at 3145728 has its header at 3149792, `freeCount = 8`, and only the 7
buffers below 3145728 + 7 * 508 on its free stack, although that eighth
position satisfies `position + bufferSize ≤ fence`. -/
theorem ObCreateSlab_misses_last_buffer :
    ∃ st₁ st₂, typeCreated 508 4 = .ret (2101088, st₁) ∧
      (st₁.types 2101088).map (fun i => (i.bufferSize, i.bufferPerSlab)) = some (508, 8) ∧
      ObCreateSlab ia32Decls st₁ 2101088 0 3145728 64 = .ret (3149792, st₂) ∧
      st₂.slabs 3149792 = some
        { colouringOffset := 0
          bufferStack := [3148776, 3148268, 3147760, 3147252, 3146744, 3146236, 3145728]
          freeCount := 8 } ∧
      3145728 + 7 * 508 + 508 ≤ 3145728 + 4096 - 32 ∧
      3145728 + 7 * 508 ∉ [3148776, 3148268, 3147760, 3147252, 3146744, 3146236, 3145728] := by
  have h : (typeCreated 508 4).Returns (fun x =>
      x.1 = 2101088 ∧
      (x.2.types 2101088).map (fun i => (i.bufferSize, i.bufferPerSlab)) = some (508, 8) ∧
      (ObCreateSlab ia32Decls x.2 2101088 0 3145728 64).Returns (fun y =>
        y.1 = 3149792 ∧
        y.2.slabs 3149792 = some
          { colouringOffset := 0
            bufferStack := [3148776, 3148268, 3147760, 3147252, 3146744, 3146236, 3145728]
            freeCount := 8 })) := by
    decide
  obtain ⟨⟨a, st₁⟩, h₁, ha, hty, h₂⟩ := Run.exists_of_returns h
  obtain ⟨⟨b, st₂⟩, h₃, hb, hsl⟩ := Run.exists_of_returns h₂
  simp only at ha hb hty hsl h₃
  subst ha
  subst hb
  exact ⟨st₁, st₂, h₁, hty, h₃, hsl, by decide, by decide⟩

/-! ## `KNew` -/

theorem cacheSpinLock_free (st : ObState) (h : Nat) (info : ObjectInfo)
    (hinfo : st.types h = some info) (hfree : info.lock = false) :
    cacheSpinLock st h
      = .ret ((st.setType h { info with lock := true }).emit [.SpinLock h]) := by
  simp [cacheSpinLock, hinfo, hfree]

theorem unlock_eq_self (info : ObjectInfo) (hfree : info.lock = false) :
    ({ info with lock := false } : ObjectInfo) = info := by
  cases info; simp_all

/-- `KNew` on a cache whose partial list is not empty: the slab is the head
`S` of the list; the free stack of `S` is popped, its `freeCount`
decremented, `S` goes to the head of the full list when the count is 0; the
page-frame manager is not called. -/
theorem KNew_head (D : SlabDecls) (st : ObState) (h kmSleep page fuel S : Nat)
    (rest : List Nat) (info : ObjectInfo) (sl : Slab)
    (hinfo : st.types h = some info) (hfree : info.lock = false)
    (hpart : info.partialList.nodes = S :: rest)
    (hS : S ≠ 0) (hsl : st.slabs S = some sl) :
    KNew D st h kmSleep page fuel = .ret ((PopElement sl.bufferStack).1,
      ((st.setType h
          (if usub sl.freeCount 1 = 0 then
            { info with
              partialList := RemoveCElement S info.partialList
              fullList := AddCElement S .CFIRST info.fullList }
          else info)).setSlab S
          { sl with
            bufferStack := (PopElement sl.bufferStack).2
            freeCount := usub sl.freeCount 1 }).emit
        ([.cli, .SpinLock h, .SpinUnlock h] ++
          if st.oballocNormaleUse then [.sti] else [])) := by
  have hlock := cacheSpinLock_free (st.emit [.cli]) h info (by simpa using hinfo) hfree
  have hcount : ({ info with lock := true } : ObjectInfo).partialList.count ≠ 0 := by
    simp [CircularList.count, hpart]
  have hmain : ({ info with lock := true } : ObjectInfo).partialList.lMain = S := by
    simp [CircularList.lMain, hpart]
  have hlk := unlock_eq_self info hfree
  simp only [KNew, hlock, Run.bind_ret, ObFindSlab, emit_types, setType_types_self, hcount,
    ne_eq, not_false_eq_true, if_true, hmain, hS, emit_slabs, setType_slabs, hsl]
  by_cases hz : usub sl.freeCount 1 = 0
  · cases hn : st.oballocNormaleUse <;>
      simp [ObPlaceSlab, cacheSpinUnlock, hz, hn, setType_emit, setSlab_emit, emit_emit,
        setSlab_setType, setType_setType, hlk, hfree]
  · cases hn : st.oballocNormaleUse <;>
      simp [ObPlaceSlab, cacheSpinUnlock, hz, hn, setType_emit, setSlab_emit, emit_emit,
        setSlab_setType, setType_setType, hlk, hfree]

/-- `KNew` on a cache whose partial list is empty and which has a cached empty
slab `E`: `E` is taken out of `emptySlab` and appended to the partial list,
then used as above; the page-frame manager is not called. -/
theorem KNew_promote (D : SlabDecls) (st : ObState) (h kmSleep page fuel : Nat)
    (info : ObjectInfo) (sl : Slab)
    (hinfo : st.types h = some info) (hfree : info.lock = false)
    (hpart : info.partialList.nodes = [])
    (hE : info.emptySlab ≠ 0) (hsl : st.slabs info.emptySlab = some sl) :
    KNew D st h kmSleep page fuel = .ret ((PopElement sl.bufferStack).1,
      ((st.setType h
          (if usub sl.freeCount 1 = 0 then
            { info with
              emptySlab := 0
              partialList := RemoveCElement info.emptySlab
                (AddCElement info.emptySlab .CLAST info.partialList)
              fullList := AddCElement info.emptySlab .CFIRST info.fullList }
          else
            { info with
              emptySlab := 0
              partialList := AddCElement info.emptySlab .CLAST info.partialList })).setSlab
          info.emptySlab
          { sl with
            bufferStack := (PopElement sl.bufferStack).2
            freeCount := usub sl.freeCount 1 }).emit
        ([.cli, .SpinLock h, .SpinUnlock h] ++
          if st.oballocNormaleUse then [.sti] else [])) := by
  have hlock := cacheSpinLock_free (st.emit [.cli]) h info (by simpa using hinfo) hfree
  have hcount : ({ info with lock := true } : ObjectInfo).partialList.count = 0 := by
    simp [CircularList.count, hpart]
  simp only [KNew, hlock, Run.bind_ret, ObFindSlab, emit_types, setType_types_self, hcount,
    ne_eq, not_true_eq_false, if_false, hE, emit_slabs, setType_slabs, hsl,
    not_false_eq_true, if_true]
  by_cases hz : usub sl.freeCount 1 = 0
  · cases hn : st.oballocNormaleUse <;>
      simp [ObPlaceSlab, cacheSpinUnlock, hz, hn, setType_emit, setSlab_emit, emit_emit,
        setSlab_setType, setType_setType, hfree, hsl, hE]
  · cases hn : st.oballocNormaleUse <;>
      simp [ObPlaceSlab, cacheSpinUnlock, hz, hn, setType_emit, setSlab_emit, emit_emit,
        setSlab_setType, setType_setType, hfree, hsl, hE]

/-- `KNew` on a cache whose partial list is empty and which has no cached
empty slab: a slab is constructed on the page the page-frame manager
answered, whatever that page is, appended to the partial list and used as
above; the page-frame manager is called once. -/
theorem KNew_construct (D : SlabDecls) (st : ObState) (h kmSleep page fuel : Nat)
    (info : ObjectInfo)
    (hinfo : st.types h = some info) (hfree : info.lock = false)
    (hpart : info.partialList.nodes = [])
    (hE : info.emptySlab = 0)
    (hbs : 0 < info.bufferSize)
    (hfit : info.bufferSize ≤ D.KPGSIZE - D.sizeofSlab)
    (hword : page + D.KPGSIZE < ULONG_MOD)
    (hfuel : ObCreateSlab.turns D info.bufferSize < fuel) :
    KNew D st h kmSleep page fuel = .ret
      ((PopElement (slabBuffers page info.bufferSize
          (ObCreateSlab.turns D info.bufferSize))).1,
      ((st.setType h
          (if usub info.bufferPerSlab 1 = 0 then
            { info with
              partialList := RemoveCElement (page + D.KPGSIZE - D.sizeofSlab)
                (AddCElement (page + D.KPGSIZE - D.sizeofSlab) .CLAST info.partialList)
              fullList := AddCElement (page + D.KPGSIZE - D.sizeofSlab) .CFIRST
                info.fullList }
          else
            { info with
              partialList := AddCElement (page + D.KPGSIZE - D.sizeofSlab) .CLAST
                info.partialList })).setSlab
          (page + D.KPGSIZE - D.sizeofSlab)
          { colouringOffset := info.colorScheme
            bufferStack := (PopElement (slabBuffers page info.bufferSize
              (ObCreateSlab.turns D info.bufferSize))).2
            freeCount := usub info.bufferPerSlab 1 }).emit
        ([.cli, .SpinLock h] ++
          ObCreateSlab.calls D st.oballocNormaleUse h kmSleep page info.ctor
            info.bufferSize ++
          [.SpinUnlock h] ++
          if st.oballocNormaleUse then [.sti] else [])) := by
  have hlock := cacheSpinLock_free (st.emit [.cli]) h info (by simpa using hinfo) hfree
  have hcount : ({ info with lock := true } : ObjectInfo).partialList.count = 0 := by
    simp [CircularList.count, hpart]
  have hN : page + D.KPGSIZE - D.sizeofSlab ≠ 0 := by omega
  have hcreate := ObCreateSlab_eq D
    (((st.emit [.cli]).setType h { info with lock := true }).emit [.SpinLock h])
    h kmSleep page fuel { info with lock := true } (by simp) hbs hfit hword hfuel
  simp only [emit_normal, setType_normal, hE, setType_emit, emit_emit, setSlab_emit,
    List.singleton_append] at hcreate
  simp only [KNew, hlock, Run.bind_ret, ObFindSlab, emit_types, setType_types_self, hcount,
    ne_eq, not_true_eq_false, if_false, hE, if_true, setType_emit, emit_emit,
    List.singleton_append, hcreate, setSlab_types, hN,
    not_false_eq_true, emit_slabs, setType_slabs, setSlab_slabs_self]
  by_cases hz : usub info.bufferPerSlab 1 = 0
  · cases hn : st.oballocNormaleUse <;>
      simp [ObPlaceSlab, cacheSpinUnlock, hz, hn, setType_emit, setSlab_emit, emit_emit,
        setSlab_setType, setType_setType, setSlab_setSlab, hfree, hE]
  · cases hn : st.oballocNormaleUse <;>
      simp [ObPlaceSlab, cacheSpinUnlock, hz, hn, setType_emit, setSlab_emit, emit_emit,
        setSlab_setType, setType_setType, setSlab_setSlab, hfree, hE]

/-- `KNew` that constructs a slab, for every buffer size from 1 for which the
fence of `ObCreateSlab` does not wrap round: as `KNew_construct`, also for the
buffer sizes from the room below the header upwards, for which the free stack
of the new slab is empty and the object returned is `NULL`. -/
theorem KNew_construct_no_wrap (D : SlabDecls) (st : ObState) (h kmSleep page fuel : Nat)
    (info : ObjectInfo)
    (hinfo : st.types h = some info) (hfree : info.lock = false)
    (hpart : info.partialList.nodes = [])
    (hE : info.emptySlab = 0)
    (hbs : 0 < info.bufferSize)
    (hnowrap : info.bufferSize ≤ page + (D.KPGSIZE - D.sizeofSlab))
    (hhdr : 0 < D.sizeofSlab) (hroom : D.sizeofSlab < D.KPGSIZE)
    (hword : page + D.KPGSIZE ≤ ULONG_MOD)
    (hfuel : ObCreateSlab.turns D info.bufferSize < fuel) :
    KNew D st h kmSleep page fuel = .ret
      ((PopElement (slabBuffers page info.bufferSize
          (ObCreateSlab.turns D info.bufferSize))).1,
      ((st.setType h
          (if usub info.bufferPerSlab 1 = 0 then
            { info with
              partialList := RemoveCElement (page + D.KPGSIZE - D.sizeofSlab)
                (AddCElement (page + D.KPGSIZE - D.sizeofSlab) .CLAST info.partialList)
              fullList := AddCElement (page + D.KPGSIZE - D.sizeofSlab) .CFIRST
                info.fullList }
          else
            { info with
              partialList := AddCElement (page + D.KPGSIZE - D.sizeofSlab) .CLAST
                info.partialList })).setSlab
          (page + D.KPGSIZE - D.sizeofSlab)
          { colouringOffset := info.colorScheme
            bufferStack := (PopElement (slabBuffers page info.bufferSize
              (ObCreateSlab.turns D info.bufferSize))).2
            freeCount := usub info.bufferPerSlab 1 }).emit
        ([.cli, .SpinLock h] ++
          ObCreateSlab.calls D st.oballocNormaleUse h kmSleep page info.ctor
            info.bufferSize ++
          [.SpinUnlock h] ++
          if st.oballocNormaleUse then [.sti] else [])) := by
  have hlock := cacheSpinLock_free (st.emit [.cli]) h info (by simpa using hinfo) hfree
  have hcount : ({ info with lock := true } : ObjectInfo).partialList.count = 0 := by
    simp [CircularList.count, hpart]
  have hN : page + D.KPGSIZE - D.sizeofSlab ≠ 0 := by omega
  have hcreate := ObCreateSlab_no_wrap D
    (((st.emit [.cli]).setType h { info with lock := true }).emit [.SpinLock h])
    h kmSleep page fuel { info with lock := true } (by simp) hbs hnowrap hhdr hroom hword
    hfuel
  simp only [emit_normal, setType_normal, hE, setType_emit, emit_emit, setSlab_emit,
    List.singleton_append] at hcreate
  simp only [KNew, hlock, Run.bind_ret, ObFindSlab, emit_types, setType_types_self, hcount,
    ne_eq, not_true_eq_false, if_false, hE, if_true, setType_emit, emit_emit,
    List.singleton_append, hcreate, setSlab_types, hN,
    not_false_eq_true, emit_slabs, setType_slabs, setSlab_slabs_self]
  by_cases hz : usub info.bufferPerSlab 1 = 0
  · cases hn : st.oballocNormaleUse <;>
      simp [ObPlaceSlab, cacheSpinUnlock, hz, hn, setType_emit, setSlab_emit, emit_emit,
        setSlab_setType, setType_setType, setSlab_setSlab, hfree, hE]
  · cases hn : st.oballocNormaleUse <;>
      simp [ObPlaceSlab, cacheSpinUnlock, hz, hn, setType_emit, setSlab_emit, emit_emit,
        setSlab_setType, setType_setType, setSlab_setSlab, hfree, hE]

/-! ## `KDelete` -/

/-- `ObDestroySlab` on a slab that is in memory: the destructor is called on
the buffers of its free stack, down to the first `NULL`, if the type has one,
and the page computed from the slab address is released; memory is not
written. -/
theorem ObDestroySlab_eq (D : SlabDecls) (st : ObState) (E h : Nat) (info : ObjectInfo)
    (slE : Slab) (hinfo : st.types h = some info) (hsl : st.slabs E = some slE) :
    ObDestroySlab D st E h
      = .ret (st.emit (ObDestroySlab.calls D info.dtor info.rawSize E slE)) := by
  by_cases hd : info.dtor = 0 <;>
    simp [ObDestroySlab, hinfo, hsl, hd, ObDestroySlab.calls, emit_emit]

/-- `KDelete` of an object whose slab had no free buffer: the object is pushed
on the free stack of its slab, `freeCount` becomes 1, and the slab goes from
the full list to the head of the partial list. -/
theorem KDelete_from_full (D : SlabDecls) (st : ObState) (object h : Nat)
    (info : ObjectInfo) (sl : Slab)
    (hinfo : st.types h = some info) (hfree : info.lock = false)
    (hsl : st.slabs (KDelete.slab D object) = some sl)
    (hone : uadd sl.freeCount 1 = 1) :
    KDelete D st object h = .ret
      (((st.setType h { info with
          fullList := RemoveCElement (KDelete.slab D object) info.fullList
          partialList := AddCElement (KDelete.slab D object) .CFIRST info.partialList }).setSlab
          (KDelete.slab D object)
          { sl with
            bufferStack := PushElement object sl.bufferStack
            freeCount := uadd sl.freeCount 1 }).emit
        ([.cli, .SpinLock h, .SpinUnlock h] ++
          if st.oballocNormaleUse then [.sti] else [])) := by
  have hlock := cacheSpinLock_free (st.emit [.cli]) h info (by simpa using hinfo) hfree
  simp only [KDelete, hlock, Run.bind_ret, emit_slabs, setType_slabs, hsl]
  cases hn : st.oballocNormaleUse <;>
    simp [ObRecheckSlab, cacheSpinUnlock, hone, hn, setType_emit, setSlab_emit, emit_emit,
      setSlab_setType, setType_setType, hfree]

/-- `KDelete` of an object that leaves its slab with `bufferPerSlab` free
buffers, not 1, in a cache without cached empty slab: the slab leaves the
partial list and becomes the cached empty slab. -/
theorem KDelete_caches (D : SlabDecls) (st : ObState) (object h : Nat)
    (info : ObjectInfo) (sl : Slab)
    (hinfo : st.types h = some info) (hfree : info.lock = false)
    (hsl : st.slabs (KDelete.slab D object) = some sl)
    (hone : uadd sl.freeCount 1 ≠ 1)
    (hall : uadd sl.freeCount 1 = info.bufferPerSlab)
    (hE : info.emptySlab = 0) :
    KDelete D st object h = .ret
      (((st.setType h { info with
          partialList := RemoveCElement (KDelete.slab D object) info.partialList
          emptySlab := KDelete.slab D object }).setSlab
          (KDelete.slab D object)
          { sl with
            bufferStack := PushElement object sl.bufferStack
            freeCount := uadd sl.freeCount 1 }).emit
        ([.cli, .SpinLock h, .SpinUnlock h] ++
          if st.oballocNormaleUse then [.sti] else [])) := by
  have hlock := cacheSpinLock_free (st.emit [.cli]) h info (by simpa using hinfo) hfree
  simp only [KDelete, hlock, Run.bind_ret, emit_slabs, setType_slabs, hsl]
  have hone' : info.bufferPerSlab ≠ 1 := hall ▸ hone
  cases hn : st.oballocNormaleUse <;>
    simp [ObRecheckSlab, cacheSpinUnlock, hone', hall, hE, hn, setType_emit, setSlab_emit,
      emit_emit, setSlab_setType, setType_setType, hfree]

/-- `KDelete` of an object that leaves its slab with `bufferPerSlab` free
buffers, not 1, in a cache that has a cached empty slab `E`: the slab leaves
the partial list and becomes the cached empty slab, and `ObDestroySlab` is run
on `E`. -/
theorem KDelete_destroys (D : SlabDecls) (st : ObState) (object h : Nat)
    (info : ObjectInfo) (sl slE : Slab)
    (hinfo : st.types h = some info) (hfree : info.lock = false)
    (hsl : st.slabs (KDelete.slab D object) = some sl)
    (hone : uadd sl.freeCount 1 ≠ 1)
    (hall : uadd sl.freeCount 1 = info.bufferPerSlab)
    (hE : info.emptySlab ≠ 0)
    (hES : info.emptySlab ≠ KDelete.slab D object)
    (hslE : st.slabs info.emptySlab = some slE) :
    KDelete D st object h = .ret
      (((st.setType h { info with
          partialList := RemoveCElement (KDelete.slab D object) info.partialList
          emptySlab := KDelete.slab D object }).setSlab
          (KDelete.slab D object)
          { sl with
            bufferStack := PushElement object sl.bufferStack
            freeCount := uadd sl.freeCount 1 }).emit
        ([.cli, .SpinLock h] ++
          ObDestroySlab.calls D info.dtor info.rawSize info.emptySlab slE ++
          [.SpinUnlock h] ++
          if st.oballocNormaleUse then [.sti] else [])) := by
  have hlock := cacheSpinLock_free (st.emit [.cli]) h info (by simpa using hinfo) hfree
  simp only [KDelete, hlock, Run.bind_ret, emit_slabs, setType_slabs, hsl]
  have hdestroy := ObDestroySlab_eq D
    (((st.setType h { info with
        lock := true
        partialList := RemoveCElement (KDelete.slab D object) info.partialList
        emptySlab := KDelete.slab D object }).setSlab (KDelete.slab D object)
        { sl with
          bufferStack := PushElement object sl.bufferStack
          freeCount := uadd sl.freeCount 1 }).emit [.cli, .SpinLock h])
    info.emptySlab h
    { info with
      lock := true
      partialList := RemoveCElement (KDelete.slab D object) info.partialList
      emptySlab := KDelete.slab D object } slE (by simp)
    (by simp [setSlab_slabs_ne _ _ _ _ hES, hslE])
  simp only [hall] at hdestroy
  have hone' : info.bufferPerSlab ≠ 1 := hall ▸ hone
  cases hn : st.oballocNormaleUse <;>
    simp [ObRecheckSlab, cacheSpinUnlock, hone', hall, hE, hn, setType_emit, setSlab_emit,
      emit_emit, setSlab_setType, setType_setType, hfree, hdestroy]

/-- `KDelete` of an object that leaves its slab with neither 1 nor
`bufferPerSlab` free buffers: only the free stack and `freeCount` of the slab
change. -/
theorem KDelete_other (D : SlabDecls) (st : ObState) (object h : Nat)
    (info : ObjectInfo) (sl : Slab)
    (hinfo : st.types h = some info) (hfree : info.lock = false)
    (hsl : st.slabs (KDelete.slab D object) = some sl)
    (hone : uadd sl.freeCount 1 ≠ 1)
    (hall : uadd sl.freeCount 1 ≠ info.bufferPerSlab) :
    KDelete D st object h = .ret
      (((st.setType h info).setSlab
          (KDelete.slab D object)
          { sl with
            bufferStack := PushElement object sl.bufferStack
            freeCount := uadd sl.freeCount 1 }).emit
        ([.cli, .SpinLock h, .SpinUnlock h] ++
          if st.oballocNormaleUse then [.sti] else [])) := by
  have hlock := cacheSpinLock_free (st.emit [.cli]) h info (by simpa using hinfo) hfree
  have hlk := unlock_eq_self info hfree
  simp only [KDelete, hlock, Run.bind_ret, emit_slabs, setType_slabs, hsl]
  cases hn : st.oballocNormaleUse <;>
    simp [ObRecheckSlab, cacheSpinUnlock, hone, hall, hn, setType_emit, setSlab_emit,
      emit_emit, setSlab_setType, setType_setType, hfree, hlk]

/-! ## The slab `KNew` takes -/

theorem pageRequests_ctorCalls (page bs k : Nat) : pageRequests (ctorCalls page bs k) = 0 := by
  unfold pageRequests ctorCalls
  rw [List.countP_map, List.countP_eq_zero]
  intro i _
  simp [ObEvent.isPageRequest]

theorem pageRequests_calls (D : SlabDecls) (n : Bool) (h kmSleep page ctor bs : Nat) :
    pageRequests (ObCreateSlab.calls D n h kmSleep page ctor bs) = 1 := by
  have h0 := pageRequests_ctorCalls page bs (ObCreateSlab.turns D bs)
  unfold pageRequests at h0 ⊢
  unfold ObCreateSlab.calls
  by_cases hc : ctor = 0
  · simp [hc, List.countP_append, List.countP_cons, ObEvent.isPageRequest]
  · simp [hc, List.countP_append, List.countP_cons, ObEvent.isPageRequest, h0]

theorem PopElement_cons (top : Nat) (more : List Nat) :
    PopElement (top :: more) = (top, more) := rfl

theorem usub_one_of_pos {c : Nat} (h1 : 1 ≤ c) (hw : c < ULONG_MOD) : usub c 1 = c - 1 :=
  usub_one h1 hw

/-- The slab `KNew` allocates from, on a cache whose lock is free.
(1) If the partial list is not empty it is its head.  (2) Otherwise, if a
cached empty slab exists, it is that slab, which leaves `emptySlab` and enters
the partial list.  (3) Otherwise a slab is constructed on the page the
page-frame manager gives, and the page-frame manager is asked for a page in
this case only.  In each case, for a slab with a free buffer, the object
returned is the former top of the free stack of the slab and its `freeCount`
is one less. -/
theorem KNew_slab_choice (D : SlabDecls) (st : ObState) (h kmSleep page fuel : Nat)
    (info : ObjectInfo)
    (hinfo : st.types h = some info) (hfree : info.lock = false) :
    (∀ (S : Nat) (rest : List Nat) (sl : Slab) (top : Nat) (more : List Nat),
      info.partialList.nodes = S :: rest → S ≠ 0 → st.slabs S = some sl →
      sl.bufferStack = top :: more → 1 ≤ sl.freeCount → sl.freeCount < ULONG_MOD →
      ∃ st', KNew D st h kmSleep page fuel = .ret (top, st') ∧
        st'.slabs S = some { sl with bufferStack := more, freeCount := sl.freeCount - 1 } ∧
        (st'.types h).map (fun i => i.emptySlab) = some info.emptySlab ∧
        pageRequests st'.obLog = pageRequests st.obLog ∧
        st'.obLog = st.obLog ++ ([.cli, .SpinLock h, .SpinUnlock h] ++
          if st.oballocNormaleUse then [.sti] else [])) ∧
    (∀ (sl : Slab) (top : Nat) (more : List Nat),
      info.partialList.nodes = [] → info.emptySlab ≠ 0 →
      st.slabs info.emptySlab = some sl →
      sl.bufferStack = top :: more → 1 ≤ sl.freeCount → sl.freeCount < ULONG_MOD →
      ∃ st', KNew D st h kmSleep page fuel = .ret (top, st') ∧
        st'.slabs info.emptySlab
          = some { sl with bufferStack := more, freeCount := sl.freeCount - 1 } ∧
        (st'.types h).map (fun i => i.emptySlab) = some 0 ∧
        (st'.types h).map (fun i => i.partialList.nodes)
          = some (if sl.freeCount - 1 = 0 then [] else [info.emptySlab]) ∧
        pageRequests st'.obLog = pageRequests st.obLog ∧
        st'.obLog = st.obLog ++ ([.cli, .SpinLock h, .SpinUnlock h] ++
          if st.oballocNormaleUse then [.sti] else [])) ∧
    (info.partialList.nodes = [] → info.emptySlab = 0 →
      0 < info.bufferSize → info.bufferSize < D.KPGSIZE - D.sizeofSlab →
      page + D.KPGSIZE < ULONG_MOD → ObCreateSlab.turns D info.bufferSize < fuel →
      1 ≤ info.bufferPerSlab → info.bufferPerSlab < ULONG_MOD →
      ∃ st', KNew D st h kmSleep page fuel
          = .ret (page + (ObCreateSlab.turns D info.bufferSize - 1) * info.bufferSize, st') ∧
        st'.slabs (page + D.KPGSIZE - D.sizeofSlab) = some
          { colouringOffset := info.colorScheme
            bufferStack := slabBuffers page info.bufferSize
              (ObCreateSlab.turns D info.bufferSize - 1)
            freeCount := info.bufferPerSlab - 1 } ∧
        (st'.types h).map (fun i => i.emptySlab) = some 0 ∧
        pageRequests st'.obLog = pageRequests st.obLog + 1 ∧
        st'.obLog = st.obLog ++ ([.cli, .SpinLock h] ++
          ObCreateSlab.calls D st.oballocNormaleUse h kmSleep page info.ctor info.bufferSize ++
          [.SpinUnlock h] ++ if st.oballocNormaleUse then [.sti] else [])) := by
  refine ⟨?_, ?_, ?_⟩
  · intro S rest sl top more hpart hS hsl hstack h1 hw
    refine ⟨_, KNew_head D st h kmSleep page fuel S rest info sl hinfo hfree hpart hS hsl
      |>.trans (by rw [hstack, PopElement_cons]), ?_, ?_, ?_, ?_⟩
    · simp [hstack, PopElement_cons, usub_one_of_pos h1 hw]
    · by_cases hz : usub sl.freeCount 1 = 0 <;> simp [hz]
    · cases hn : st.oballocNormaleUse <;>
        simp [pageRequests, List.countP_append, List.countP_cons, ObEvent.isPageRequest]
    · simp
  · intro sl top more hpart hE hsl hstack h1 hw
    refine ⟨_, KNew_promote D st h kmSleep page fuel info sl hinfo hfree hpart hE hsl
      |>.trans (by rw [hstack, PopElement_cons]), ?_, ?_, ?_, ?_, ?_⟩
    · simp [hstack, PopElement_cons, usub_one_of_pos h1 hw]
    · by_cases hz : usub sl.freeCount 1 = 0 <;> simp [hz]
    · rw [usub_one_of_pos h1 hw]
      by_cases hz : sl.freeCount - 1 = 0 <;>
        simp [hz, AddCElement, RemoveCElement, hpart]
    · cases hn : st.oballocNormaleUse <;>
        simp [pageRequests, List.countP_append, List.countP_cons, ObEvent.isPageRequest]
    · simp
  · intro hpart hE hbs hfit hword hfuel h1 hw
    have hturns : 1 ≤ ObCreateSlab.turns D info.bufferSize := by
      unfold ObCreateSlab.turns
      exact (Nat.le_div_iff_mul_le hbs).mpr (by omega)
    obtain ⟨k, hk⟩ : ∃ k, ObCreateSlab.turns D info.bufferSize = k + 1 :=
      ⟨ObCreateSlab.turns D info.bufferSize - 1, by omega⟩
    have hrun := KNew_construct D st h kmSleep page fuel info hinfo hfree hpart hE hbs
      (by omega) hword hfuel
    rw [hk] at hrun ⊢
    simp only [slabBuffers, PopElement_cons, Nat.add_sub_cancel] at hrun ⊢
    refine ⟨_, hrun, ?_, ?_, ?_, ?_⟩
    · simp [usub_one_of_pos h1 hw]
    · by_cases hz : usub info.bufferPerSlab 1 = 0 <;> simp [hz, hE]
    · have hc := pageRequests_calls D st.oballocNormaleUse h kmSleep page info.ctor
        info.bufferSize
      unfold pageRequests at hc ⊢
      cases hn : st.oballocNormaleUse <;>
        simp [hn] at hc ⊢ <;>
        simp [List.countP_append, List.countP_cons, ObEvent.isPageRequest, hc]
    · simp [List.append_assoc]

/-- An instance of `KNew_slab_choice`: a cache whose partial list holds one
slab with two free buffers; `KNew` returns the top of its free stack. -/
theorem KNew_slab_choice_witness :
    ∃ st', KNew ia32Decls cacheWithSlab 2101088 0 0 64 = .ret (3146228, st') ∧
      st'.slabs 3149792
        = some { colouringOffset := 0, bufferStack := [3145728], freeCount := 2 - 1 } ∧
      (st'.types 2101088).map (fun i => i.emptySlab) = some 0 ∧
      pageRequests st'.obLog = pageRequests cacheWithSlab.obLog ∧
      st'.obLog = cacheWithSlab.obLog ++ ([.cli, .SpinLock 2101088, .SpinUnlock 2101088] ++
        if cacheWithSlab.oballocNormaleUse then [.sti] else []) :=
  (KNew_slab_choice ia32Decls cacheWithSlab 2101088 0 0 64
    { name := 7, rawSize := 500, colorScheme := 0, align := 4, bufferSize := 500,
      bufferPerSlab := 8, bufferMargin := 64, ctor := 0, dtor := 0, callCount := 0,
      emptySlab := 0, partialList := ⟨[3149792]⟩, fullList := ⟨[]⟩, lock := false }
    rfl rfl).1 3149792 []
    { colouringOffset := 0, bufferStack := [3146228, 3145728], freeCount := 2 }
    3146228 [3145728] rfl (by decide) rfl rfl (by decide) (by decide)

set_option maxRecDepth 100000 in
set_option synthInstance.maxSize 1024 in
/-- C14: a type of 508 bytes, 8 objects to a slab, after 7 calls of `KNew`,
which returned the 7 buffers `ObCreateSlab` had put on the free stack of the
slab with the header at 3149792.  The partial list is not empty: its head is
that slab, whose `freeCount` is 1 and whose free stack is empty.  `KNew`
chooses that slab, asks the page-frame manager for no page and builds no slab,
and takes the `freeCount` of the slab down to 0; the object it returns is
`NULL`, not a buffer of the slab: the free stack of the chosen slab had no
top. -/
theorem KNew_returns_null_from_partial_slab :
    ∃ st₀ st₁ st₂ objects, typeCreated 508 4 = .ret (2101088, st₀) ∧
      KNew.each ia32Decls 2101088 0 64 [3145728, 0, 0, 0, 0, 0, 0] st₀
        = .ret (objects, st₁) ∧
      objects = [3148776, 3148268, 3147760, 3147252, 3146744, 3146236, 3145728] ∧
      (st₁.types 2101088).map (fun i => (i.partialList.nodes, i.emptySlab))
        = some ([3149792], 0) ∧
      st₁.slabs 3149792 = some { colouringOffset := 0, bufferStack := [], freeCount := 1 } ∧
      KNew ia32Decls st₁ 2101088 0 4194304 64 = .ret (0, st₂) ∧
      pageRequests st₂.obLog = pageRequests st₁.obLog ∧
      st₂.slabs 4198368 = none ∧
      st₂.slabs 3149792 = some { colouringOffset := 0, bufferStack := [], freeCount := 0 } := by
  have h : (typeCreated 508 4).Returns (fun x =>
      x.1 = 2101088 ∧
      (KNew.each ia32Decls 2101088 0 64 [3145728, 0, 0, 0, 0, 0, 0] x.2).Returns (fun y =>
        y.1 = [3148776, 3148268, 3147760, 3147252, 3146744, 3146236, 3145728] ∧
        (y.2.types 2101088).map (fun i => (i.partialList.nodes, i.emptySlab))
          = some ([3149792], 0) ∧
        y.2.slabs 3149792
          = some { colouringOffset := 0, bufferStack := [], freeCount := 1 } ∧
        (KNew ia32Decls y.2 2101088 0 4194304 64).Returns (fun z =>
          z.1 = 0 ∧
          pageRequests z.2.obLog = pageRequests y.2.obLog ∧
          z.2.slabs 4198368 = none ∧
          z.2.slabs 3149792
            = some { colouringOffset := 0, bufferStack := [], freeCount := 0 }))) := by
    decide
  obtain ⟨⟨r, st₀⟩, h0, hr, h⟩ := Run.exists_of_returns h
  obtain ⟨⟨objects, st₁⟩, h1, hobjs, hty, hsl1, h⟩ := Run.exists_of_returns h
  obtain ⟨⟨object, st₂⟩, h2, hobj, hreq, hnone, hsl2⟩ := Run.exists_of_returns h
  simp only at hr h1 hobjs hty hsl1 h2 hobj hreq hnone hsl2
  subst hr hobj
  exact ⟨st₀, st₁, st₂, objects, h0, h1, hobjs, hty, hsl1, h2, hreq, hnone, hsl2⟩

/-! ## Slabs between the partial list and the full list -/

theorem canonical_types (st : ObState) (h : Nat) (info : ObjectInfo) (S : Nat) (sl : Slab)
    (es : List ObEvent) : (((st.setType h info).setSlab S sl).emit es).types h = some info := by
  simp

theorem canonical_slabs_only (st : ObState) (S : Nat) (sl : Slab) (es : List ObEvent) :
    ((st.setSlab S sl).emit es).slabs S = some sl := by
  simp

theorem canonical_obLog (st : ObState) (h : Nat) (info : ObjectInfo) (S : Nat) (sl : Slab)
    (es : List ObEvent) :
    (((st.setType h info).setSlab S sl).emit es).obLog = st.obLog ++ es := by
  simp

theorem canonical_slabs (st : ObState) (h : Nat) (info : ObjectInfo) (S : Nat) (sl : Slab)
    (es : List ObEvent) :
    (((st.setType h info).setSlab S sl).emit es).slabs S = some sl := by
  simp

/-- C15: the moves of slabs between the partial list and the full list of a
cache whose lock is free.  `KNew` on the head `S` of the partial list: when the
`freeCount` of `S` reaches zero, `S` leaves the partial list and becomes the
head of the full list, the counts going down and up by one; otherwise both
lists are as before.  `KNew` on the cached empty slab: the slab ends in the
full list when its `freeCount` reaches zero and in the partial list otherwise.
`KNew` that constructs a slab, for every buffer size from 1 for which the fence
of `ObCreateSlab` does not wrap round: the new slab, whose `freeCount` is
`bufferPerSlab` less one, ends at the head of the full list when that is zero,
which is when `bufferPerSlab` is 1, and is the only slab of the partial list
otherwise.  `KDelete` of an object of the slab `S`: when the `freeCount` of `S` becomes 1,
`S` leaves the full list and becomes the head of the partial list; when it
becomes neither 1 nor `bufferPerSlab`, both lists are as before; when it
becomes `bufferPerSlab`, not 1, the full list is as before and `S` only leaves
the partial list. -/
theorem slab_list_transitions (D : SlabDecls) (st : ObState) (h : Nat) (info : ObjectInfo)
    (hinfo : st.types h = some info) (hfree : info.lock = false) :
    (∀ (kmSleep page fuel S : Nat) (rest : List Nat) (sl : Slab),
      info.partialList.nodes = S :: rest → S ≠ 0 → st.slabs S = some sl →
      ∃ object st' info', KNew D st h kmSleep page fuel = .ret (object, st') ∧
        st'.types h = some info' ∧
        (usub sl.freeCount 1 = 0 →
          info'.partialList.nodes = rest ∧
          info'.fullList.nodes = S :: info.fullList.nodes ∧
          info'.partialList.count + 1 = info.partialList.count ∧
          info'.fullList.count = info.fullList.count + 1) ∧
        (usub sl.freeCount 1 ≠ 0 →
          info'.partialList = info.partialList ∧ info'.fullList = info.fullList)) ∧
    (∀ (kmSleep page fuel : Nat) (sl : Slab),
      info.partialList.nodes = [] → info.emptySlab ≠ 0 →
      st.slabs info.emptySlab = some sl →
      ∃ object st' info', KNew D st h kmSleep page fuel = .ret (object, st') ∧
        st'.types h = some info' ∧
        (usub sl.freeCount 1 = 0 →
          info'.partialList.nodes = [] ∧
          info'.fullList.nodes = info.emptySlab :: info.fullList.nodes ∧
          info'.partialList.count = info.partialList.count ∧
          info'.fullList.count = info.fullList.count + 1) ∧
        (usub sl.freeCount 1 ≠ 0 →
          info'.partialList.nodes = [info.emptySlab] ∧
          info'.fullList = info.fullList ∧
          info'.partialList.count = info.partialList.count + 1)) ∧
    (∀ (kmSleep page fuel : Nat),
      info.partialList.nodes = [] → info.emptySlab = 0 →
      0 < info.bufferSize → info.bufferSize ≤ page + (D.KPGSIZE - D.sizeofSlab) →
      0 < D.sizeofSlab → D.sizeofSlab < D.KPGSIZE →
      page + D.KPGSIZE ≤ ULONG_MOD → ObCreateSlab.turns D info.bufferSize < fuel →
      ∃ object st' info' sl', KNew D st h kmSleep page fuel = .ret (object, st') ∧
        st'.types h = some info' ∧
        st'.slabs (page + D.KPGSIZE - D.sizeofSlab) = some sl' ∧
        sl'.freeCount = usub info.bufferPerSlab 1 ∧
        (usub info.bufferPerSlab 1 = 0 →
          info'.partialList.nodes = [] ∧
          info'.fullList.nodes = (page + D.KPGSIZE - D.sizeofSlab) :: info.fullList.nodes ∧
          info'.partialList.count = info.partialList.count ∧
          info'.fullList.count = info.fullList.count + 1) ∧
        (usub info.bufferPerSlab 1 ≠ 0 →
          info'.partialList.nodes = [page + D.KPGSIZE - D.sizeofSlab] ∧
          info'.fullList = info.fullList ∧
          info'.partialList.count = info.partialList.count + 1)) ∧
    (∀ (object : Nat) (sl : Slab),
      st.slabs (KDelete.slab D object) = some sl →
      (info.emptySlab = 0 ∨ (info.emptySlab ≠ KDelete.slab D object ∧
        ∃ slE, st.slabs info.emptySlab = some slE)) →
      ∃ st' info', KDelete D st object h = .ret st' ∧
        st'.types h = some info' ∧
        (uadd sl.freeCount 1 = 1 →
          info'.fullList.nodes = info.fullList.nodes.erase (KDelete.slab D object) ∧
          info'.partialList.nodes = KDelete.slab D object :: info.partialList.nodes ∧
          info'.partialList.count = info.partialList.count + 1 ∧
          (KDelete.slab D object ∈ info.fullList.nodes →
            info'.fullList.count + 1 = info.fullList.count)) ∧
        (uadd sl.freeCount 1 ≠ 1 → uadd sl.freeCount 1 ≠ info.bufferPerSlab →
          info'.partialList = info.partialList ∧ info'.fullList = info.fullList) ∧
        (uadd sl.freeCount 1 ≠ 1 → uadd sl.freeCount 1 = info.bufferPerSlab →
          info'.fullList = info.fullList ∧
          info'.partialList.nodes
            = info.partialList.nodes.erase (KDelete.slab D object))) := by
  refine ⟨?_, ?_, ?_, ?_⟩
  · intro kmSleep page fuel S rest sl hpart hS hsl
    refine ⟨_, _, _, KNew_head D st h kmSleep page fuel S rest info sl hinfo hfree hpart hS hsl,
      canonical_types _ _ _ _ _ _, ?_, ?_⟩
    · intro hz
      simp [hz, AddCElement, RemoveCElement, CircularList.count, hpart]
    · intro hz
      simp [hz]
  · intro kmSleep page fuel sl hpart hE hsl
    refine ⟨_, _, _, KNew_promote D st h kmSleep page fuel info sl hinfo hfree hpart hE hsl,
      canonical_types _ _ _ _ _ _, ?_, ?_⟩
    · intro hz
      simp [hz, AddCElement, RemoveCElement, CircularList.count, hpart]
    · intro hz
      simp [hz, AddCElement, CircularList.count, hpart]
  · intro kmSleep page fuel hpart hE hbs hnowrap hhdr hroom hword hfuel
    refine ⟨_, _, _, _, KNew_construct_no_wrap D st h kmSleep page fuel info hinfo hfree hpart
      hE hbs hnowrap hhdr hroom hword hfuel,
      canonical_types _ _ _ _ _ _, canonical_slabs _ _ _ _ _ _, rfl, ?_, ?_⟩
    · intro hz
      simp [hz, AddCElement, RemoveCElement, CircularList.count, hpart]
    · intro hz
      simp [hz, AddCElement, CircularList.count, hpart]
  · intro object sl hsl hempty
    by_cases hone : uadd sl.freeCount 1 = 1
    · refine ⟨_, _, KDelete_from_full D st object h info sl hinfo hfree hsl hone,
        canonical_types _ _ _ _ _ _,
        ?_, fun hn => absurd hone hn, fun hn => absurd hone hn⟩
      intro _
      refine ⟨by simp [RemoveCElement], by simp [AddCElement],
        by simp [AddCElement, CircularList.count], ?_⟩
      intro hmem
      simp only [RemoveCElement, CircularList.count]
      rw [List.length_erase_of_mem hmem]
      have := List.length_pos_of_mem hmem
      omega
    · by_cases hall : uadd sl.freeCount 1 = info.bufferPerSlab
      · rcases hempty with hE | ⟨hES, slE, hslE⟩
        · refine ⟨_, _, KDelete_caches D st object h info sl hinfo hfree hsl hone hall hE,
            canonical_types _ _ _ _ _ _, fun hn => absurd hn hone, fun _ hn => absurd hall hn, ?_⟩
          intro _ _
          simp [RemoveCElement]
        · by_cases hE : info.emptySlab = 0
          · refine ⟨_, _, KDelete_caches D st object h info sl hinfo hfree hsl hone hall hE,
              canonical_types _ _ _ _ _ _, fun hn => absurd hn hone, fun _ hn => absurd hall hn, ?_⟩
            intro _ _
            simp [RemoveCElement]
          · refine ⟨_, _, KDelete_destroys D st object h info sl slE hinfo hfree hsl hone hall
              hE hES hslE, canonical_types _ _ _ _ _ _, fun hn => absurd hn hone, fun _ hn => absurd hall hn, ?_⟩
            intro _ _
            simp [RemoveCElement]
      · refine ⟨_, _, KDelete_other D st object h info sl hinfo hfree hsl hone hall,
          canonical_types _ _ _ _ _ _, fun hn => absurd hn hone, ?_, fun _ hn => absurd hn hall⟩
        intro _ _
        exact ⟨rfl, rfl⟩

/-- Witness of C15: in a cache of objects of 3000 bytes, one to a slab, that
has no slab, `KNew` constructs a slab on the page at 3145728; its `freeCount`
reaches zero and it ends in the full list, the partial list staying empty. -/
theorem slab_list_transitions_witness :
    ∃ object st' info' sl',
      KNew ia32Decls cacheOfLargeObjects 2101088 0 3145728 64 = .ret (object, st') ∧
      st'.types 2101088 = some info' ∧
      st'.slabs (3145728 + ia32Decls.KPGSIZE - ia32Decls.sizeofSlab) = some sl' ∧
      sl'.freeCount = usub 1 1 ∧
      (usub 1 1 = 0 →
        info'.partialList.nodes = [] ∧
        info'.fullList.nodes
          = (3145728 + ia32Decls.KPGSIZE - ia32Decls.sizeofSlab) :: [] ∧
        info'.partialList.count = (⟨[]⟩ : CircularList).count ∧
        info'.fullList.count = (⟨[]⟩ : CircularList).count + 1) ∧
      (usub 1 1 ≠ 0 →
        info'.partialList.nodes = [3145728 + ia32Decls.KPGSIZE - ia32Decls.sizeofSlab] ∧
        info'.fullList = ⟨[]⟩ ∧
        info'.partialList.count = (⟨[]⟩ : CircularList).count + 1) :=
  (slab_list_transitions ia32Decls cacheOfLargeObjects 2101088
    { name := 7, rawSize := 3000, colorScheme := 0, align := 4, bufferSize := 3000,
      bufferPerSlab := 1, bufferMargin := 1064, ctor := 0, dtor := 0, callCount := 0,
      emptySlab := 0, partialList := ⟨[]⟩, fullList := ⟨[]⟩, lock := false }
    rfl rfl).2.2.1 0 3145728 64 rfl rfl (by decide) (by decide) (by decide) (by decide)
    (by decide) (by decide)

/-- An instance of `slab_list_transitions` without a move: in a cache with one
slab with two free buffers in its partial list, `KNew` leaves both lists as
they are. -/
theorem KNew_keeps_lists :
    ∃ object st' info', KNew ia32Decls cacheWithSlab 2101088 0 0 64 = .ret (object, st') ∧
      st'.types 2101088 = some info' ∧
      info'.partialList = ⟨[3149792]⟩ ∧ info'.fullList = ⟨[]⟩ := by
  have h := KNew_head ia32Decls cacheWithSlab 2101088 0 0 64 3149792 []
    { name := 7, rawSize := 500, colorScheme := 0, align := 4, bufferSize := 500,
      bufferPerSlab := 8, bufferMargin := 64, ctor := 0, dtor := 0, callCount := 0,
      emptySlab := 0, partialList := ⟨[3149792]⟩, fullList := ⟨[]⟩, lock := false }
    { colouringOffset := 0, bufferStack := [3146228, 3145728], freeCount := 2 }
    rfl rfl rfl (by decide) rfl
  exact ⟨_, _, _, h, canonical_types _ _ _ _ _ _, by decide, by decide⟩

/-! ## `KiDestroyType` -/

/-- C18: `KiDestroyType` on a type whose cached empty slab, if any, is a slab
of the memory.  It returns `TRUE` or `FALSE`, and `TRUE` if and only if the
partial list and the full list are both empty.  When it returns `FALSE` the
state, with the lists and the empty slab of the type and the list of types, is
the one before.  When it returns `TRUE` the type is removed from the list of
types, and the state is the one `ObDestroySlab` leaves for the cached empty
slab if there is one: the calls of `ObDestroySlab` are added to the log. -/
theorem KiDestroyType_only_empty (D : SlabDecls) (st : ObState) (typeInfo : Nat)
    (info : ObjectInfo) (hinfo : st.types typeInfo = some info)
    (hslab : info.emptySlab ≠ 0 → ∃ slE, st.slabs info.emptySlab = some slE) :
    ∃ r st', KiDestroyType D st typeInfo = .ret (r, st') ∧
      (r = TRUE ∨ r = FALSE) ∧
      (r = TRUE ↔ info.partialList.nodes = [] ∧ info.fullList.nodes = []) ∧
      (r = FALSE → st' = st) ∧
      (r = TRUE →
        st'.tList = RemoveCElement typeInfo st.tList ∧
        st'.types = st.types ∧ st'.slabs = st.slabs ∧
        (info.emptySlab = 0 → st'.obLog = st.obLog) ∧
        (info.emptySlab ≠ 0 →
          ObDestroySlab D { st with tList := RemoveCElement typeInfo st.tList }
            info.emptySlab typeInfo = .ret st' ∧
          ∀ slE, st.slabs info.emptySlab = some slE →
            st'.obLog = st.obLog ++
              ObDestroySlab.calls D info.dtor info.rawSize info.emptySlab slE)) := by
  have hne : TRUE ≠ FALSE := by decide
  by_cases hlists : info.partialList.count ≠ 0 ∨ info.fullList.count ≠ 0
  · refine ⟨FALSE, st, by simp [KiDestroyType, hinfo, hlists], Or.inr rfl, ?_, fun _ => rfl,
      fun hr => absurd hr.symm hne⟩
    constructor
    · intro hr
      exact absurd hr.symm hne
    · rintro ⟨hp, hf⟩
      simp [CircularList.count, hp, hf] at hlists
  · have hempty : info.partialList.nodes = [] ∧ info.fullList.nodes = [] := by
      simpa [CircularList.count, not_or] using hlists
    by_cases hE : info.emptySlab = 0
    · refine ⟨TRUE, { st with tList := RemoveCElement typeInfo st.tList },
        by simp [KiDestroyType, hinfo, hlists, hE], Or.inl rfl, ⟨fun _ => hempty, fun _ => rfl⟩,
        fun hr => absurd hr hne, fun _ => ⟨rfl, rfl, rfl, fun _ => rfl, fun hn => absurd hE hn⟩⟩
    · obtain ⟨slE, hslE⟩ := hslab hE
      have hd := ObDestroySlab_eq D { st with tList := RemoveCElement typeInfo st.tList }
        info.emptySlab typeInfo info slE hinfo hslE
      refine ⟨TRUE, ({ st with tList := RemoveCElement typeInfo st.tList } : ObState).emit
          (ObDestroySlab.calls D info.dtor info.rawSize info.emptySlab slE),
        by simp [KiDestroyType, hinfo, hlists, hE, hd], Or.inl rfl,
        ⟨fun _ => hempty, fun _ => rfl⟩, fun hr => absurd hr hne,
        fun _ => ⟨rfl, rfl, rfl, fun hz => absurd hz hE, fun _ => ⟨hd, ?_⟩⟩⟩
      intro slE' hslE'
      have : slE' = slE := Option.some.inj (hslE'.symm.trans hslE)
      subst this
      rfl

/-- Witness of C18: the cache with one slab in its partial list is not
destroyed and the state is left as it is. -/
theorem KiDestroyType_only_empty_witness :
    ∃ r st', KiDestroyType ia32Decls cacheWithSlab 2101088 = .ret (r, st') ∧
      (r = TRUE ∨ r = FALSE) ∧
      (r = TRUE ↔ [3149792] = ([] : List Nat) ∧ ([] : List Nat) = []) ∧
      (r = FALSE → st' = cacheWithSlab) ∧
      (r = TRUE →
        st'.tList = RemoveCElement 2101088 cacheWithSlab.tList ∧
        st'.types = cacheWithSlab.types ∧ st'.slabs = cacheWithSlab.slabs ∧
        ((0 : Nat) = 0 → st'.obLog = cacheWithSlab.obLog) ∧
        ((0 : Nat) ≠ 0 →
          ObDestroySlab ia32Decls
            { cacheWithSlab with tList := RemoveCElement 2101088 cacheWithSlab.tList }
            0 2101088 = .ret st' ∧
          ∀ slE, cacheWithSlab.slabs 0 = some slE →
            st'.obLog = cacheWithSlab.obLog ++
              ObDestroySlab.calls ia32Decls 0 500 0 slE)) :=
  KiDestroyType_only_empty ia32Decls cacheWithSlab 2101088
    { name := 7, rawSize := 500, colorScheme := 0, align := 4, bufferSize := 500,
      bufferPerSlab := 8, bufferMargin := 64, ctor := 0, dtor := 0, callCount := 0,
      emptySlab := 0, partialList := ⟨[3149792]⟩, fullList := ⟨[]⟩, lock := false }
    rfl (fun hn => absurd rfl hn)

/-! ## A slab that becomes fully free -/

theorem land_page_mask (x k : Nat) (hx : x < 2 ^ 32) (hk : k ≤ 32) :
    x &&& (2 ^ 32 - 2 ^ k) = x - x % 2 ^ k := by
  have h1 : 2 ^ 32 - 2 ^ k = 2 ^ k * (2 ^ (32 - k) - 1) := by
    have : 2 ^ 32 = 2 ^ k * 2 ^ (32 - k) := by
      rw [← pow_add]; congr 1; omega
    rw [Nat.mul_sub, ← this, Nat.mul_one]
  have h2 : x - x % 2 ^ k = 2 ^ k * (x / 2 ^ k) := by
    have := Nat.div_add_mod x (2 ^ k)
    omega
  rw [h1, h2]
  apply Nat.eq_of_testBit_eq
  intro i
  rw [Nat.testBit_land, Nat.testBit_mul_pow_two, Nat.testBit_mul_pow_two,
    Nat.testBit_two_pow_sub_one, ← Nat.shiftRight_eq_div_pow, Nat.testBit_shiftRight]
  by_cases hik : k ≤ i
  · have e : k + (i - k) = i := by omega
    simp only [hik, decide_True, Bool.true_and, e, ge_iff_le]
    by_cases hi : i < 32
    · have : i - k < 32 - k := by omega
      simp [this]
    · have : ¬ (i - k < 32 - k) := by omega
      simp only [this, decide_False, Bool.and_false]
      symm
      apply Nat.testBit_lt_two_pow
      calc x < 2 ^ 32 := hx
        _ ≤ 2 ^ i := Nat.pow_le_pow_right (by norm_num) (by omega)
  · simp [hik]

/-- The page `ObDestroySlab` computes for the slab whose header ends the page
at `P`, for a type of at most an eighth of a page: it is `P`. -/
theorem pageAddress_of_small (D : SlabDecls) (rawSize P : Nat)
    (hsmall : rawSize ≤ D.KPGSIZE / 8)
    (hpow : D.KPGSIZE = 2 ^ D.KPGOFFSET) (hoff : D.KPGOFFSET < 32)
    (hP : P % D.KPGSIZE = 0) (hhdr : 0 < D.sizeofSlab) (hfit : D.sizeofSlab ≤ D.KPGSIZE)
    (hword : P + D.KPGSIZE ≤ ULONG_MOD) :
    ObDestroySlab.pageAddress D rawSize (P + D.KPGSIZE - D.sizeofSlab) = P := by
  have hlt : 2 ^ D.KPGOFFSET < 2 ^ 32 := Nat.pow_lt_pow_right (by norm_num) hoff
  have hpos : 0 < 2 ^ D.KPGOFFSET := Nat.pos_pow_of_pos _ (by norm_num)
  have hmask : unot (usub ((1 <<< D.KPGOFFSET) % ULONG_MOD) 1) = 2 ^ 32 - 2 ^ D.KPGOFFSET := by
    have h32 : ULONG_MOD = 2 ^ 32 := by norm_num [ULONG_MOD]
    rw [Nat.one_shiftLeft, h32, Nat.mod_eq_of_lt hlt]
    rw [← h32, usub_one hpos (by rw [h32]; exact hlt)]
    unfold unot
    rw [h32, Nat.mod_eq_of_lt (by omega)]
    omega
  unfold ObDestroySlab.pageAddress
  rw [if_pos hsmall, hmask, land_page_mask _ _ (by unfold ULONG_MOD at hword; omega) hoff.le,
    ← hpow]
  obtain ⟨q, hq⟩ := Nat.dvd_of_mod_eq_zero hP
  have hr : (P + D.KPGSIZE - D.sizeofSlab) % D.KPGSIZE = D.KPGSIZE - D.sizeofSlab := by
    have e : P + D.KPGSIZE - D.sizeofSlab = (D.KPGSIZE - D.sizeofSlab) + D.KPGSIZE * q := by
      omega
    rw [e, Nat.add_mul_mod_self_left, Nat.mod_eq_of_lt (by omega)]
  rw [hr]
  omega

set_option maxRecDepth 100000 in
set_option synthInstance.maxSize 1024 in
/-- C16: a type of 2000 bytes, so two objects to a slab and
`rawSize > KPGSIZE / 8`.  Three objects are taken, the third from a second
slab, on the page at 4194304; the third and the first are given back, so the
second slab is the cached empty slab of the type; the second object is given
back, and its slab becomes the cached empty slab.  The older empty slab is
destroyed with the page address 0: `GetFrames`, `EnsureFaulty` and
`KiPagesFree` are called with 0, and the page of the slab, 4194304, is not
released. -/
theorem KDelete_releases_page_zero :
    ∃ st₀ st₁ st₂ st₃, typeCreated 2000 4 = .ret (2101088, st₀) ∧
      KNew.each ia32Decls 2101088 0 64 [3145728, 0, 4194304] st₀
        = .ret ([3147728, 3145728, 4196304], st₁) ∧
      KDelete.each ia32Decls 2101088 [4196304, 3147728] st₁ = .ret st₂ ∧
      (st₂.types 2101088).map (fun i => (i.rawSize, i.bufferPerSlab, i.emptySlab))
        = some (2000, 2, 4194304 + 4096 - 32) ∧
      KDelete ia32Decls st₂ 3145728 2101088 = .ret st₃ ∧
      (st₃.types 2101088).map (fun i => i.emptySlab) = some (3145728 + 4096 - 32) ∧
      st₃.obLog = st₂.obLog ++ [.cli, .SpinLock 2101088, .GetFrames 0 1,
        .KeFrameFree (ia32Decls.FRADDRESS (ia32Decls.GetFrames 0 1)), .EnsureFaulty 0,
        .KiPagesFree 0, .SpinUnlock 2101088] ∧
      ObEvent.KiPagesFree 4194304 ∉ st₃.obLog ∧
      ObEvent.GetFrames 4194304 1 ∉ st₃.obLog := by
  have h : (typeCreated 2000 4).Returns (fun x =>
      x.1 = 2101088 ∧
      (KNew.each ia32Decls 2101088 0 64 [3145728, 0, 4194304] x.2).Returns (fun y =>
        y.1 = [3147728, 3145728, 4196304] ∧
        (KDelete.each ia32Decls 2101088 [4196304, 3147728] y.2).Returns (fun z =>
          (z.types 2101088).map (fun i => (i.rawSize, i.bufferPerSlab, i.emptySlab))
            = some (2000, 2, 4194304 + 4096 - 32) ∧
          (KDelete ia32Decls z 3145728 2101088).Returns (fun w =>
            (w.types 2101088).map (fun i => i.emptySlab) = some (3145728 + 4096 - 32) ∧
            w.obLog = z.obLog ++ [.cli, .SpinLock 2101088, .GetFrames 0 1,
              .KeFrameFree (ia32Decls.FRADDRESS (ia32Decls.GetFrames 0 1)), .EnsureFaulty 0,
              .KiPagesFree 0, .SpinUnlock 2101088] ∧
            ObEvent.KiPagesFree 4194304 ∉ w.obLog ∧
            ObEvent.GetFrames 4194304 1 ∉ w.obLog)))) := by
    decide
  obtain ⟨⟨r, st₀⟩, h0, hr, h⟩ := Run.exists_of_returns h
  obtain ⟨⟨objs, st₁⟩, h1, hobjs, h⟩ := Run.exists_of_returns h
  obtain ⟨st₂, h2, hty, h⟩ := Run.exists_of_returns h
  obtain ⟨st₃, h3, hE, hlog, hnot, hnot'⟩ := Run.exists_of_returns h
  simp only at hr hobjs h1 h2
  subst hr hobjs
  exact ⟨st₀, st₁, st₂, st₃, h0, h1, h2, hty, h3, hE, hlog, hnot, hnot'⟩

/-- `KDelete` of an object whose slab `S` is left with `bufferPerSlab` free
buffers, not 1, in a cache whose lock is free and whose cached empty slab, if
any, is another slab of the memory.  `S` leaves the partial list and becomes
the cached empty slab, the only one of the cache; the full list is as before.
If an older empty slab was cached, `ObDestroySlab` runs on it and makes its
calls; the page address it computes is the page of the older slab when
`rawSize ≤ KPGSIZE / 8` (for pages of `KPGSIZE = 2 ^ KPGOFFSET` bytes), and 0
when `rawSize > KPGSIZE / 8`.  If no empty slab was cached nothing is
destroyed. -/
theorem KDelete_fully_free (D : SlabDecls) (st : ObState) (object h : Nat)
    (info : ObjectInfo) (sl slE : Slab)
    (hinfo : st.types h = some info) (hfree : info.lock = false)
    (hsl : st.slabs (KDelete.slab D object) = some sl)
    (hone : uadd sl.freeCount 1 ≠ 1)
    (hall : uadd sl.freeCount 1 = info.bufferPerSlab)
    (hempty : info.emptySlab = 0 ∨ (info.emptySlab ≠ KDelete.slab D object ∧
      st.slabs info.emptySlab = some slE)) :
    ∃ st' info', KDelete D st object h = .ret st' ∧
      st'.types h = some info' ∧
      info'.emptySlab = KDelete.slab D object ∧
      info'.partialList.nodes = info.partialList.nodes.erase (KDelete.slab D object) ∧
      info'.fullList = info.fullList ∧
      st'.slabs (KDelete.slab D object) = some
        { sl with bufferStack := object :: sl.bufferStack, freeCount := info.bufferPerSlab } ∧
      st'.obLog = st.obLog ++ ([.cli, .SpinLock h] ++
        (if info.emptySlab ≠ 0 then
          ObDestroySlab.calls D info.dtor info.rawSize info.emptySlab slE
        else []) ++
        [.SpinUnlock h] ++ if st.oballocNormaleUse then [.sti] else []) ∧
      (D.KPGSIZE / 8 < info.rawSize →
        ObDestroySlab.pageAddress D info.rawSize info.emptySlab = 0) ∧
      (∀ P, info.rawSize ≤ D.KPGSIZE / 8 → D.KPGSIZE = 2 ^ D.KPGOFFSET → D.KPGOFFSET < 32 →
        P % D.KPGSIZE = 0 → 0 < D.sizeofSlab → D.sizeofSlab ≤ D.KPGSIZE →
        P + D.KPGSIZE ≤ ULONG_MOD → info.emptySlab = P + D.KPGSIZE - D.sizeofSlab →
        ObDestroySlab.pageAddress D info.rawSize info.emptySlab = P) := by
  have hbig : D.KPGSIZE / 8 < info.rawSize →
      ObDestroySlab.pageAddress D info.rawSize info.emptySlab = 0 := by
    intro hb
    unfold ObDestroySlab.pageAddress
    rw [if_neg (by omega)]
  have hsmall : ∀ P, info.rawSize ≤ D.KPGSIZE / 8 → D.KPGSIZE = 2 ^ D.KPGOFFSET →
      D.KPGOFFSET < 32 → P % D.KPGSIZE = 0 → 0 < D.sizeofSlab → D.sizeofSlab ≤ D.KPGSIZE →
      P + D.KPGSIZE ≤ ULONG_MOD → info.emptySlab = P + D.KPGSIZE - D.sizeofSlab →
      ObDestroySlab.pageAddress D info.rawSize info.emptySlab = P := by
    intro P h1 h2 h3 h4 h5 h6 h7 h8
    rw [h8]
    exact pageAddress_of_small D info.rawSize P h1 h2 h3 h4 h5 h6 h7
  by_cases hE : info.emptySlab = 0
  · refine ⟨_, _, KDelete_caches D st object h info sl hinfo hfree hsl hone hall hE,
      canonical_types _ _ _ _ _ _, rfl, rfl, rfl, ?_, ?_, hbig, hsmall⟩
    · simp [PushElement, hall]
    · simp [hE]
  · rcases hempty with h0 | ⟨hES, hslE⟩
    · exact absurd h0 hE
    · refine ⟨_, _, KDelete_destroys D st object h info sl slE hinfo hfree hsl hone hall hE hES
        hslE, canonical_types _ _ _ _ _ _, rfl, rfl, rfl, ?_, ?_, hbig, hsmall⟩
      · simp [PushElement, hall]
      · simp [hE, List.append_assoc]

/-- An instance of `KDelete_fully_free`: the last object handed out of a slab
is given back while an older empty slab, on the page at 4194304, is cached:
the page released is 4194304. -/
theorem KDelete_fully_free_witness :
    ∃ st' info', KDelete ia32Decls cacheWithEmptySlab 3145728 2101088 = .ret st' ∧
      st'.types 2101088 = some info' ∧
      info'.emptySlab = KDelete.slab ia32Decls 3145728 ∧
      info'.partialList.nodes = [3149792].erase (KDelete.slab ia32Decls 3145728) ∧
      info'.fullList = ⟨[]⟩ ∧
      st'.slabs (KDelete.slab ia32Decls 3145728) = some
        { colouringOffset := 0
          bufferStack := 3145728 ::
            [3149228, 3148728, 3148228, 3147728, 3147228, 3146728, 3146228]
          freeCount := 8 } ∧
      st'.obLog = cacheWithEmptySlab.obLog ++ ([.cli, .SpinLock 2101088] ++
        (if 4198368 ≠ 0 then
          ObDestroySlab.calls ia32Decls 0 500 4198368
            { colouringOffset := 0
              bufferStack :=
                [4197804, 4197304, 4196804, 4196304, 4195804, 4195304, 4194804, 4194304]
              freeCount := 8 }
        else []) ++
        [.SpinUnlock 2101088] ++ if cacheWithEmptySlab.oballocNormaleUse then [.sti] else []) ∧
      (ia32Decls.KPGSIZE / 8 < 500 →
        ObDestroySlab.pageAddress ia32Decls 500 4198368 = 0) ∧
      (∀ P, 500 ≤ ia32Decls.KPGSIZE / 8 → ia32Decls.KPGSIZE = 2 ^ ia32Decls.KPGOFFSET →
        ia32Decls.KPGOFFSET < 32 →
        P % ia32Decls.KPGSIZE = 0 → 0 < ia32Decls.sizeofSlab →
        ia32Decls.sizeofSlab ≤ ia32Decls.KPGSIZE →
        P + ia32Decls.KPGSIZE ≤ ULONG_MOD →
        4198368 = P + ia32Decls.KPGSIZE - ia32Decls.sizeofSlab →
        ObDestroySlab.pageAddress ia32Decls 500 4198368 = P) :=
  KDelete_fully_free ia32Decls cacheWithEmptySlab 3145728 2101088
    { name := 7, rawSize := 500, colorScheme := 0, align := 4, bufferSize := 500,
      bufferPerSlab := 8, bufferMargin := 64, ctor := 0, dtor := 0, callCount := 0,
      emptySlab := 4198368, partialList := ⟨[3149792]⟩, fullList := ⟨[]⟩, lock := false }
    { colouringOffset := 0
      bufferStack := [3149228, 3148728, 3148228, 3147728, 3147228, 3146728, 3146228]
      freeCount := 7 }
    { colouringOffset := 0
      bufferStack := [4197804, 4197304, 4196804, 4196304, 4195804, 4195304, 4194804, 4194304]
      freeCount := 8 }
    rfl rfl (by decide) (by decide) (by decide) (Or.inr ⟨by decide, by decide⟩)

/-! ## The count of free buffers, and the end of a cache -/

set_option maxRecDepth 100000 in
set_option synthInstance.maxSize 1024 in
/-- C17: a type of 508 bytes, 8 objects to a slab.  `KNew` is called 8 times;
the first call constructs the slab with the header at 3149792, and every call
takes from this slab.  The eighth call returns `NULL`: 7 objects of the slab
are handed out, its `freeCount` is 0 and it is in the full list, so
`freeCount` plus the number of objects handed out is 7, not `bufferPerSlab`. -/
theorem KNew_count_invariant_broken :
    ∃ st₀ st₁ objects, typeCreated 508 4 = .ret (2101088, st₀) ∧
      KNew.each ia32Decls 2101088 0 64 [3145728, 0, 0, 0, 0, 0, 0, 0] st₀
        = .ret (objects, st₁) ∧
      objects = [3148776, 3148268, 3147760, 3147252, 3146744, 3146236, 3145728, 0] ∧
      pageRequests st₁.obLog = pageRequests st₀.obLog + 1 ∧
      (st₁.types 2101088).map
          (fun i => (i.bufferPerSlab, i.partialList.nodes, i.fullList.nodes, i.emptySlab))
        = some (8, [], [3149792], 0) ∧
      st₁.slabs 3149792 = some { colouringOffset := 0, bufferStack := [], freeCount := 0 } ∧
      handedOut ia32Decls 3149792 objects = 7 ∧
      0 + handedOut ia32Decls 3149792 objects ≠ 8 := by
  have h : (typeCreated 508 4).Returns (fun x =>
      x.1 = 2101088 ∧
      (KNew.each ia32Decls 2101088 0 64 [3145728, 0, 0, 0, 0, 0, 0, 0] x.2).Returns (fun y =>
        y.1 = [3148776, 3148268, 3147760, 3147252, 3146744, 3146236, 3145728, 0] ∧
        pageRequests y.2.obLog = pageRequests x.2.obLog + 1 ∧
        (y.2.types 2101088).map
            (fun i => (i.bufferPerSlab, i.partialList.nodes, i.fullList.nodes, i.emptySlab))
          = some (8, [], [3149792], 0) ∧
        y.2.slabs 3149792
          = some { colouringOffset := 0, bufferStack := [], freeCount := 0 } ∧
        handedOut ia32Decls 3149792 y.1 = 7)) := by
    decide
  obtain ⟨⟨r, st₀⟩, h0, hr, h⟩ := Run.exists_of_returns h
  obtain ⟨⟨objects, st₁⟩, h1, hobjs, hreq, hty, hsl, hout⟩ := Run.exists_of_returns h
  simp only at hr hobjs h1 hreq hty hsl hout
  subst hr
  exact ⟨st₀, st₁, objects, h0, h1, hobjs, hreq, hty, hsl, hout, by rw [hout]; decide⟩

set_option maxRecDepth 100000 in
set_option synthInstance.maxSize 1024 in
/-- C19: a type of 3000 bytes, one object to a slab.  One object is taken with
`KNew` and given back with `KDelete`: no object is outside the allocator.  The
slab, with `freeCount = 1 = bufferPerSlab`, is in the partial list, not the
cached empty slab, and `KiDestroyType` returns `FALSE` and leaves the type in
the list of types. -/
theorem KiDestroyType_refuses_idle_cache :
    ∃ st₀ st₁ st₂ st₃, typeCreated 3000 4 = .ret (2101088, st₀) ∧
      (st₀.types 2101088).map (fun i => i.bufferPerSlab) = some 1 ∧
      KNew ia32Decls st₀ 2101088 0 3145728 64 = .ret (3145728, st₁) ∧
      KDelete ia32Decls st₁ 3145728 2101088 = .ret st₂ ∧
      (st₂.types 2101088).map (fun i => (i.partialList.nodes, i.fullList.nodes, i.emptySlab))
        = some ([3149792], [], 0) ∧
      st₂.slabs 3149792
        = some { colouringOffset := 0, bufferStack := [3145728], freeCount := 1 } ∧
      KiDestroyType ia32Decls st₂ 2101088 = .ret (FALSE, st₃) ∧
      st₃.tList = st₂.tList ∧ 2101088 ∈ st₃.tList.nodes := by
  have h : (typeCreated 3000 4).Returns (fun x =>
      x.1 = 2101088 ∧
      (x.2.types 2101088).map (fun i => i.bufferPerSlab) = some 1 ∧
      (KNew ia32Decls x.2 2101088 0 3145728 64).Returns (fun y =>
        y.1 = 3145728 ∧
        (KDelete ia32Decls y.2 3145728 2101088).Returns (fun z =>
          (z.types 2101088).map (fun i => (i.partialList.nodes, i.fullList.nodes, i.emptySlab))
            = some ([3149792], [], 0) ∧
          z.slabs 3149792
            = some { colouringOffset := 0, bufferStack := [3145728], freeCount := 1 } ∧
          (KiDestroyType ia32Decls z 2101088).Returns (fun w =>
            w.1 = FALSE ∧ w.2.tList = z.tList ∧ 2101088 ∈ w.2.tList.nodes)))) := by
    decide
  obtain ⟨⟨r, st₀⟩, h0, hr, hbps, h⟩ := Run.exists_of_returns h
  obtain ⟨⟨object, st₁⟩, h1, hobj, h⟩ := Run.exists_of_returns h
  obtain ⟨st₂, h2, hty, hsl, h⟩ := Run.exists_of_returns h
  obtain ⟨⟨b, st₃⟩, h3, hb, hlist, hmem⟩ := Run.exists_of_returns h
  simp only at hr hbps h1 hobj h2 h3 hb hlist hmem
  subst hr hobj hb
  exact ⟨st₀, st₁, st₂, st₃, h0, hbps, h1, h2, hty, hsl, h3, hlist, hmem⟩

set_option maxRecDepth 100000 in
set_option synthInstance.maxSize 1024 in
/-- C20: a type of 508 bytes whose cache has no slab, so `KNew` needs a fresh
slab, and the page-frame manager answers with no page, the address 0.  `KNew`
does not return `NULL`: it returns the address 3048 as an object, and a slab
with the header at 4064, inside the page at 0, is in the partial list. -/
theorem KNew_without_page_returns_object :
    ∃ st₀ st₁, typeCreated 508 4 = .ret (2101088, st₀) ∧
      (st₀.types 2101088).map (fun i => (i.partialList.nodes, i.fullList.nodes, i.emptySlab))
        = some ([], [], 0) ∧
      KNew ia32Decls st₀ 2101088 0 0 64 = .ret (3048, st₁) ∧
      3048 ≠ 0 ∧
      (st₁.types 2101088).map (fun i => (i.partialList.nodes, i.fullList.nodes, i.emptySlab))
        = some ([4064], [], 0) ∧
      st₁.slabs 4064 = some
        { colouringOffset := 0, bufferStack := [2540, 2032, 1524, 1016, 508, 0],
          freeCount := 7 } := by
  have h : (typeCreated 508 4).Returns (fun x =>
      x.1 = 2101088 ∧
      (x.2.types 2101088).map (fun i => (i.partialList.nodes, i.fullList.nodes, i.emptySlab))
        = some ([], [], 0) ∧
      (KNew ia32Decls x.2 2101088 0 0 64).Returns (fun y =>
        y.1 = 3048 ∧
        (y.2.types 2101088).map
            (fun i => (i.partialList.nodes, i.fullList.nodes, i.emptySlab))
          = some ([4064], [], 0) ∧
        y.2.slabs 4064 = some
          { colouringOffset := 0, bufferStack := [2540, 2032, 1524, 1016, 508, 0],
            freeCount := 7 })) := by
    decide
  obtain ⟨⟨r, st₀⟩, h0, hr, hty0, h⟩ := Run.exists_of_returns h
  obtain ⟨⟨object, st₁⟩, h1, hobj, hty, hsl⟩ := Run.exists_of_returns h
  simp only at hr hty0 h1 hobj hty hsl
  subst hr hobj
  exact ⟨st₀, st₁, h0, hty0, h1, by decide, hty, hsl⟩

/-! ## Constructors and destructors -/

theorem constructed_append (a b : List ObEvent) :
    constructed (a ++ b) = constructed a ++ constructed b := by
  simp [constructed, List.filterMap_append]

theorem destructed_append (a b : List ObEvent) :
    destructed (a ++ b) = destructed a ++ destructed b := by
  simp [destructed, List.filterMap_append]

theorem constructed_ctorCalls (page bs : Nat) :
    ∀ k : Nat, constructed (ctorCalls page bs k) = (slabBuffers page bs k).reverse := by
  intro k
  induction k with
  | zero => rfl
  | succ k ih =>
    have hk : ctorCalls page bs (k + 1) = ctorCalls page bs k ++ [.ctor (page + k * bs)] := by
      simp [ctorCalls, List.range_succ]
    rw [hk, constructed_append, ih, slabBuffers, List.reverse_cons]
    rfl

theorem destructed_ctorCalls (page bs k : Nat) : destructed (ctorCalls page bs k) = [] := by
  simp [destructed, ctorCalls, List.filterMap_map, List.filterMap_eq_nil_iff]

/-- The loop of `ObDestroySlab` calls the destructor on the buffers of the
stack that come before the first `NULL`, from the head. -/
theorem destruct_eq_map (stack : List Nat) :
    ObDestroySlab.destruct stack
      = (stack.takeWhile (fun b => decide (b ≠ 0))).map .dtor := by
  induction stack with
  | nil => rfl
  | cons a rest ih =>
    by_cases ha : a = 0
    · simp [ObDestroySlab.destruct, ha]
    · simp [ObDestroySlab.destruct, ha, ih]

/-- On a stack without `NULL` the loop of `ObDestroySlab` calls the destructor
on every buffer. -/
theorem destruct_of_not_mem (stack : List Nat) (h0 : 0 ∉ stack) :
    ObDestroySlab.destruct stack = stack.map .dtor := by
  induction stack with
  | nil => rfl
  | cons a rest ih =>
    have ha : a ≠ 0 := fun h => h0 (h ▸ List.mem_cons_self _ _)
    have hr : 0 ∉ rest := fun h => h0 (List.mem_cons_of_mem _ h)
    simp [ObDestroySlab.destruct, ha, ih hr]

theorem destructed_dtors (stack : List Nat) : destructed (stack.map .dtor) = stack := by
  induction stack with
  | nil => rfl
  | cons a rest ih =>
    rw [List.map_cons, destructed, List.filterMap_cons]
    exact congrArg (a :: ·) ih

theorem constructed_dtors (stack : List Nat) : constructed (stack.map .dtor) = [] := by
  simp [constructed, List.filterMap_map, List.filterMap_eq_nil_iff]

theorem destructed_destruct (stack : List Nat) :
    destructed (ObDestroySlab.destruct stack)
      = stack.takeWhile (fun b => decide (b ≠ 0)) := by
  rw [destruct_eq_map, destructed_dtors]

theorem constructed_destruct (stack : List Nat) :
    constructed (ObDestroySlab.destruct stack) = [] := by
  rw [destruct_eq_map, constructed_dtors]

theorem constructed_create (D : SlabDecls) (n : Bool) (h kmSleep page ctor bs : Nat) :
    constructed (ObCreateSlab.calls D n h kmSleep page ctor bs)
      = if ctor ≠ 0 then (slabBuffers page bs (ObCreateSlab.turns D bs)).reverse else [] := by
  unfold ObCreateSlab.calls
  rw [constructed_append, constructed_append]
  by_cases hc : ctor = 0
  · simp [hc, constructed]
  · simp only [hc, ne_eq, not_false_eq_true, if_true, constructed_ctorCalls]
    simp [constructed]

theorem destructed_create (D : SlabDecls) (n : Bool) (h kmSleep page ctor bs : Nat) :
    destructed (ObCreateSlab.calls D n h kmSleep page ctor bs) = [] := by
  unfold ObCreateSlab.calls
  rw [destructed_append, destructed_append]
  by_cases hc : ctor = 0
  · simp [hc, destructed]
  · simp only [hc, ne_eq, not_false_eq_true, if_true, destructed_ctorCalls]
    simp [destructed]

theorem destructed_destroy (D : SlabDecls) (dtor rawSize E : Nat) (slE : Slab) :
    destructed (ObDestroySlab.calls D dtor rawSize E slE)
      = if dtor ≠ 0 then slE.bufferStack.takeWhile (fun b => decide (b ≠ 0)) else [] := by
  unfold ObDestroySlab.calls
  rw [destructed_append]
  by_cases hd : dtor = 0
  · simp [hd, destructed]
  · simp only [hd, ne_eq, not_false_eq_true, if_true, destructed_destruct]
    simp [destructed]

theorem constructed_destroy (D : SlabDecls) (dtor rawSize E : Nat) (slE : Slab) :
    constructed (ObDestroySlab.calls D dtor rawSize E slE) = [] := by
  unfold ObDestroySlab.calls
  rw [constructed_append]
  by_cases hd : dtor = 0
  · simp [hd, constructed]
  · simp only [hd, ne_eq, not_false_eq_true, if_true, constructed_destruct]
    simp [constructed]

theorem slabBuffers_nodup (page bs : Nat) (hbs : 0 < bs) :
    ∀ k : Nat, (slabBuffers page bs k).Nodup := by
  intro k
  induction k with
  | zero => exact List.nodup_nil
  | succ k ih =>
    rw [slabBuffers, List.nodup_cons]
    refine ⟨?_, ih⟩
    rw [mem_slabBuffers]
    rintro ⟨i, hi, he⟩
    have : i * bs < k * bs := Nat.mul_lt_mul_of_pos_right hi hbs
    omega

theorem constructed_frame (n : Bool) (h : Nat) :
    constructed ([.cli, .SpinLock h, .SpinUnlock h] ++ if n then [.sti] else []) = [] := by
  cases n <;> rfl

theorem destructed_frame (n : Bool) (h : Nat) :
    destructed ([.cli, .SpinLock h, .SpinUnlock h] ++ if n then [.sti] else []) = [] := by
  cases n <;> rfl

theorem constructed_sti (n : Bool) :
    constructed (if n then [ObEvent.sti] else []) = [] := by
  cases n <;> rfl

theorem destructed_sti (n : Bool) :
    destructed (if n then [ObEvent.sti] else []) = [] := by
  cases n <;> rfl

/-- The calls of the constructor and of the destructor of a type, on a cache
whose lock is free.  A `KNew` served from the head of the partial list or from
the cached empty slab calls neither.  A `KNew` that constructs a slab calls the
constructor, if the type has one, once on each buffer it puts on the free stack
of the slab, in the order of the addresses, and on nothing else; the buffers of
the stack are distinct.  A `KDelete` calls no constructor; it calls the
destructor only when it destroys the older cached empty slab, and then, if the
type has a destructor, once on each buffer of the free stack of that slab from
its head down to the first `NULL`: on every buffer of the stack when `NULL` is
not among them. -/
theorem ctor_dtor_per_slab (D : SlabDecls) (st : ObState) (h : Nat) (info : ObjectInfo)
    (hinfo : st.types h = some info) (hfree : info.lock = false) :
    (∀ (kmSleep page fuel S : Nat) (rest : List Nat) (sl : Slab),
      info.partialList.nodes = S :: rest → S ≠ 0 → st.slabs S = some sl →
      ∃ object st', KNew D st h kmSleep page fuel = .ret (object, st') ∧
        constructed st'.obLog = constructed st.obLog ∧
        destructed st'.obLog = destructed st.obLog) ∧
    (∀ (kmSleep page fuel : Nat) (sl : Slab),
      info.partialList.nodes = [] → info.emptySlab ≠ 0 →
      st.slabs info.emptySlab = some sl →
      ∃ object st', KNew D st h kmSleep page fuel = .ret (object, st') ∧
        constructed st'.obLog = constructed st.obLog ∧
        destructed st'.obLog = destructed st.obLog) ∧
    (∀ (kmSleep page fuel : Nat),
      info.partialList.nodes = [] → info.emptySlab = 0 →
      0 < info.bufferSize → info.bufferSize ≤ D.KPGSIZE - D.sizeofSlab →
      page + D.KPGSIZE < ULONG_MOD → ObCreateSlab.turns D info.bufferSize < fuel →
      ∃ object st' sl', KNew D st h kmSleep page fuel = .ret (object, st') ∧
        st'.slabs (page + D.KPGSIZE - D.sizeofSlab) = some sl' ∧
        PopElement (slabBuffers page info.bufferSize (ObCreateSlab.turns D info.bufferSize))
          = (object, sl'.bufferStack) ∧
        (slabBuffers page info.bufferSize (ObCreateSlab.turns D info.bufferSize)).Nodup ∧
        constructed st'.obLog = constructed st.obLog ++
          (if info.ctor ≠ 0 then
            (slabBuffers page info.bufferSize (ObCreateSlab.turns D info.bufferSize)).reverse
          else []) ∧
        destructed st'.obLog = destructed st.obLog) ∧
    (∀ (object : Nat) (sl slE : Slab),
      st.slabs (KDelete.slab D object) = some sl →
      (info.emptySlab = 0 ∨ (info.emptySlab ≠ KDelete.slab D object ∧
        st.slabs info.emptySlab = some slE)) →
      ∃ st', KDelete D st object h = .ret st' ∧
        constructed st'.obLog = constructed st.obLog ∧
        destructed st'.obLog = destructed st.obLog ++
          (if uadd sl.freeCount 1 ≠ 1 ∧ uadd sl.freeCount 1 = info.bufferPerSlab ∧
              info.emptySlab ≠ 0 ∧ info.dtor ≠ 0 then
            slE.bufferStack.takeWhile (fun b => decide (b ≠ 0))
          else []) ∧
        (0 ∉ slE.bufferStack →
          slE.bufferStack.takeWhile (fun b => decide (b ≠ 0)) = slE.bufferStack)) := by
  refine ⟨?_, ?_, ?_, ?_⟩
  · intro kmSleep page fuel S rest sl hpart hS hsl
    refine ⟨_, _, KNew_head D st h kmSleep page fuel S rest info sl hinfo hfree hpart hS hsl,
      ?_, ?_⟩
    · rw [canonical_obLog, constructed_append, constructed_frame, List.append_nil]
    · rw [canonical_obLog, destructed_append, destructed_frame, List.append_nil]
  · intro kmSleep page fuel sl hpart hE hsl
    refine ⟨_, _, KNew_promote D st h kmSleep page fuel info sl hinfo hfree hpart hE hsl,
      ?_, ?_⟩
    · rw [canonical_obLog, constructed_append, constructed_frame, List.append_nil]
    · rw [canonical_obLog, destructed_append, destructed_frame, List.append_nil]
  · intro kmSleep page fuel hpart hE hbs hfit hword hfuel
    refine ⟨_, _, _, KNew_construct D st h kmSleep page fuel info hinfo hfree hpart hE hbs hfit
      hword hfuel, canonical_slabs _ _ _ _ _ _, rfl,
      slabBuffers_nodup page info.bufferSize hbs _, ?_, ?_⟩
    · rw [canonical_obLog]
      simp only [constructed_append, constructed_create, constructed_sti, List.append_nil]
      simp [constructed]
    · rw [canonical_obLog]
      simp only [destructed_append, destructed_create, destructed_sti, List.append_nil]
      simp [destructed]
  · intro object sl slE hsl hempty
    have htake : 0 ∉ slE.bufferStack →
        slE.bufferStack.takeWhile (fun b => decide (b ≠ 0)) = slE.bufferStack := by
      intro h0
      rw [List.takeWhile_eq_self_iff]
      intro b hb
      exact decide_eq_true (fun hz => h0 (hz ▸ hb))
    by_cases hone : uadd sl.freeCount 1 = 1
    · refine ⟨_, KDelete_from_full D st object h info sl hinfo hfree hsl hone, ?_, ?_, htake⟩
      · rw [canonical_obLog, constructed_append, constructed_frame, List.append_nil]
      · rw [canonical_obLog, destructed_append, destructed_frame]
        simp [hone]
    · by_cases hall : uadd sl.freeCount 1 = info.bufferPerSlab
      · by_cases hE : info.emptySlab = 0
        · refine ⟨_, KDelete_caches D st object h info sl hinfo hfree hsl hone hall hE, ?_, ?_, htake⟩
          · rw [canonical_obLog, constructed_append, constructed_frame, List.append_nil]
          · rw [canonical_obLog, destructed_append, destructed_frame]
            simp [hE]
        · rcases hempty with h0 | ⟨hES, hslE⟩
          · exact absurd h0 hE
          · refine ⟨_, KDelete_destroys D st object h info sl slE hinfo hfree hsl hone hall hE
              hES hslE, ?_, ?_, htake⟩
            · rw [canonical_obLog]
              simp only [constructed_append, constructed_destroy, constructed_sti,
                List.append_nil]
              simp [constructed]
            · rw [canonical_obLog]
              simp only [destructed_append, destructed_destroy, destructed_sti,
                List.append_nil]
              by_cases hd : info.dtor = 0
              · simp [destructed, hd]
              · have hone' : info.bufferPerSlab ≠ 1 := hall ▸ hone
                simp [destructed, hd, hone', hall, hE]
      · refine ⟨_, KDelete_other D st object h info sl hinfo hfree hsl hone hall, ?_, ?_, htake⟩
        · rw [canonical_obLog, constructed_append, constructed_frame, List.append_nil]
        · rw [canonical_obLog, destructed_append, destructed_frame]
          simp [hall]

/-- An instance of `ctor_dtor_per_slab`: the last object handed out of a slab
is given back while an older empty slab with 8 free buffers is cached, for a
type with a destructor: the destructor is called on these 8 buffers, from the
head of the free stack. -/
theorem ctor_dtor_per_slab_witness :
    ∃ st', KDelete ia32Decls cacheWithDestructor 3145728 2101088 = .ret st' ∧
      constructed st'.obLog = constructed cacheWithDestructor.obLog ∧
      destructed st'.obLog = destructed cacheWithDestructor.obLog ++
        (if uadd 7 1 ≠ 1 ∧ uadd 7 1 = 8 ∧ 4198368 ≠ 0 ∧ 5242944 ≠ 0 then
          [4197804, 4197304, 4196804, 4196304, 4195804, 4195304, 4194804, 4194304].takeWhile
            (fun b => decide (b ≠ 0))
        else []) ∧
      (0 ∉ [4197804, 4197304, 4196804, 4196304, 4195804, 4195304, 4194804, 4194304] →
        [4197804, 4197304, 4196804, 4196304, 4195804, 4195304, 4194804, 4194304].takeWhile
            (fun b => decide (b ≠ 0))
          = [4197804, 4197304, 4196804, 4196304, 4195804, 4195304, 4194804, 4194304]) :=
  (ctor_dtor_per_slab ia32Decls cacheWithDestructor 2101088
    { name := 7, rawSize := 500, colorScheme := 0, align := 4, bufferSize := 500,
      bufferPerSlab := 8, bufferMargin := 64, ctor := 5242880, dtor := 5242944,
      callCount := 0, emptySlab := 4198368, partialList := ⟨[3149792]⟩,
      fullList := ⟨[]⟩, lock := false }
    rfl rfl).2.2.2 3145728
    { colouringOffset := 0
      bufferStack := [3149228, 3148728, 3148228, 3147728, 3147228, 3146728, 3146228]
      freeCount := 7 }
    { colouringOffset := 0
      bufferStack := [4197804, 4197304, 4196804, 4196304, 4195804, 4195304, 4194804, 4194304]
      freeCount := 8 }
    (by decide) (Or.inr ⟨by decide, by decide⟩)

set_option maxRecDepth 100000 in
set_option synthInstance.maxSize 1024 in
/-- C21: a type of 500 bytes with a constructor and a destructor, 8 objects to
a slab, whose first slab is built while the page-frame manager has no page.
`ObCreateSlab` does not test the answer: it builds the slab on the address 0,
with the header at 4064, calls the constructor on the 8 buffers at 0, 500, ...,
3500 and pushes them.  The object taken, 3500, is given back; the slab has all
its buffers free and is the cached empty slab; `KiDestroyType` destroys it.
The loop of `ObDestroySlab` calls the destructor on the 7 buffers from 3500
down to 500 and ends at the buffer at 0: this buffer was constructed and is
not destructed. -/
theorem destructor_skips_null_buffer :
    ∃ st₀ st₁ st₂ st₃,
      KiCreateType ia32Decls (obSetupAllocator ia32Decls bootState) 7 500 4 5242880 5242944
        2097152 64 = .ret (2101088, st₀) ∧
      KNew ia32Decls st₀ 2101088 0 0 64 = .ret (3500, st₁) ∧
      constructed st₁.obLog = [0, 500, 1000, 1500, 2000, 2500, 3000, 3500] ∧
      KDelete ia32Decls st₁ 3500 2101088 = .ret st₂ ∧
      (st₂.types 2101088).map
          (fun i => (i.bufferPerSlab, i.partialList.nodes, i.fullList.nodes, i.emptySlab))
        = some (8, [], [], 4064) ∧
      st₂.slabs 4064 = some
        { colouringOffset := 0, bufferStack := [3500, 3000, 2500, 2000, 1500, 1000, 500, 0],
          freeCount := 8 } ∧
      KiDestroyType ia32Decls st₂ 2101088 = .ret (TRUE, st₃) ∧
      constructed st₃.obLog = [0, 500, 1000, 1500, 2000, 2500, 3000, 3500] ∧
      destructed st₃.obLog = [3500, 3000, 2500, 2000, 1500, 1000, 500] ∧
      0 ∈ constructed st₃.obLog ∧ 0 ∉ destructed st₃.obLog := by
  have h : (KiCreateType ia32Decls (obSetupAllocator ia32Decls bootState) 7 500 4 5242880
      5242944 2097152 64).Returns (fun x =>
      x.1 = 2101088 ∧
      (KNew ia32Decls x.2 2101088 0 0 64).Returns (fun y =>
        y.1 = 3500 ∧
        constructed y.2.obLog = [0, 500, 1000, 1500, 2000, 2500, 3000, 3500] ∧
        (KDelete ia32Decls y.2 3500 2101088).Returns (fun z =>
          (z.types 2101088).map
              (fun i => (i.bufferPerSlab, i.partialList.nodes, i.fullList.nodes, i.emptySlab))
            = some (8, [], [], 4064) ∧
          z.slabs 4064 = some
            { colouringOffset := 0
              bufferStack := [3500, 3000, 2500, 2000, 1500, 1000, 500, 0]
              freeCount := 8 } ∧
          (KiDestroyType ia32Decls z 2101088).Returns (fun w =>
            w.1 = TRUE ∧
            constructed w.2.obLog = [0, 500, 1000, 1500, 2000, 2500, 3000, 3500] ∧
            destructed w.2.obLog = [3500, 3000, 2500, 2000, 1500, 1000, 500])))) := by
    decide
  obtain ⟨⟨r, st₀⟩, h0, hr, h⟩ := Run.exists_of_returns h
  obtain ⟨⟨object, st₁⟩, h1, hobj, hctor, h⟩ := Run.exists_of_returns h
  obtain ⟨st₂, h2, hty, hsl, h⟩ := Run.exists_of_returns h
  obtain ⟨⟨b, st₃⟩, h3, hb, hc3, hd3⟩ := Run.exists_of_returns h
  simp only at hr h1 hobj hctor h2 hty hsl h3 hb hc3 hd3
  subst hr hobj hb
  exact ⟨st₀, st₁, st₂, st₃, h0, h1, hctor, h2, hty, hsl, h3, hc3, hd3,
    by rw [hc3]; decide, by rw [hd3]; decide⟩

/-! ## The slab churn scenario -/

set_option maxRecDepth 1000000 in
set_option synthInstance.maxSize 1024 in
/-- C22 (counterexample): in the slab churn scenario the first slab has its
header at 3149792 and the second at 4198368.  After the first 5 objects are
given back, in the reverse order of allocation, the second slab is the cached
empty slab while the first is still in the full list; at the end the cached
empty slab is the first slab, and the page released is the page of the second
slab, 4194304, not the page of the first. -/
theorem churn_destroys_second_slab :
    churnAllocated.Returns (fun x =>
      x.1 = [3149328, 3148928, 3148528, 3148128, 3147728, 3147328, 3146928, 3146528, 3146128,
        3145728, 4197904, 4197504, 4197104, 4196704, 4196304] ∧
      (x.1.take 10).all (fun object => KDelete.slab ia32Decls object = 3149792) = true ∧
      (x.1.drop 10).all (fun object => KDelete.slab ia32Decls object = 4198368) = true) ∧
    (churnFreed 5).Returns (fun st =>
      churnView st = (some ([], [3149792], 4198368), some 0, some 10, [])) ∧
    (churnFreed 15).Returns (fun st =>
      churnView st = (some ([], [], 3149792), some 10, some 10, [4194304]) ∧
      3145728 ∉ pagesFreed st.obLog) := by
  refine ⟨?_, ?_, ?_⟩ <;> decide

set_option maxRecDepth 1000000 in
set_option synthInstance.maxSize 1024 in
/-- C22 (amended): the slab churn scenario for a type with 10 objects to a
slab.  After 15 calls of `KNew` there are two slabs: the first in the full list
with `freeCount = 0`, the second in the partial list with `freeCount = 5`.  The
15 objects are given back in the reverse order of allocation.  After 5 calls
the second slab has `freeCount = 10`, has left the partial list and is the
cached empty slab.  The sixth call moves the first slab from the full list to
the partial list; it stays there up to the fourteenth.  The fifteenth makes
its `freeCount` 10: the cached empty slab, the second, is destroyed, and the
first slab is the new cached empty slab.  At the end both lists are empty and
one page, the page of the second slab, has been released. -/
theorem slab_churn :
    churnAllocated.Returns (fun x =>
      x.1.length = 15 ∧ x.1.Nodup ∧
      (x.1.take 10).all (fun object => KDelete.slab ia32Decls object = 3149792) = true ∧
      (x.1.drop 10).all (fun object => KDelete.slab ia32Decls object = 4198368) = true ∧
      (x.2.types 2101088).map (fun i => i.bufferPerSlab) = some 10 ∧
      churnView x.2 = (some ([4198368], [3149792], 0), some 0, some 5, [])) ∧
    (churnFreed 4).Returns (fun st =>
      churnView st = (some ([4198368], [3149792], 0), some 0, some 9, [])) ∧
    (churnFreed 5).Returns (fun st =>
      churnView st = (some ([], [3149792], 4198368), some 0, some 10, [])) ∧
    (churnFreed 6).Returns (fun st =>
      churnView st = (some ([3149792], [], 4198368), some 1, some 10, [])) ∧
    (churnFreed 14).Returns (fun st =>
      churnView st = (some ([3149792], [], 4198368), some 9, some 10, [])) ∧
    (churnFreed 15).Returns (fun st =>
      churnView st = (some ([], [], 3149792), some 10, some 10, [4194304])) := by
  refine ⟨?_, ?_, ?_, ?_, ?_, ?_⟩ <;> decide

/-! ## The zone locks after `allocateBlock` -/

/-- With `ZONE_REQUIRED` set and a preferred zone that does not allocate,
`getZone` returns nothing from inside the ring loop, and `allocateBlock` returns
nothing: the lock of the preferred zone, taken by the search, is still held. -/
theorem allocateBlock_required_fail {β : Type} (F : FlagDecls)
    (buddyAllocate : β → Nat → Option Nat × β) (s : ZoneAllocator β)
    (k basePref zonePref flags fuel : Nat) (zp : Zone β)
    (hZR : F.FLAG_SET flags F.ZONE_REQUIRED = true)
    (hzp : s.zoneTable[zonePref]? = some zp)
    (hfree : zp.controlLock = false)
    (hbase : basePref ≤ zp.preferenceIndex)
    (hact : getAction F (getStatus k zp) flags ≠ .ALLOCATE)
    (hfuel : 1 ≤ fuel) :
    allocateBlock F buddyAllocate s k basePref zonePref flags fuel
      = .ret (none, locked s zonePref) := by
  obtain ⟨n, rfl⟩ : ∃ n, fuel = n + 1 := ⟨fuel - 1, by omega⟩
  have hfail : getAction F (getStatus k zp) flags = .RET_FAIL := by
    rw [getAction_of_ne F _ flags hact, if_pos hZR]
  have hget : getZone F s k basePref flags zonePref (n + 1) = .ret (none, locked s zonePref) := by
    rw [getZone, hzp]
    simp only [getZone.prefs]
    rw [if_pos hbase, ring_step_fail F k flags _ s zonePref zp n hzp hfree hfail]
  exact (allocateBlock_no_zone F buddyAllocate s _ k basePref zonePref flags (n + 1) hget).1

/-- Without `ZONE_REQUIRED`, when the search finds an allocating zone `z`,
`allocateBlock` returns with every zone lock as it was before the call: the
log of spinlock calls has a `SpinLock` followed by a `SpinUnlock` for each zone
tried before `z`, and then for `z`. -/
theorem allocateBlock_found_unlocks {β : Type} (F : FlagDecls)
    (buddyAllocate : β → Nat → Option Nat × β) (s : ZoneAllocator β)
    (k basePref flags zonePref : Nat) (zp zz : Zone β)
    (rings : List (List Nat)) (z fuel : Nat)
    (hZR : F.FLAG_SET flags F.ZONE_REQUIRED = false)
    (hzp : s.zoneTable[zonePref]? = some zp)
    (hrings : PrefRings s.zoneTable s.prefTable basePref zp.preferenceIndex
      (some zonePref) rings)
    (hfirst : rings.flatten.find? (allocates F s.zoneTable k flags) = some z)
    (hfuel : rings.length + rings.flatten.length ≤ fuel)
    (hzz : s.zoneTable[z]? = some zz) (hfree : zz.controlLock = false) :
    ∃ b s₂, allocateBlock F buddyAllocate s k basePref zonePref flags fuel = .ret (b, s₂) ∧
      s₂.lockLog = s.lockLog ++
        skipLog (rings.flatten.takeWhile (fun i => !allocates F s.zoneTable k flags i)) ++
        [.SpinLock z, .SpinUnlock z] ∧
      ∀ j : Nat, (s₂.zoneTable[j]?).map (fun x => x.controlLock)
        = (s.zoneTable[j]?).map (fun x => x.controlLock) := by
  have hget := getZone_first F s k basePref flags zonePref zp rings z fuel hZR hzp hrings
    hfirst hfuel
  have hz₁ := locked_getElem? (skipped s (rings.flatten.takeWhile
    (fun i => !allocates F s.zoneTable k flags i))) z zz hzz
  have hsel := allocateBlock_selected F buddyAllocate s _ k basePref zonePref flags fuel z _
    hget hz₁
  have hlt := lt_length_of_getElem? _ _ _ hzz
  refine ⟨_, _, hsel, ?_, ?_⟩
  · simp [locked, skipped, List.append_assoc]
  · intro j
    by_cases hj : j = z
    · subst hj
      simp [locked, skipped, lockZone, hzz, List.getElem?_set, hlt, hfree]
    · have hj' : z ≠ j := fun e => hj e.symm
      simp [locked, skipped, lockZone, hzz, List.getElem?_set_ne hj']

/-- C30: the fallback layout, zone 1 full and preferred, and a request of order
1 with `ZONE_REQUIRED`.  `allocateBlock` returns nothing and the lock of zone 1
is held: the log of spinlock calls has the `SpinLock` of zone 1 and no
`SpinUnlock`.  The next request with zone 1 as preferred zone spins for ever on
that lock. -/
theorem allocateBlock_required_keeps_lock :
    ∃ s₁, allocateBlock maskFlags buddyGives fallbackLayout 1 0 1 4 8 = .ret (none, s₁) ∧
      (s₁.zoneTable[1]?).map (fun z => z.controlLock) = some true ∧
      s₁.lockLog = [.SpinLock 1] ∧
      LockEvent.SpinUnlock 1 ∉ s₁.lockLog ∧
      allocateBlock maskFlags buddyGives s₁ 1 0 1 0 8 = .spin := by
  refine ⟨locked fallbackLayout 1, ?_, ?_, ?_, ?_, ?_⟩ <;> decide

/-! ## The linked list (Util/LinkedList.cpp) -/


theorem store_self (m : Nat → Option LinkedListNode) (a : Nat) (n : LinkedListNode) :
    store m a n a = some n := by
  simp [store]

theorem store_ne (m : Nat → Option LinkedListNode) (a : Nat) (n : LinkedListNode) (b : Nat)
    (h : b ≠ a) : store m a n b = m b := by
  simp [store, h]

theorem Linked_congr (m m' : Nat → Option LinkedListNode) :
    ∀ (ns : List Nat) (p q : Nat), (∀ a ∈ ns, m' a = m a) →
      (Linked m' p ns q ↔ Linked m p ns q) := by
  intro ns
  induction ns with
  | nil => intro p q _; simp [Linked]
  | cons a rest ih =>
    intro p q h
    simp only [Linked]
    rw [h a (List.mem_cons_self a rest),
      ih a q (fun b hb => h b (List.mem_cons_of_mem a hb))]

theorem Linked_store (m : Nat → Option LinkedListNode) (a : Nat) (n : LinkedListNode)
    (ns : List Nat) (p q : Nat) (h : a ∉ ns) :
    Linked (store m a n) p ns q ↔ Linked m p ns q := by
  apply Linked_congr
  intro b hb
  exact store_ne m a n b (fun e => h (e ▸ hb))

theorem Linked_append (m : Nat → Option LinkedListNode) :
    ∀ (l₁ : List Nat) (p : Nat) (l₂ : List Nat) (q : Nat),
      Linked m p (l₁ ++ l₂) q ↔
        Linked m p l₁ (l₂.headD q) ∧ Linked m (l₁.getLastD p) l₂ q := by
  intro l₁
  induction l₁ with
  | nil => intro p l₂ q; simp [Linked]
  | cons a rest ih =>
    intro p l₂ q
    have hh : (rest ++ l₂).headD q = rest.headD (l₂.headD q) := by
      cases rest <;> simp
    have hl : (a :: rest).getLastD p = rest.getLastD a := by
      cases rest <;> rfl
    rw [List.cons_append]
    simp only [Linked]
    rw [ih a l₂ q, hh, hl, and_assoc]

theorem uadd_one_of_lt {c : Nat} (h : c + 1 < ULONG_MOD) : uadd c 1 = c + 1 := by
  unfold uadd
  exact Nat.mod_eq_of_lt h

theorem getLastD_concat_eq (l : List Nat) (t d : Nat) : (l ++ [t]).getLastD d = t := by
  simp

theorem tail_concat (l : List Nat) (t : Nat) :
    (if 2 ≤ (l ++ [t]).length then (l ++ [t]).getLastD 0 else 0) = if l = [] then 0 else t := by
  cases l with
  | nil => simp
  | cons b l =>
    rw [getLastD_concat_eq]
    simp

theorem headD_concat (l : List Nat) (t d : Nat) : (l ++ [t]).headD d = l.headD t := by
  cases l <;> rfl

theorem not_mem_of_nodup_concat {l : List Nat} {t : Nat} (h : (l ++ [t]).Nodup) : t ∉ l :=
  fun e => (List.nodup_append.mp h).2.2 e (List.mem_singleton_self t)

theorem Linked_setPrev_first (m : Nat → Option LinkedListNode) (p p' a q : Nat)
    (l : List Nat) (h : Linked m p (a :: l) q) (ha : a ∉ l) :
    Linked (store m a ⟨l.headD q, p'⟩) p' (a :: l) q := by
  obtain ⟨-, hl⟩ := h
  exact ⟨store_self _ _ _, (Linked_store _ _ _ _ _ _ ha).mpr hl⟩

theorem Linked_setNext_last (m : Nat → Option LinkedListNode) (p a q q' : Nat)
    (l : List Nat) (h : Linked m p (l ++ [a]) q) (ha : a ∉ l) :
    Linked (store m a ⟨q', l.getLastD p⟩) p (l ++ [a]) q' := by
  rw [Linked_append] at h ⊢
  obtain ⟨hl, -⟩ := h
  exact ⟨(Linked_store _ _ _ _ _ _ ha).mpr hl, store_self _ _ _, trivial⟩

theorem Linked_last (m : Nat → Option LinkedListNode) (p a q : Nat)
    (l : List Nat) (h : Linked m p (l ++ [a]) q) :
    m a = some ⟨q, l.getLastD p⟩ := by
  rw [Linked_append] at h
  exact h.2.1

theorem getLastD_append_cons (l₁ l₂ : List Nat) (x d : Nat) :
    (l₁ ++ x :: l₂).getLastD d = l₂.getLastD x := by
  induction l₁ generalizing d with
  | nil => cases l₂ <;> rfl
  | cons a l ih => rw [List.cons_append, List.getLastD_cons]; exact ih a

theorem headD_append_cons (l₁ l₂ : List Nat) (x d : Nat) :
    (l₁ ++ x :: l₂).headD d = l₁.headD x := by
  cases l₁ <;> rfl

theorem udec_eq_usub (a : Nat) (h : a < ULONG_MOD) : udec a = usub a 1 := by
  unfold udec usub ULONG_MOD at *
  split <;> omega

theorem getLastD_mem (l : List Nat) (d : Nat) (h : l ≠ []) : l.getLastD d ∈ l := by
  rcases List.eq_nil_or_concat l with rfl | ⟨l₀, t, rfl⟩
  · exact absurd rfl h
  · rw [List.concat_eq_append, getLastD_concat_eq]
    simp

/-- C23: `AddElement` on a well-formed list holding the nodes `ns`, for a node
`x` of the memory that is not `null` and not in the list, the count staying
inside the machine word.  It returns; the list is well-formed and holds the
nodes of `ns` in their order followed by `x`; `count` is one more; no node
other than `x` and the nodes of the list is written. -/
theorem AddElement_appends (s : ListState) (ns : List Nat) (x : Nat) (nx : LinkedListNode)
    (hwf : WellFormed s ns) (hx0 : x ≠ 0) (hx : x ∉ ns) (hnode : s.nodes x = some nx)
    (hword : ns.length + 1 < ULONG_MOD) :
    ∃ s', AddElement x s = .ret s' ∧ WellFormed s' (ns ++ [x]) ∧
      s'.list.count = ns.length + 1 ∧
      ∀ a, a ∉ ns → a ≠ x → s'.nodes a = s.nodes a := by
  obtain ⟨hnd, h0, hcount, hhead, htail, hlinks⟩ := hwf
  have hc : uadd s.list.count 1 = ns.length + 1 := by
    rw [hcount]; exact uadd_one_of_lt hword
  rcases List.eq_nil_or_concat ns with rfl | ⟨l, t, hns⟩
  · simp at hhead htail
    have hrun : AddElement x s = .ret
        { nodes := store (store s.nodes x { nx with prev := 0 }) x ⟨0, 0⟩
          list := { head := x, tail := 0, count := 0 + 1 } } := by
      simp [AddElement, hhead, htail, ListState.setPrev, ListState.setNext, hnode, store_self,
        hc]
    refine ⟨_, hrun, ⟨by simp, by simpa using hx0.symm, rfl, rfl, by simp, ?_⟩, rfl, ?_⟩
    · simp [Linked, store_self]
    · intro a _ hax
      simp [store_ne, hax]
  · rw [List.concat_eq_append] at hns
    subst hns
    have ht0 : t ≠ 0 := fun e => h0 (by simp [e])
    have hxt : x ≠ t := fun e => hx (by simp [e])
    have hxl : x ∉ l := fun e => hx (by simp [e])
    have htl : t ∉ l := not_mem_of_nodup_concat hnd
    rw [Linked_append] at hlinks
    obtain ⟨hl, ht, -⟩ := hlinks
    simp only [List.headD_cons] at hl
    rw [tail_concat] at htail
    rw [headD_concat] at hhead
    have hlast : (if s.list.tail ≠ 0 then s.list.tail else s.list.head) = t := by
      cases l with
      | nil => simp at hhead htail; simp [hhead, htail]
      | cons b l => simp at htail; simp [htail, ht0]
    have hh0 : s.list.head ≠ 0 := by
      rw [hhead]
      cases l with
      | nil => simpa using ht0
      | cons b l => simp; exact fun e => h0 (by simp [e])
    have hrun : AddElement x s = .ret
        { nodes := store (store (store s.nodes x { nx with prev := t }) t
            ⟨x, l.getLastD 0⟩) x ⟨0, t⟩
          list := { head := s.list.head, tail := x, count := (l ++ [t]).length + 1 } } := by
      by_cases htz : s.list.tail = 0
      · rw [htz] at hlast
        simp only [ne_eq, not_true_eq_false, if_false] at hlast
        simp [AddElement, hh0, htz, hlast, ht0, ListState.setPrev, ListState.setNext, hnode,
          store_self, store_ne, hxt, hxt.symm, ht, hc]
      · simp only [ne_eq, htz, not_false_eq_true, if_true] at hlast
        simp [AddElement, hh0, hlast, ht0, ListState.setPrev, ListState.setNext, hnode,
          store_self, store_ne, hxt, hxt.symm, ht, hc]
    refine ⟨_, hrun, ⟨?_, ?_, by simp, ?_, ?_, ?_⟩, rfl, ?_⟩
    · exact List.nodup_append.mpr ⟨hnd, List.nodup_singleton x,
        fun a ha hax => hx ((List.mem_singleton.mp hax) ▸ ha)⟩
    · intro h
      rcases List.mem_append.mp h with h | h
      · exact h0 h
      · exact hx0 (List.mem_singleton.mp h).symm
    · show s.list.head = _
      rw [hhead]
      cases l <;> rfl
    · show x = _
      rw [tail_concat (l ++ [t]) x]
      simp
    · rw [List.append_assoc, Linked_append]
      refine ⟨?_, ?_⟩
      · simp only [List.singleton_append, List.headD_cons]
        rw [Linked_store _ _ _ _ _ _ hxl, Linked_store _ _ _ _ _ _ htl,
          Linked_store _ _ _ _ _ _ hxl]
        exact hl
      · simp [Linked, store_self, store_ne, hxt.symm]
    · intro a ha hax
      have hat : a ≠ t := fun e => ha (by simp [e])
      simp [store_ne, hax, hat]

/-- Witness of C23: the node 30 is added to the list of the nodes 10 and 20. -/
theorem AddElement_appends_witness :
    ∃ s', AddElement 30 twoNodeList = .ret s' ∧ WellFormed s' ([10, 20] ++ [30]) ∧
      s'.list.count = [10, 20].length + 1 ∧
      ∀ a, a ∉ [10, 20] → a ≠ 30 → s'.nodes a = twoNodeList.nodes a :=
  AddElement_appends twoNodeList [10, 20] 30 ⟨0, 0⟩ (by decide) (by decide) (by decide) rfl
    (by decide)

/-- C24: `RemoveElement` of a node `x` of a well-formed list holding the nodes
`ns`.  It returns; the list is well-formed and holds the nodes of `ns` without
`x`, in their order; `count` is one less; no node outside the list is written.
On a list whose `count` is 0 it returns and changes nothing. -/
theorem RemoveElement_removes (s : ListState) (x : Nat) :
    (∀ ns : List Nat, WellFormed s ns → x ∈ ns →
      ∃ s', RemoveElement x s = .ret s' ∧ WellFormed s' (ns.erase x) ∧
        s'.list.count + 1 = ns.length ∧
        ∀ a, a ∉ ns → s'.nodes a = s.nodes a) ∧
    (s.list.count = 0 → RemoveElement x s = .ret s) := by
  refine ⟨?_, fun h => by simp [RemoveElement, h]⟩
  intro ns hwf hxm
  obtain ⟨l₁, l₂, rfl⟩ := List.append_of_mem hxm
  obtain ⟨hnd, h0, hcount, hhead, htail, hlinks⟩ := hwf
  have hnd' := List.nodup_append.mp hnd
  have hx1 : x ∉ l₁ := fun e => hnd'.2.2 e (List.mem_cons_self x l₂)
  have hx2 : x ∉ l₂ := (List.nodup_cons.mp hnd'.2.1).1
  have hnd2 : l₂.Nodup := (List.nodup_cons.mp hnd'.2.1).2
  have hdis : ∀ a ∈ l₁, a ∉ l₂ := fun a ha hb => hnd'.2.2 ha (List.mem_cons_of_mem x hb)
  have hx0 : x ≠ 0 := fun e => h0 (by simp [e])
  have h01 : 0 ∉ l₁ := fun e => h0 (by simp [e])
  have h02 : 0 ∉ l₂ := fun e => h0 (by simp [e])
  rw [List.erase_append_right _ hx1, List.erase_cons_head]
  rw [Linked_append] at hlinks
  obtain ⟨hl1, hx, hl2⟩ := hlinks
  simp only [List.headD_cons] at hl1
  rw [headD_append_cons] at hhead
  rw [getLastD_append_cons] at htail
  have hlen : (l₁ ++ x :: l₂).length = l₁.length + l₂.length + 1 := by
    simp; omega
  rw [hlen] at hcount htail ⊢
  have hc0 : s.list.count ≠ 0 := by omega
  have hc1 : udec s.list.count = l₁.length + l₂.length := by
    rw [udec, if_neg hc0, hcount]; rfl
  have hnd12 : (l₁ ++ l₂).Nodup :=
    List.nodup_append.mpr ⟨hnd'.1, hnd2, fun a ha hb => hdis a ha hb⟩
  have h012 : 0 ∉ l₁ ++ l₂ := fun e => by
    rcases List.mem_append.mp e with e | e
    · exact h01 e
    · exact h02 e
  rcases List.eq_nil_or_concat l₁ with rfl | ⟨l₁', P, h1⟩
  · cases l₂ with
    | nil =>
      simp at hx hhead htail
      have hrun : RemoveElement x s = .ret
          { nodes := s.nodes, list := { head := 0, tail := 0, count := 0 } } := by
        simp [RemoveElement, hc0, ListState.next, ListState.prev, hx, hc1]
      refine ⟨_, hrun, ⟨by simp, by simp, rfl, rfl, rfl, trivial⟩, rfl, fun a _ => rfl⟩
    | cons N l₂' =>
      have hN0 : N ≠ 0 := fun e => h02 (by simp [e])
      have hN2 : N ∉ l₂' := (List.nodup_cons.mp hnd2).1
      have hN := hl2.1
      simp at hx hhead
      cases l₂' with
      | nil =>
        simp at hN htail
        have hrun : RemoveElement x s = .ret
            { nodes := store (store s.nodes N ⟨0, 0⟩) N ⟨0, 0⟩
              list := { head := N, tail := 0, count := 1 } } := by
          simp [RemoveElement, hc0, ListState.next, ListState.prev, ListState.setPrev,
            ListState.setNext, hx, hN, hN0, hc1, store_self]
        refine ⟨_, hrun, ⟨by simp, by simpa using hN0.symm, rfl, rfl, rfl, ?_⟩, rfl, ?_⟩
        · simp [Linked, store_self]
        · intro a ha
          have : a ≠ N := fun e => ha (by simp [e])
          simp [store_ne, this]
      | cons c l₂'' =>
        simp at hN
        have hrun : RemoveElement x s = .ret
            { nodes := store s.nodes N ⟨c, 0⟩
              list := { head := N, tail := s.list.tail, count := (c :: l₂'').length + 1 } } := by
          simp [RemoveElement, hc0, ListState.next, ListState.prev, ListState.setPrev,
            ListState.setNext, hx, hN, hN0, hc1, store_self]
        refine ⟨_, hrun, ⟨hnd2, h02, rfl, rfl, ?_, ?_⟩, by simp, ?_⟩
        · show s.list.tail = _
          rw [htail, if_pos (by simp), if_pos (by simp)]
          rfl
        · exact Linked_setPrev_first s.nodes x 0 N 0 (c :: l₂'') hl2 hN2
        · intro a ha
          have : a ≠ N := fun e => ha (by simp [e])
          simp [store_ne, this]
  · rw [List.concat_eq_append] at h1
    subst h1
    have hP0 : P ≠ 0 := fun e => h01 (by simp [e])
    have hPx : P ≠ x := fun e => hx1 (by simp [e])
    have hP1 : P ∉ l₁' := not_mem_of_nodup_concat hnd'.1
    have hP := Linked_last _ _ _ _ _ hl1
    rw [getLastD_concat_eq] at hx
    rw [headD_concat] at hhead
    have hh : s.list.head = (l₁' ++ [P] ++ l₂).headD 0 := by
      rw [hhead, List.append_assoc]
      show l₁'.headD P = (l₁' ++ P :: l₂).headD 0
      rw [headD_append_cons]
    cases l₂ with
    | nil =>
      simp only [List.headD_nil] at hx
      cases l₁' with
      | nil =>
        simp at hP hhead
        have hrun : RemoveElement x s = .ret
            { nodes := store (store s.nodes P ⟨0, 0⟩) P ⟨0, 0⟩
              list := { head := P, tail := 0, count := 1 } } := by
          simp [RemoveElement, hc0, ListState.next, ListState.prev, ListState.setPrev,
            ListState.setNext, hx, hP, hP0, hc1, store_self, hhead]
        refine ⟨_, hrun, ⟨by simp, by simpa using hP0.symm, rfl, rfl, rfl, ?_⟩, rfl, ?_⟩
        · simp [Linked, store_self]
        · intro a ha
          have : a ≠ P := fun e => ha (by simp [e])
          simp [store_ne, this]
      | cons b l₁'' =>
        have hrun : RemoveElement x s = .ret
            { nodes := store s.nodes P ⟨0, (b :: l₁'').getLastD 0⟩
              list := { head := s.list.head, tail := P,
                        count := (b :: l₁'' ++ [P]).length } } := by
          simp [RemoveElement, hc0, ListState.next, ListState.prev, ListState.setPrev,
            ListState.setNext, hx, hP, hP0, hc1, store_self]
        rw [List.append_nil]
        refine ⟨_, hrun, ⟨hnd'.1, h01, rfl, ?_, ?_, ?_⟩, by simp, ?_⟩
        · simpa using hh
        · show P = _
          rw [tail_concat]
          simp
        · exact Linked_setNext_last s.nodes 0 P x 0 (b :: l₁'') hl1 hP1
        · intro a ha
          have : a ≠ P := fun e => ha (by simp [e])
          simp [store_ne, this]
    | cons N l₂' =>
      have hN0 : N ≠ 0 := fun e => h02 (by simp [e])
      have hN2 : N ∉ l₂' := (List.nodup_cons.mp hnd2).1
      have hNP : N ≠ P := fun e => hdis P (by simp) (by simp [e])
      have hN := hl2.1
      simp only [List.headD_cons] at hx
      have hne1 : udec s.list.count ≠ 1 := by
        rw [hc1]; simp only [List.length_append, List.length_cons, List.length_nil]; omega
      have hne0 : udec s.list.count ≠ 0 := by
        rw [hc1]; simp only [List.length_append, List.length_cons, List.length_nil]; omega
      have hrun : RemoveElement x s = .ret
          { nodes := store (store s.nodes P ⟨N, l₁'.getLastD 0⟩) N ⟨l₂'.headD 0, P⟩
            list := { head := s.list.head, tail := s.list.tail,
                      count := udec s.list.count } } := by
        simp [RemoveElement, hc0, ListState.next, ListState.prev, ListState.setPrev,
          ListState.setNext, hx, hP, hN, hP0, hN0, hNP, hNP.symm, hne1, hne0, store_self,
          store_ne]
      refine ⟨_, hrun, ⟨hnd12, h012, hc1.trans (by simp; omega), hh, ?_, ?_⟩,
        congrArg (fun n => n + 1) hc1, ?_⟩
      · show s.list.tail = _
        rw [htail,
          if_pos (by simp only [List.length_append, List.length_cons, List.length_nil]; omega),
          if_pos (by simp only [List.length_append, List.length_cons, List.length_nil]; omega),
          getLastD_append_cons]
        cases l₂' <;> rfl
      · rw [Linked_append]
        refine ⟨?_, ?_⟩
        · rw [Linked_store _ _ _ _ _ _
            (fun e => hdis N e (List.mem_cons_self N l₂'))]
          exact Linked_setNext_last s.nodes 0 P x N l₁' hl1 hP1
        · rw [getLastD_concat_eq]
          refine Linked_setPrev_first _ x P N 0 l₂' ?_ hN2
          rw [Linked_store _ _ _ _ _ _ (fun e => hdis P (by simp) e)]
          exact hl2
      · intro a ha
        have h1 : a ≠ P := fun e => ha (by simp [e])
        have h2 : a ≠ N := fun e => ha (by simp [e])
        simp [store_ne, h1, h2]

/-- Witness of C24: the head 10 is removed from the list of the nodes 10 and
20. -/
theorem RemoveElement_removes_witness :
    ∃ s', RemoveElement 10 twoNodeList = .ret s' ∧ WellFormed s' ([10, 20].erase 10) ∧
      s'.list.count + 1 = [10, 20].length ∧
      ∀ a, a ∉ [10, 20] → s'.nodes a = twoNodeList.nodes a :=
  (RemoveElement_removes twoNodeList 10).1 [10, 20] (by decide) (by decide)

/-- C25: `InsertElementAfter` on a well-formed list holding the nodes of `l₁`,
then `old`, then the nodes of `l₂`, for a node `x` of the memory that is not
`null` and not in the list, the count staying inside the machine word.  It
returns; the list is well-formed and holds the nodes of `l₁`, then `old`, then
`x`, then the nodes of `l₂`; `count` is one more; `x` is the tail when `old`
was the last node; no node other than `x` and the nodes of the list is
written. -/
theorem InsertElementAfter_inserts (s : ListState) (l₁ l₂ : List Nat) (old x : Nat)
    (nx : LinkedListNode)
    (hwf : WellFormed s (l₁ ++ old :: l₂)) (hx0 : x ≠ 0) (hxn : x ∉ l₁ ++ old :: l₂)
    (hnode : s.nodes x = some nx) (hword : (l₁ ++ old :: l₂).length + 1 < ULONG_MOD) :
    ∃ s', InsertElementAfter old x s = .ret s' ∧ WellFormed s' (l₁ ++ old :: x :: l₂) ∧
      s'.list.count = (l₁ ++ old :: l₂).length + 1 ∧
      (l₂ = [] → s'.list.tail = x) ∧
      ∀ a, a ∉ l₁ ++ old :: l₂ → a ≠ x → s'.nodes a = s.nodes a := by
  obtain ⟨hnd, h0, hcount, hhead, htail, hlinks⟩ := hwf
  have hc : uadd s.list.count 1 = (l₁ ++ old :: l₂).length + 1 := by
    rw [hcount]; exact uadd_one_of_lt hword
  have hnd' := List.nodup_append.mp hnd
  have ho1 : old ∉ l₁ := fun e => hnd'.2.2 e (List.mem_cons_self old l₂)
  have ho2 : old ∉ l₂ := (List.nodup_cons.mp hnd'.2.1).1
  have hnd2 : l₂.Nodup := (List.nodup_cons.mp hnd'.2.1).2
  have hdis : ∀ a ∈ l₁, a ∉ l₂ := fun a ha hb => hnd'.2.2 ha (List.mem_cons_of_mem old hb)
  have hx1 : x ∉ l₁ := fun e => hxn (by simp [e])
  have hx2 : x ∉ l₂ := fun e => hxn (by simp [e])
  have hxo : x ≠ old := fun e => hxn (by simp [e])
  have ho0 : old ≠ 0 := fun e => h0 (by simp [e])
  have h01 : 0 ∉ l₁ := fun e => h0 (by simp [e])
  have h02 : 0 ∉ l₂ := fun e => h0 (by simp [e])
  rw [Linked_append] at hlinks
  obtain ⟨hl1, ho, hl2⟩ := hlinks
  simp only [List.headD_cons] at hl1
  rw [headD_append_cons] at hhead
  rw [getLastD_append_cons] at htail
  have hnd3 : (l₁ ++ old :: x :: l₂).Nodup :=
    List.nodup_append.mpr ⟨hnd'.1,
      List.nodup_cons.mpr ⟨by simpa using ⟨hxo.symm, ho2⟩, List.nodup_cons.mpr ⟨hx2, hnd2⟩⟩,
      fun a ha hb => by
        rcases List.mem_cons.mp hb with e | hb
        · exact ho1 (e ▸ ha)
        · rcases List.mem_cons.mp hb with e | hb
          · exact hx1 (e ▸ ha)
          · exact hdis a ha hb⟩
  have h03 : 0 ∉ l₁ ++ old :: x :: l₂ := fun e => by
    rcases List.mem_append.mp e with e | e
    · exact h01 e
    · rcases List.mem_cons.mp e with e | e
      · exact ho0 e.symm
      · rcases List.mem_cons.mp e with e | e
        · exact hx0 e.symm
        · exact h02 e
  have hlen : (l₁ ++ old :: x :: l₂).length = (l₁ ++ old :: l₂).length + 1 := by
    simp only [List.length_append, List.length_cons]
    omega
  cases l₂ with
  | nil =>
    simp only [List.headD_nil] at ho
    have hrun : InsertElementAfter old x s = .ret
        { nodes := store (store (store s.nodes x { nx with next := 0 }) x ⟨0, old⟩) old
            ⟨x, l₁.getLastD 0⟩
          list := { head := s.list.head, tail := x, count := (l₁ ++ [old]).length + 1 } } := by
      simp [InsertElementAfter, ListState.next, ListState.prev, ListState.setPrev,
        ListState.setNext, ho, hnode, hxo, hxo.symm, hc, store_self, store_ne]
    refine ⟨_, hrun, ⟨hnd3, h03, hlen.symm, ?_, ?_, ?_⟩, rfl, fun _ => rfl, ?_⟩
    · show s.list.head = _
      rw [hhead, headD_append_cons]
    · show x = _
      rw [if_pos (by simp only [List.length_append, List.length_cons, List.length_nil]; omega),
        getLastD_append_cons]
      rfl
    · rw [Linked_append]
      refine ⟨?_, ?_⟩
      · simp only [List.headD_cons]
        rw [Linked_store _ _ _ _ _ _ ho1, Linked_store _ _ _ _ _ _ hx1,
          Linked_store _ _ _ _ _ _ hx1]
        exact hl1
      · simp [Linked, store_self, store_ne, hxo]
    · intro a ha hax
      have hao : a ≠ old := fun e => ha (by simp [e])
      simp [store_ne, hax, hao]
  | cons N l₂' =>
    have hN0 : N ≠ 0 := fun e => h02 (by simp [e])
    have hN2 : N ∉ l₂' := (List.nodup_cons.mp hnd2).1
    have hNo : N ≠ old := fun e => ho2 (by simp [e])
    have hNx : N ≠ x := fun e => hx2 (by simp [e])
    have hN := hl2.1
    simp only [List.headD_cons] at ho
    have hrun : InsertElementAfter old x s = .ret
        { nodes := store (store (store (store s.nodes x { nx with next := N }) x ⟨N, old⟩) old
            ⟨x, l₁.getLastD 0⟩) N ⟨l₂'.headD 0, x⟩
          list := { head := s.list.head, tail := s.list.tail,
                    count := (l₁ ++ old :: N :: l₂').length + 1 } } := by
      simp [InsertElementAfter, ListState.next, ListState.prev, ListState.setPrev,
        ListState.setNext, ho, hN, hnode, hxo, hxo.symm, hNo, hNx, hN0, hc, store_self,
        store_ne]
    refine ⟨_, hrun, ⟨hnd3, h03, hlen.symm, ?_, ?_, ?_⟩, rfl,
      fun e => absurd e (List.cons_ne_nil _ _), ?_⟩
    · show s.list.head = _
      rw [hhead, headD_append_cons]
    · show s.list.tail = _
      rw [htail,
        if_pos (by simp only [List.length_append, List.length_cons, List.length_nil]; omega),
        if_pos (by simp only [List.length_append, List.length_cons, List.length_nil]; omega),
        getLastD_append_cons]
      cases l₂' <;> rfl
    · rw [Linked_append]
      refine ⟨?_, ?_, ?_, ?_⟩
      · simp only [List.headD_cons]
        rw [Linked_store _ _ _ _ _ _ (fun e => hdis N e (List.mem_cons_self N l₂')),
          Linked_store _ _ _ _ _ _ ho1, Linked_store _ _ _ _ _ _ hx1,
          Linked_store _ _ _ _ _ _ hx1]
        exact hl1
      · simp [store_self, store_ne, hNo.symm]
      · simp [store_self, store_ne, hNo.symm, hNx.symm, hxo]
      · refine Linked_setPrev_first _ old x N 0 l₂' ?_ hN2
        rw [Linked_store _ _ _ _ _ _ ho2, Linked_store _ _ _ _ _ _ hx2,
          Linked_store _ _ _ _ _ _ hx2]
        exact hl2
    · intro a ha hax
      have hao : a ≠ old := fun e => ha (by simp [e])
      have haN : a ≠ N := fun e => ha (by simp [e])
      simp [store_ne, hax, hao, haN]

/-- Witness of C25: the node 30 is inserted after the head 10 of the list of
the nodes 10 and 20. -/
theorem InsertElementAfter_inserts_witness :
    ∃ s', InsertElementAfter 10 30 twoNodeList = .ret s' ∧
      WellFormed s' ([] ++ 10 :: 30 :: [20]) ∧
      s'.list.count = ([] ++ 10 :: [20]).length + 1 ∧
      ([20] = [] → s'.list.tail = 30) ∧
      ∀ a, a ∉ [] ++ 10 :: [20] → a ≠ 30 → s'.nodes a = twoNodeList.nodes a :=
  InsertElementAfter_inserts twoNodeList [] [20] 10 30 ⟨0, 0⟩ (by decide) (by decide)
    (by decide) rfl (by decide)

/-- `InsertElementBefore` on a well-formed list of at least two nodes. -/
theorem InsertElementBefore_inserts (s : ListState) (l₁ l₂ : List Nat) (old x : Nat)
    (nx : LinkedListNode)
    (hwf : WellFormed s (l₁ ++ old :: l₂)) (htwo : 2 ≤ (l₁ ++ old :: l₂).length)
    (hx0 : x ≠ 0) (hxn : x ∉ l₁ ++ old :: l₂)
    (hnode : s.nodes x = some nx) (hword : (l₁ ++ old :: l₂).length + 1 < ULONG_MOD) :
    ∃ s', InsertElementBefore old x s = .ret s' ∧ WellFormed s' (l₁ ++ x :: old :: l₂) ∧
      s'.list.count = (l₁ ++ old :: l₂).length + 1 := by
  obtain ⟨hnd, h0, hcount, hhead, htail, hlinks⟩ := hwf
  have hc : uadd s.list.count 1 = (l₁ ++ old :: l₂).length + 1 := by
    rw [hcount]; exact uadd_one_of_lt hword
  have hnd' := List.nodup_append.mp hnd
  have ho1 : old ∉ l₁ := fun e => hnd'.2.2 e (List.mem_cons_self old l₂)
  have ho2 : old ∉ l₂ := (List.nodup_cons.mp hnd'.2.1).1
  have hnd2 : l₂.Nodup := (List.nodup_cons.mp hnd'.2.1).2
  have hdis : ∀ a ∈ l₁, a ∉ l₂ := fun a ha hb => hnd'.2.2 ha (List.mem_cons_of_mem old hb)
  have hx1 : x ∉ l₁ := fun e => hxn (by simp [e])
  have hx2 : x ∉ l₂ := fun e => hxn (by simp [e])
  have hxo : x ≠ old := fun e => hxn (by simp [e])
  have ho0 : old ≠ 0 := fun e => h0 (by simp [e])
  have h01 : 0 ∉ l₁ := fun e => h0 (by simp [e])
  have h02 : 0 ∉ l₂ := fun e => h0 (by simp [e])
  rw [Linked_append] at hlinks
  obtain ⟨hl1, ho, hl2⟩ := hlinks
  simp only [List.headD_cons] at hl1
  rw [headD_append_cons] at hhead
  rw [getLastD_append_cons, if_pos htwo] at htail
  have hnd3 : (l₁ ++ x :: old :: l₂).Nodup :=
    List.nodup_append.mpr ⟨hnd'.1,
      List.nodup_cons.mpr ⟨by simpa using ⟨hxo, hx2⟩, hnd'.2.1⟩,
      fun a ha hb => by
        rcases List.mem_cons.mp hb with e | hb
        · exact hx1 (e ▸ ha)
        · exact hnd'.2.2 ha hb⟩
  have h03 : 0 ∉ l₁ ++ x :: old :: l₂ := fun e => by
    rcases List.mem_append.mp e with e | e
    · exact h01 e
    · rcases List.mem_cons.mp e with e | e
      · exact hx0 e.symm
      · rcases List.mem_cons.mp e with e | e
        · exact ho0 e.symm
        · exact h02 e
  have hlen : (l₁ ++ x :: old :: l₂).length = (l₁ ++ old :: l₂).length + 1 := by
    simp only [List.length_append, List.length_cons]
    omega
  have htail3 : s.list.tail
      = if 2 ≤ (l₁ ++ x :: old :: l₂).length then (l₁ ++ x :: old :: l₂).getLastD 0 else 0 := by
    rw [htail, if_pos (by omega), getLastD_append_cons]
    cases l₂ <;> rfl
  rcases List.eq_nil_or_concat l₁ with rfl | ⟨l₁', P, h1⟩
  · simp only [List.getLastD_nil] at ho
    have hrun : InsertElementBefore old x s = .ret
        { nodes := store (store (store s.nodes x { nx with prev := 0 }) old
            ⟨l₂.headD 0, x⟩) x ⟨old, 0⟩
          list := { head := x, tail := s.list.tail,
                    count := ([] ++ old :: l₂).length + 1 } } := by
      simp [InsertElementBefore, ListState.prev, ListState.setPrev, ListState.setNext, ho,
        hnode, hxo, hxo.symm, hc, store_self, store_ne]
    refine ⟨_, hrun, ⟨hnd3, h03, hlen.symm, rfl, htail3, ?_, ?_, ?_⟩, rfl⟩
    · simp [store_self]
    · simp [store_self, store_ne, hxo.symm]
    · rw [Linked_store _ _ _ _ _ _ hx2, Linked_store _ _ _ _ _ _ ho2,
        Linked_store _ _ _ _ _ _ hx2]
      exact hl2
  · rw [List.concat_eq_append] at h1
    subst h1
    have hP0 : P ≠ 0 := fun e => h01 (by simp [e])
    have hPo : P ≠ old := fun e => ho1 (by simp [e])
    have hPx : P ≠ x := fun e => hx1 (by simp [e])
    have hP1 : P ∉ l₁' := not_mem_of_nodup_concat hnd'.1
    have hP2 : P ∉ l₂ := hdis P (by simp)
    have hP := Linked_last _ _ _ _ _ hl1
    rw [getLastD_concat_eq] at ho
    have hrun : InsertElementBefore old x s = .ret
        { nodes := store (store (store (store s.nodes P ⟨x, l₁'.getLastD 0⟩) x
            { nx with prev := P }) old ⟨l₂.headD 0, x⟩) x ⟨old, P⟩
          list := { head := s.list.head, tail := s.list.tail,
                    count := (l₁' ++ [P] ++ old :: l₂).length + 1 } } := by
      simp [InsertElementBefore, ListState.prev, ListState.setPrev, ListState.setNext, ho, hP,
        hP0, hnode, hxo, hxo.symm, hPo, hPo.symm, hPx, hPx.symm, hc, store_self, store_ne]
    refine ⟨_, hrun, ⟨hnd3, h03, hlen.symm, ?_, htail3, ?_⟩, rfl⟩
    · show s.list.head = _
      rw [hhead, headD_append_cons (l₁' ++ [P]), headD_concat, headD_concat]
    · rw [Linked_append]
      refine ⟨?_, ?_, ?_, ?_⟩
      · simp only [List.headD_cons]
        rw [Linked_store _ _ _ _ _ _ hx1, Linked_store _ _ _ _ _ _ ho1,
          Linked_store _ _ _ _ _ _ hx1]
        exact Linked_setNext_last s.nodes 0 P old x l₁' hl1 hP1
      · rw [getLastD_concat_eq]
        simp [store_self]
      · simp [store_self, store_ne, hxo.symm]
      · rw [Linked_store _ _ _ _ _ _ hx2, Linked_store _ _ _ _ _ _ ho2,
          Linked_store _ _ _ _ _ _ hx2, Linked_store _ _ _ _ _ _ hP2]
        exact hl2

/-- `InsertElementBefore` on a well-formed list of one node: the new node is
the head, and `tail` is left `null`, so the list is not well-formed. -/
theorem InsertElementBefore_single (s : ListState) (old x : Nat) (nx : LinkedListNode)
    (hwf : WellFormed s [old]) (hxo : x ≠ old) (hnode : s.nodes x = some nx) :
    ∃ s', InsertElementBefore old x s = .ret s' ∧ s'.list.head = x ∧ s'.list.tail = 0 ∧
      s'.list.count = 2 ∧ ¬ WellFormed s' [x, old] := by
  obtain ⟨hnd, h0, hcount, hhead, htail, hlinks⟩ := hwf
  have ho := hlinks.1
  simp at htail hcount ho
  have ho0 : old ≠ 0 := fun e => h0 (by simp [e])
  have hrun : InsertElementBefore old x s = .ret
      { nodes := store (store (store s.nodes x { nx with prev := 0 }) old ⟨0, x⟩) x ⟨old, 0⟩
        list := { head := x, tail := 0, count := 2 } } := by
    simp [InsertElementBefore, ListState.prev, ListState.setPrev, ListState.setNext, ho,
      hnode, hxo, hxo.symm, hcount, htail, store_self, store_ne, uadd, ULONG_MOD]
  refine ⟨_, hrun, rfl, rfl, rfl, ?_⟩
  rintro ⟨-, -, -, -, ht, -⟩
  simp at ht
  exact ho0 ht.symm

/-- C26: the well-formed list of the one node 10.  `InsertElementBefore` puts
the node 20 before 10: `head` is 20 and `count` is 2, but `tail` is still
`null` and not 10, so the list is not well-formed.  `AddElement` of the node 30
then takes the head for the last node: `head` is 20, the `next` of 20 is 30,
`tail` is 30 and `count` is 3, and no node has 10 as its `next`: the node 10 is
lost. -/
theorem InsertElementBefore_loses_node :
    WellFormed oneNodeList [10] ∧
    ∃ s₁ s₂, InsertElementBefore 10 20 oneNodeList = .ret s₁ ∧
      s₁.list = { head := 20, tail := 0, count := 2 } ∧
      ¬ WellFormed s₁ [20, 10] ∧
      AddElement 30 s₁ = .ret s₂ ∧
      s₂.list = { head := 20, tail := 30, count := 3 } ∧
      s₂.nodes 20 = some ⟨30, 0⟩ ∧ s₂.nodes 30 = some ⟨0, 20⟩ ∧
      s₂.nodes 10 = some ⟨0, 20⟩ ∧
      ¬ WellFormed s₂ [20, 10, 30] := by
  have h : (InsertElementBefore 10 20 oneNodeList).Returns (fun s₁ =>
      s₁.list = { head := 20, tail := 0, count := 2 } ∧
      ¬ WellFormed s₁ [20, 10] ∧
      (AddElement 30 s₁).Returns (fun s₂ =>
        s₂.list = { head := 20, tail := 30, count := 3 } ∧
        s₂.nodes 20 = some ⟨30, 0⟩ ∧ s₂.nodes 30 = some ⟨0, 20⟩ ∧
        s₂.nodes 10 = some ⟨0, 20⟩ ∧
        ¬ WellFormed s₂ [20, 10, 30])) := by
    decide
  obtain ⟨s₁, h1, hl1, hw1, h⟩ := Run.exists_of_returns h
  obtain ⟨s₂, h2, hrest⟩ := Run.exists_of_returns h
  exact ⟨by decide, s₁, s₂, h1, hl1, hw1, h2, hrest⟩

/-- `PushHead` on a well-formed list that does not hold exactly one node. -/
theorem PushHead_pushes (s : ListState) (ns : List Nat) (x : Nat) (nx : LinkedListNode)
    (hwf : WellFormed s ns) (hk : ns.length ≠ 1) (hx0 : x ≠ 0) (hxn : x ∉ ns)
    (hnode : s.nodes x = some nx) (hword : ns.length + 1 < ULONG_MOD) :
    ∃ s', PushHead x s = .ret s' ∧ WellFormed s' (x :: ns) ∧
      s'.list.count = ns.length + 1 := by
  obtain ⟨hnd, h0, hcount, hhead, htail, hlinks⟩ := hwf
  have hc : uadd s.list.count 1 = ns.length + 1 := by
    rw [hcount]; exact uadd_one_of_lt hword
  have hnd3 : (x :: ns).Nodup := List.nodup_cons.mpr ⟨hxn, hnd⟩
  have h03 : 0 ∉ x :: ns := fun e => by
    rcases List.mem_cons.mp e with e | e
    · exact hx0 e.symm
    · exact h0 e
  cases ns with
  | nil =>
    simp at hhead htail
    have hrun : PushHead x s = .ret
        { nodes := store (store s.nodes x { nx with next := 0 }) x ⟨0, 0⟩
          list := { head := x, tail := 0, count := 0 + 1 } } := by
      simp [PushHead, hhead, htail, ListState.setPrev, ListState.setNext, hnode, hc,
        store_self]
    refine ⟨_, hrun, ⟨hnd3, h03, rfl, rfl, rfl, ?_⟩, rfl⟩
    simp [Linked, store_self]
  | cons h rest =>
    cases rest with
    | nil => exact absurd rfl hk
    | cons b rest =>
      have hh0 : h ≠ 0 := fun e => h0 (by simp [e])
      have hxh : x ≠ h := fun e => hxn (by simp [e])
      have hh := hlinks.1
      have hrest := hlinks.2
      simp only [List.headD_cons] at hhead hh
      have ht0 : s.list.tail ≠ 0 := by
        rw [htail, if_pos (by simp)]
        have hmem : (h :: b :: rest).getLastD 0 ∈ h :: b :: rest :=
          getLastD_mem _ _ (List.cons_ne_nil _ _)
        exact fun e => h0 (e ▸ hmem)
      have hrun : PushHead x s = .ret
          { nodes := store (store (store s.nodes x { nx with next := h }) h ⟨b, x⟩) x ⟨h, 0⟩
            list := { head := x, tail := s.list.tail,
                      count := (h :: b :: rest).length + 1 } } := by
        simp [PushHead, hhead, hh0, ht0, ListState.setPrev, ListState.setNext, hnode, hh, hc,
          hxh, hxh.symm, store_self, store_ne]
      refine ⟨_, hrun, ⟨hnd3, h03, rfl, rfl, ?_, ?_, ?_, ?_⟩, rfl⟩
      · show s.list.tail = _
        rw [htail, if_pos (by simp), if_pos (by simp)]
        rfl
      · simp [store_self]
      · simp [store_self, store_ne, hxh.symm]
      · have hx2 : x ∉ b :: rest := fun e => hxn (List.mem_cons_of_mem h e)
        have hh2 : h ∉ b :: rest := (List.nodup_cons.mp hnd).1
        rw [Linked_store _ _ _ _ _ _ hx2, Linked_store _ _ _ _ _ _ hh2,
          Linked_store _ _ _ _ _ _ hx2]
        exact hrest

/-- `PushHead` on a well-formed list of one node: `tail` becomes the new head,
not the node that is last, so the list is not well-formed. -/
theorem PushHead_single (s : ListState) (h x : Nat) (nx : LinkedListNode)
    (hwf : WellFormed s [h]) (hxh : x ≠ h) (hnode : s.nodes x = some nx) :
    ∃ s', PushHead x s = .ret s' ∧ s'.list.head = x ∧ s'.list.tail = x ∧
      s'.list.count = 2 ∧ s'.nodes x = some ⟨h, 0⟩ ∧ ¬ WellFormed s' [x, h] := by
  obtain ⟨hnd, h0, hcount, hhead, htail, hlinks⟩ := hwf
  have hh := hlinks.1
  simp at htail hcount hh hhead
  have hh0 : h ≠ 0 := fun e => h0 (by simp [e])
  have hrun : PushHead x s = .ret
      { nodes := store (store (store s.nodes x { nx with next := h }) h ⟨0, x⟩) x ⟨h, 0⟩
        list := { head := x, tail := x, count := 2 } } := by
    simp [PushHead, hhead, hh0, htail, ListState.setPrev, ListState.setNext, hnode, hh, hcount,
      hxh, hxh.symm, store_self, store_ne, uadd, ULONG_MOD]
  refine ⟨_, hrun, rfl, rfl, rfl, store_self _ _ _, ?_⟩
  rintro ⟨-, -, -, -, ht, -⟩
  simp at ht
  exact hxh ht

/-- C27: the well-formed list of the one node 10.  `PushHead` of the node 20
makes 20 the head, with 10 as its `next`, and sets `tail` to 20, the new head:
`tail` is not the last node 10, and the list is not well-formed. -/
theorem PushHead_sets_tail_to_head :
    WellFormed oneNodeList [10] ∧
    ∃ s₁, PushHead 20 oneNodeList = .ret s₁ ∧
      s₁.list = { head := 20, tail := 20, count := 2 } ∧
      s₁.nodes 20 = some ⟨10, 0⟩ ∧ s₁.nodes 10 = some ⟨0, 20⟩ ∧
      s₁.list.tail ≠ 10 ∧
      ¬ WellFormed s₁ [20, 10] := by
  have h : (PushHead 20 oneNodeList).Returns (fun s₁ =>
      s₁.list = { head := 20, tail := 20, count := 2 } ∧
      s₁.nodes 20 = some ⟨10, 0⟩ ∧ s₁.nodes 10 = some ⟨0, 20⟩ ∧
      s₁.list.tail ≠ 10 ∧
      ¬ WellFormed s₁ [20, 10]) := by
    decide
  obtain ⟨s₁, h1, hrest⟩ := Run.exists_of_returns h
  exact ⟨by decide, s₁, h1, hrest⟩

/-- C28: `PullTail` on a well-formed list holding the nodes of `l` followed by
`t`.  It returns `t`; the list is well-formed and holds the nodes of `l` in
their order; `count` is one less; no node outside `l` is written. -/
theorem PullTail_returns_last (s : ListState) (l : List Nat) (t : Nat)
    (hwf : WellFormed s (l ++ [t])) :
    ∃ s', PullTail s = .ret (t, s') ∧ WellFormed s' l ∧
      s'.list.count = (l ++ [t]).length - 1 ∧
      ∀ a, a ∉ l → s'.nodes a = s.nodes a := by
  obtain ⟨hnd, h0, hcount, hhead, htail, hlinks⟩ := hwf
  have ht0 : t ≠ 0 := fun e => h0 (by simp [e])
  have htl : t ∉ l := not_mem_of_nodup_concat hnd
  have hndl : l.Nodup := (List.nodup_append.mp hnd).1
  have h0l : 0 ∉ l := fun e => h0 (by simp [e])
  have hc0 : s.list.count ≠ 0 := by rw [hcount]; simp
  have hc1 : udec s.list.count = l.length := by
    rw [udec, if_neg hc0, hcount]; simp
  have ht := Linked_last _ _ _ _ _ hlinks
  rw [tail_concat] at htail
  rw [headD_concat] at hhead
  rw [Linked_append] at hlinks
  obtain ⟨hl, -⟩ := hlinks
  simp only [List.headD_cons] at hl
  rcases List.eq_nil_or_concat l with rfl | ⟨l₀, p, h1⟩
  · simp at hhead htail
    have hrun : PullTail s = .ret (t,
        { nodes := s.nodes, list := { head := 0, tail := 0, count := 0 } }) := by
      simp [PullTail, hhead, htail, hc1]
    exact ⟨_, hrun, ⟨by simp, by simp, rfl, rfl, rfl, trivial⟩, rfl, fun a _ => rfl⟩
  · rw [List.concat_eq_append] at h1
    subst h1
    have hp0 : p ≠ 0 := fun e => h0l (by simp [e])
    have hpt : p ≠ t := fun e => htl (by simp [e])
    have hp1 : p ∉ l₀ := not_mem_of_nodup_concat hndl
    have hp := Linked_last _ _ _ _ _ hl
    rw [getLastD_concat_eq] at ht
    have htail' : s.list.tail = t := by
      rw [htail, if_neg (by simp)]
    cases l₀ with
    | nil =>
      simp at hhead hp
      have hrun : PullTail s = .ret (t,
          { nodes := store s.nodes p ⟨0, 0⟩, list := { head := p, tail := 0, count := 1 } }) := by
        simp [PullTail, hhead, htail', ht0, ListState.next, ListState.prev, ListState.setNext,
          hp, ht, hc1]
      refine ⟨_, hrun, ⟨by simp, by simpa using hp0.symm, rfl, rfl, rfl, ?_⟩, rfl, ?_⟩
      · simp [Linked, store_self]
      · intro a ha
        have : a ≠ p := fun e => ha (by simp [e])
        simp [store_ne, this]
    | cons a l₀' =>
      have hha : s.nodes a = some ⟨(l₀' ++ [p]).headD t, 0⟩ := hl.1
      have hnext : (l₀' ++ [p]).headD t ≠ t := by
        rw [headD_concat]
        intro e
        cases l₀' with
        | nil => exact hpt e
        | cons b l => exact htl (by simp at e; simp [e])
      simp only [List.cons_append, List.headD_cons] at hhead
      generalize (l₀' ++ [p]).headD t = n₂ at hha hnext
      have hrun : PullTail s = .ret (t,
          { nodes := store s.nodes p ⟨0, (a :: l₀').getLastD 0⟩
            list := { head := a, tail := p, count := udec s.list.count } }) := by
        simp [PullTail, hhead, htail', ht0, hp0, ListState.next, ListState.prev,
          ListState.setNext, hp, ht, hha, hnext]
      refine ⟨_, hrun, ⟨hndl, h0l, hc1, rfl, ?_, ?_⟩, ?_, ?_⟩
      · show p = _
        rw [tail_concat]
        simp
      · exact Linked_setNext_last s.nodes 0 p t 0 (a :: l₀') hl hp1
      · show udec s.list.count = _
        rw [hc1]
        simp
      · intro b hb
        have : b ≠ p := fun e => hb (by simp [e])
        simp [store_ne, this]

/-- Witness of C28: the tail 20 is pulled from the list of the nodes 10 and
20. -/
theorem PullTail_returns_last_witness :
    ∃ s', PullTail twoNodeList = .ret (20, s') ∧ WellFormed s' [10] ∧
      s'.list.count = ([10] ++ [20]).length - 1 ∧
      ∀ a, a ∉ [10] → s'.nodes a = twoNodeList.nodes a :=
  PullTail_returns_last twoNodeList [10] 20 (by decide)

/-- C29: from the empty list, `PushHead` of the node 10 and then of the node
20.  The first `PullTail` returns 20, the node pushed last, not 10; the second
returns 20 again and leaves the list empty with `count = 0`: the node 10 is
never returned. -/
theorem PushHead_PullTail_not_fifo :
    WellFormed emptyList [] ∧
    ∃ s₁ s₂ s₃ s₄, PushHead 10 emptyList = .ret s₁ ∧ PushHead 20 s₁ = .ret s₂ ∧
      PullTail s₂ = .ret (20, s₃) ∧ PullTail s₃ = .ret (20, s₄) ∧
      s₄.list = { head := 0, tail := 0, count := 0 } := by
  have h : (PushHead 10 emptyList).Returns (fun s₁ =>
      (PushHead 20 s₁).Returns (fun s₂ =>
        (PullTail s₂).Returns (fun x =>
          x.1 = 20 ∧
          (PullTail x.2).Returns (fun y =>
            y.1 = 20 ∧ y.2.list = { head := 0, tail := 0, count := 0 })))) := by
    decide
  obtain ⟨s₁, h1, h⟩ := Run.exists_of_returns h
  obtain ⟨s₂, h2, h⟩ := Run.exists_of_returns h
  obtain ⟨⟨r₃, s₃⟩, h3, hr3, h⟩ := Run.exists_of_returns h
  obtain ⟨⟨r₄, s₄⟩, h4, hr4, hl⟩ := Run.exists_of_returns h
  simp only at hr3 hr4 h3 h4 hl
  subst hr3 hr4
  exact ⟨by decide, s₁, s₂, s₃, s₄, h1, h2, h3, h4, hl⟩

/-! ## The slab of a buffer -/

/-- The buffers `ObCreateSlab` pushes for a size from 1 to the room below the
header lie in the page, end below the header, and are a buffer size apart. -/
theorem slabBuffers_inside (D : SlabDecls) (P bs b : Nat)
    (hb : b ∈ slabBuffers P bs (ObCreateSlab.turns D bs)) :
    P ≤ b ∧ b + bs < P + (D.KPGSIZE - D.sizeofSlab) ∧
      ∀ c ∈ slabBuffers P bs (ObCreateSlab.turns D bs), c ≠ b → b + bs ≤ c ∨ c + bs ≤ b := by
  obtain ⟨i, hi, rfl⟩ := (mem_slabBuffers P bs _ _).mp hb
  unfold ObCreateSlab.turns at hi hb ⊢
  have hle : (i + 1) * bs ≤ (D.KPGSIZE - D.sizeofSlab - 1) / bs * bs :=
    Nat.mul_le_mul_right bs hi
  have hdiv : (D.KPGSIZE - D.sizeofSlab - 1) / bs * bs ≤ D.KPGSIZE - D.sizeofSlab - 1 :=
    Nat.div_mul_le_self _ _
  have hpos : 0 < D.KPGSIZE - D.sizeofSlab := by
    rcases Nat.eq_zero_or_pos (D.KPGSIZE - D.sizeofSlab) with h0 | h0
    · rw [h0] at hi
      simp at hi
    · exact h0
  rw [Nat.add_mul, Nat.one_mul] at hle
  refine ⟨Nat.le_add_right _ _, by omega, ?_⟩
  intro c hc hne
  obtain ⟨j, -, rfl⟩ := (mem_slabBuffers P bs _ _).mp hc
  rcases Nat.lt_trichotomy i j with hij | hij | hij
  · left
    have : (i + 1) * bs ≤ j * bs := Nat.mul_le_mul_right bs hij
    rw [Nat.add_mul, Nat.one_mul] at this
    omega
  · exact absurd (by rw [hij]) hne
  · right
    have : (j + 1) * bs ≤ i * bs := Nat.mul_le_mul_right bs hij
    rw [Nat.add_mul, Nat.one_mul] at this
    omega

set_option maxRecDepth 100000 in
set_option synthInstance.maxSize 1024 in
/-- C32: a type of 2000 bytes, so `rawSize > KPGSIZE / 8`.  `ObCreateSlab`
builds a slab on the page at 3145728, with the header at 3149792.
`ObDestroySlab` on that slab passes the page address 0 to `GetFrames`, whose
frame goes to `KeFrameFree`, to `EnsureFaulty` and to `KiPagesFree`: the page
released is not the page the slab was constructed on, which is never
released. -/
theorem ObDestroySlab_large_type_page_zero :
    ∃ st₀ st₁ st₂, typeCreated 2000 4 = .ret (2101088, st₀) ∧
      (st₀.types 2101088).map (fun i => i.rawSize) = some 2000 ∧
      ObCreateSlab ia32Decls st₀ 2101088 0 3145728 64 = .ret (3149792, st₁) ∧
      ObDestroySlab ia32Decls st₁ 3149792 2101088 = .ret st₂ ∧
      st₂.obLog = st₁.obLog ++ [.GetFrames 0 1,
        .KeFrameFree (ia32Decls.FRADDRESS (ia32Decls.GetFrames 0 1)), .EnsureFaulty 0,
        .KiPagesFree 0] ∧
      pagesFreed st₂.obLog = [0] ∧ 3145728 ∉ pagesFreed st₂.obLog ∧
      ObEvent.GetFrames 3145728 1 ∉ st₂.obLog := by
  have h : (typeCreated 2000 4).Returns (fun x =>
      x.1 = 2101088 ∧
      (x.2.types 2101088).map (fun i => i.rawSize) = some 2000 ∧
      (ObCreateSlab ia32Decls x.2 2101088 0 3145728 64).Returns (fun y =>
        y.1 = 3149792 ∧
        (ObDestroySlab ia32Decls y.2 3149792 2101088).Returns (fun z =>
          z.obLog = y.2.obLog ++ [.GetFrames 0 1,
            .KeFrameFree (ia32Decls.FRADDRESS (ia32Decls.GetFrames 0 1)), .EnsureFaulty 0,
            .KiPagesFree 0] ∧
          pagesFreed z.obLog = [0] ∧ 3145728 ∉ pagesFreed z.obLog ∧
          ObEvent.GetFrames 3145728 1 ∉ z.obLog))) := by
    decide
  obtain ⟨⟨r, st₀⟩, h0, hr, hraw, h⟩ := Run.exists_of_returns h
  obtain ⟨⟨S, st₁⟩, h1, hS, h⟩ := Run.exists_of_returns h
  obtain ⟨st₂, h2, hlog, hfreed, hnot, hnot'⟩ := Run.exists_of_returns h
  simp only at hr hraw h1 hS h2 hlog
  subst hr hS
  exact ⟨st₀, st₁, st₂, h0, hraw, h1, h2, hlog, hfreed, hnot, hnot'⟩

theorem pagesFreed_append (a b : List ObEvent) :
    pagesFreed (a ++ b) = pagesFreed a ++ pagesFreed b := by
  simp [pagesFreed, List.filterMap_append]

theorem pagesFreed_dtors (stack : List Nat) : pagesFreed (stack.map .dtor) = [] := by
  simp [pagesFreed, List.filterMap_map, List.filterMap_eq_nil_iff]

theorem pagesFreed_destruct (stack : List Nat) :
    pagesFreed (ObDestroySlab.destruct stack) = [] := by
  rw [destruct_eq_map, pagesFreed_dtors]

theorem pagesFreed_destroy (D : SlabDecls) (dtor rawSize E : Nat) (slE : Slab) :
    pagesFreed (ObDestroySlab.calls D dtor rawSize E slE)
      = [ObDestroySlab.pageAddress D rawSize E] := by
  unfold ObDestroySlab.calls
  rw [pagesFreed_append]
  by_cases hd : dtor = 0
  · simp [hd, pagesFreed]
  · simp only [hd, ne_eq, not_false_eq_true, if_true, pagesFreed_destruct]
    simp [pagesFreed]

/-- `ObDestroySlab` on the slab whose header ends the page-aligned page `P`,
for pages of `KPGSIZE = 2 ^ KPGOFFSET` bytes.  It calls the destructor, if the
type has one, on the buffers of the free stack down to the first `NULL`, and
then `GetFrames`, `EnsureFaulty` and `KiPagesFree` with one page address, and
`KeFrameFree` with the frame of that page: the page `P` of the slab when
`rawSize ≤ KPGSIZE / 8`, and the address 0 when `rawSize > KPGSIZE / 8`. -/
theorem ObDestroySlab_page (D : SlabDecls) (st : ObState) (metaInfo P : Nat)
    (info : ObjectInfo) (slab : Slab)
    (hinfo : st.types metaInfo = some info)
    (hslab : st.slabs (P + D.KPGSIZE - D.sizeofSlab) = some slab)
    (hpow : D.KPGSIZE = 2 ^ D.KPGOFFSET) (hoff : D.KPGOFFSET < 32)
    (hP : P % D.KPGSIZE = 0) (hhdr : 0 < D.sizeofSlab) (hfit : D.sizeofSlab ≤ D.KPGSIZE)
    (hword : P + D.KPGSIZE ≤ ULONG_MOD) :
    ∃ st', ObDestroySlab D st (P + D.KPGSIZE - D.sizeofSlab) metaInfo = .ret st' ∧
      st'.obLog = st.obLog ++
        ((if info.dtor ≠ 0 then ObDestroySlab.destruct slab.bufferStack else []) ++
          [.GetFrames (if info.rawSize ≤ D.KPGSIZE / 8 then P else 0) 1,
            .KeFrameFree
              (D.FRADDRESS (D.GetFrames (if info.rawSize ≤ D.KPGSIZE / 8 then P else 0) 1)),
            .EnsureFaulty (if info.rawSize ≤ D.KPGSIZE / 8 then P else 0),
            .KiPagesFree (if info.rawSize ≤ D.KPGSIZE / 8 then P else 0)]) ∧
      pagesFreed st'.obLog = pagesFreed st.obLog ++
        [if info.rawSize ≤ D.KPGSIZE / 8 then P else 0] ∧
      st'.types = st.types ∧ st'.slabs = st.slabs ∧ st'.tList = st.tList := by
  have hpg : ObDestroySlab.pageAddress D info.rawSize (P + D.KPGSIZE - D.sizeofSlab)
      = if info.rawSize ≤ D.KPGSIZE / 8 then P else 0 := by
    by_cases hs : info.rawSize ≤ D.KPGSIZE / 8
    · rw [if_pos hs]
      exact pageAddress_of_small D info.rawSize P hs hpow hoff hP hhdr hfit hword
    · rw [if_neg hs]
      unfold ObDestroySlab.pageAddress
      rw [if_neg hs]
  refine ⟨_, ObDestroySlab_eq D st _ metaInfo info slab hinfo hslab, ?_, ?_, rfl, rfl, rfl⟩
  · simp only [emit_obLog, ObDestroySlab.calls, hpg]
  · simp only [emit_obLog, pagesFreed_append, pagesFreed_destroy, hpg]

/-- An instance of `ObDestroySlab_page`: the empty slab on the page at 4194304
of a type of 500 bytes is destroyed, and the page at 4194304 is released. -/
theorem ObDestroySlab_page_witness :
    ∃ st', ObDestroySlab ia32Decls cacheWithEmptySlab
        (4194304 + ia32Decls.KPGSIZE - ia32Decls.sizeofSlab) 2101088 = .ret st' ∧
      st'.obLog = cacheWithEmptySlab.obLog ++
        ((if 0 ≠ 0 then
            ObDestroySlab.destruct
              [4197804, 4197304, 4196804, 4196304, 4195804, 4195304, 4194804, 4194304]
          else []) ++
          [.GetFrames (if 500 ≤ ia32Decls.KPGSIZE / 8 then 4194304 else 0) 1,
            .KeFrameFree (ia32Decls.FRADDRESS
              (ia32Decls.GetFrames (if 500 ≤ ia32Decls.KPGSIZE / 8 then 4194304 else 0) 1)),
            .EnsureFaulty (if 500 ≤ ia32Decls.KPGSIZE / 8 then 4194304 else 0),
            .KiPagesFree (if 500 ≤ ia32Decls.KPGSIZE / 8 then 4194304 else 0)]) ∧
      pagesFreed st'.obLog = pagesFreed cacheWithEmptySlab.obLog ++
        [if 500 ≤ ia32Decls.KPGSIZE / 8 then 4194304 else 0] ∧
      st'.types = cacheWithEmptySlab.types ∧ st'.slabs = cacheWithEmptySlab.slabs ∧
      st'.tList = cacheWithEmptySlab.tList :=
  ObDestroySlab_page ia32Decls cacheWithEmptySlab 2101088 4194304
    { name := 7, rawSize := 500, colorScheme := 0, align := 4, bufferSize := 500,
      bufferPerSlab := 8, bufferMargin := 64, ctor := 0, dtor := 0, callCount := 0,
      emptySlab := 4198368, partialList := ⟨[3149792]⟩, fullList := ⟨[]⟩, lock := false }
    { colouringOffset := 0
      bufferStack := [4197804, 4197304, 4196804, 4196304, 4195804, 4195304, 4194804, 4194304]
      freeCount := 8 }
    rfl (by decide) (by decide) (by decide) (by decide) (by decide) (by decide) (by decide)

/-! ## The cache lock and the request of a page -/

theorem pageRequestsHeld_ctors (h : Nat) (held : Bool) (tail : List ObEvent) :
    ∀ objects : List Nat,
      pageRequestsHeld h held (objects.map .ctor ++ tail) = pageRequestsHeld h held tail := by
  intro objects
  induction objects with
  | nil => rfl
  | cons a rest ih =>
    simpa [pageRequestsHeld] using ih

theorem ctorCalls_eq_map (page bs k : Nat) :
    ctorCalls page bs k = ((List.range k).map (fun i => page + i * bs)).map .ctor := by
  simp [ctorCalls, List.map_map, Function.comp]

theorem pageRequestsHeld_fresh (D : SlabDecls) (n : Bool) (h kmSleep page ctor bs : Nat) :
    pageRequestsHeld h false
      ([.cli, .SpinLock h] ++ ObCreateSlab.calls D n h kmSleep page ctor bs ++
        [.SpinUnlock h] ++ if n then [.sti] else []) = 1 := by
  have hc : ∀ tail : List ObEvent,
      pageRequestsHeld h true
        ((if ctor ≠ 0 then ctorCalls page bs (ObCreateSlab.turns D bs) else []) ++ tail)
        = pageRequestsHeld h true tail := by
    intro tail
    by_cases hz : ctor = 0
    · simp [hz]
    · simp only [hz, ne_eq, not_false_eq_true, if_true, ctorCalls_eq_map]
      exact pageRequestsHeld_ctors h true tail _
  have hstart : ∀ tail : List ObEvent,
      pageRequestsHeld h false
        ([.cli, .SpinLock h,
          .KiPagesAllocate (ObCreateSlab.slFlags D n kmSleep) page,
          .EnsureUsability page (ObCreateSlab.slFlags D n kmSleep), .memsetf page] ++ tail)
        = 1 + pageRequestsHeld h true tail := by
    intro tail
    simp [pageRequestsHeld]
  have hend : pageRequestsHeld h true
      ([.HashCode page h, .SpinUnlock h] ++ if n then [ObEvent.sti] else []) = 0 := by
    cases n <;> simp [pageRequestsHeld]
  have hshape : [.cli, .SpinLock h] ++ ObCreateSlab.calls D n h kmSleep page ctor bs ++
        [.SpinUnlock h] ++ (if n then [ObEvent.sti] else [])
      = [.cli, .SpinLock h,
          .KiPagesAllocate (ObCreateSlab.slFlags D n kmSleep) page,
          .EnsureUsability page (ObCreateSlab.slFlags D n kmSleep), .memsetf page] ++
        ((if ctor ≠ 0 then ctorCalls page bs (ObCreateSlab.turns D bs) else []) ++
          ([.HashCode page h, .SpinUnlock h] ++ if n then [ObEvent.sti] else [])) := by
    simp only [ObCreateSlab.calls, List.append_assoc, List.cons_append, List.nil_append]
  rw [hshape, hstart, hc, hend]

set_option maxRecDepth 100000 in
set_option synthInstance.maxSize 1024 in
/-- C33 (counterexample): a type of 508 bytes whose cache has no slab.  The
calls of `KNew` are, in order: `__cli`, `SpinLock` of the cache lock,
`KiPagesAllocate`, `EnsureUsability`, `memsetf`, `HashCode`, `SpinUnlock` of
the cache lock.  The page is requested between the acquisition and the release
of the cache lock. -/
theorem KNew_requests_page_under_lock :
    ∃ st₀ st₁ object, typeCreated 508 4 = .ret (2101088, st₀) ∧
      KNew ia32Decls st₀ 2101088 0 3145728 64 = .ret (object, st₁) ∧
      st₁.obLog = st₀.obLog ++
        [.cli, .SpinLock 2101088, .KiPagesAllocate 25 3145728, .EnsureUsability 3145728 25,
          .memsetf 3145728, .HashCode 3145728 2101088, .SpinUnlock 2101088] ∧
      pageRequestsHeld 2101088 false
        [.cli, .SpinLock 2101088, .KiPagesAllocate 25 3145728, .EnsureUsability 3145728 25,
          .memsetf 3145728, .HashCode 3145728 2101088, .SpinUnlock 2101088] = 1 := by
  have h : (typeCreated 508 4).Returns (fun x =>
      x.1 = 2101088 ∧
      (KNew ia32Decls x.2 2101088 0 3145728 64).Returns (fun y =>
        y.2.obLog = x.2.obLog ++
          [.cli, .SpinLock 2101088, .KiPagesAllocate 25 3145728, .EnsureUsability 3145728 25,
            .memsetf 3145728, .HashCode 3145728 2101088, .SpinUnlock 2101088])) := by
    decide
  obtain ⟨⟨r, st₀⟩, h0, hr, h⟩ := Run.exists_of_returns h
  obtain ⟨⟨object, st₁⟩, h1, hlog⟩ := Run.exists_of_returns h
  simp only at hr h1 hlog
  subst hr
  exact ⟨st₀, st₁, object, h0, h1, hlog, by decide⟩

/-- C33 (amended): the calls of `KNew` on a cache whose lock is free.  A `KNew`
that constructs a slab calls `__cli`, takes the cache lock, makes the calls of
`ObCreateSlab`, the first of which is the request of the page, releases the
cache lock, and calls `__sti` in normal use: it makes one request of a page,
and makes it while the cache lock is held.  A `KNew` served from the head of
the partial list or from the cached empty slab requests no page. -/
theorem KNew_page_request_held (D : SlabDecls) (st : ObState) (h : Nat)
    (info : ObjectInfo)
    (hinfo : st.types h = some info) (hfree : info.lock = false) :
    (∀ (kmSleep page fuel : Nat),
      info.partialList.nodes = [] → info.emptySlab = 0 →
      0 < info.bufferSize → info.bufferSize ≤ D.KPGSIZE - D.sizeofSlab →
      page + D.KPGSIZE < ULONG_MOD → ObCreateSlab.turns D info.bufferSize < fuel →
      ∃ object st' es, KNew D st h kmSleep page fuel = .ret (object, st') ∧
        st'.obLog = st.obLog ++ es ∧
        es = [.cli, .SpinLock h,
            .KiPagesAllocate (ObCreateSlab.slFlags D st.oballocNormaleUse kmSleep) page,
            .EnsureUsability page (ObCreateSlab.slFlags D st.oballocNormaleUse kmSleep),
            .memsetf page] ++
          (if info.ctor ≠ 0 then
            ctorCalls page info.bufferSize (ObCreateSlab.turns D info.bufferSize)
          else []) ++
          [.HashCode page h, .SpinUnlock h] ++
          (if st.oballocNormaleUse then [.sti] else []) ∧
        pageRequests es = 1 ∧ pageRequestsHeld h false es = 1) ∧
    (∀ (kmSleep page fuel S : Nat) (rest : List Nat) (sl : Slab),
      info.partialList.nodes = S :: rest → S ≠ 0 → st.slabs S = some sl →
      ∃ object st', KNew D st h kmSleep page fuel = .ret (object, st') ∧
        st'.obLog = st.obLog ++ ([.cli, .SpinLock h, .SpinUnlock h] ++
          if st.oballocNormaleUse then [.sti] else []) ∧
        pageRequests st'.obLog = pageRequests st.obLog) ∧
    (∀ (kmSleep page fuel : Nat) (sl : Slab),
      info.partialList.nodes = [] → info.emptySlab ≠ 0 →
      st.slabs info.emptySlab = some sl →
      ∃ object st', KNew D st h kmSleep page fuel = .ret (object, st') ∧
        st'.obLog = st.obLog ++ ([.cli, .SpinLock h, .SpinUnlock h] ++
          if st.oballocNormaleUse then [.sti] else []) ∧
        pageRequests st'.obLog = pageRequests st.obLog) := by
  have hframe : ∀ n : Bool, pageRequests ([.cli, .SpinLock h, .SpinUnlock h] ++
      if n then [ObEvent.sti] else []) = 0 := by
    intro n
    cases n <;> rfl
  refine ⟨?_, ?_, ?_⟩
  · intro kmSleep page fuel hpart hE hbs hfit hword hfuel
    have hheld := pageRequestsHeld_fresh D st.oballocNormaleUse h kmSleep page info.ctor
      info.bufferSize
    have hreq : pageRequests ([.cli, .SpinLock h] ++
        ObCreateSlab.calls D st.oballocNormaleUse h kmSleep page info.ctor info.bufferSize ++
        [.SpinUnlock h] ++ if st.oballocNormaleUse then [.sti] else []) = 1 := by
      have hc := pageRequests_calls D st.oballocNormaleUse h kmSleep page info.ctor
        info.bufferSize
      unfold pageRequests at hc ⊢
      cases hn : st.oballocNormaleUse <;>
        simp [hn] at hc ⊢ <;>
        simp [List.countP_append, List.countP_cons, ObEvent.isPageRequest, hc]
    have hes : [.cli, .SpinLock h] ++
        ObCreateSlab.calls D st.oballocNormaleUse h kmSleep page info.ctor info.bufferSize ++
        [.SpinUnlock h] ++ (if st.oballocNormaleUse then [ObEvent.sti] else [])
        = [.cli, .SpinLock h,
            .KiPagesAllocate (ObCreateSlab.slFlags D st.oballocNormaleUse kmSleep) page,
            .EnsureUsability page (ObCreateSlab.slFlags D st.oballocNormaleUse kmSleep),
            .memsetf page] ++
          (if info.ctor ≠ 0 then
            ctorCalls page info.bufferSize (ObCreateSlab.turns D info.bufferSize)
          else []) ++
          [.HashCode page h, .SpinUnlock h] ++
          (if st.oballocNormaleUse then [.sti] else []) := by
      simp [ObCreateSlab.calls, List.append_assoc]
    exact ⟨_, _, _, KNew_construct D st h kmSleep page fuel info hinfo hfree hpart hE hbs hfit
      hword hfuel, canonical_obLog _ _ _ _ _ _, hes, hreq, hheld⟩
  · intro kmSleep page fuel S rest sl hpart hS hsl
    refine ⟨_, _, KNew_head D st h kmSleep page fuel S rest info sl hinfo hfree hpart hS hsl,
      canonical_obLog _ _ _ _ _ _, ?_⟩
    rw [canonical_obLog]
    unfold pageRequests
    rw [List.countP_append]
    exact (congrArg _ (hframe st.oballocNormaleUse)).trans (Nat.add_zero _)
  · intro kmSleep page fuel sl hpart hE hsl
    refine ⟨_, _, KNew_promote D st h kmSleep page fuel info sl hinfo hfree hpart hE hsl,
      canonical_obLog _ _ _ _ _ _, ?_⟩
    rw [canonical_obLog]
    unfold pageRequests
    rw [List.countP_append]
    exact (congrArg _ (hframe st.oballocNormaleUse)).trans (Nat.add_zero _)

/-- Witness of C33 (amended): `KNew` on a cache without slab requests the
page at 3145728 while the cache lock is held. -/
theorem KNew_page_request_held_witness :
    ∃ object st' es, KNew ia32Decls cacheWithoutSlab 2101088 0 3145728 64
        = .ret (object, st') ∧
      st'.obLog = cacheWithoutSlab.obLog ++ es ∧
      es = [.cli, .SpinLock 2101088,
          .KiPagesAllocate
            (ObCreateSlab.slFlags ia32Decls cacheWithoutSlab.oballocNormaleUse 0) 3145728,
          .EnsureUsability 3145728
            (ObCreateSlab.slFlags ia32Decls cacheWithoutSlab.oballocNormaleUse 0),
          .memsetf 3145728] ++
        (if 0 ≠ 0 then ctorCalls 3145728 500 (ObCreateSlab.turns ia32Decls 500) else []) ++
        [.HashCode 3145728 2101088, .SpinUnlock 2101088] ++
        (if cacheWithoutSlab.oballocNormaleUse then [.sti] else []) ∧
      pageRequests es = 1 ∧ pageRequestsHeld 2101088 false es = 1 :=
  (KNew_page_request_held ia32Decls cacheWithoutSlab 2101088
    { name := 7, rawSize := 500, colorScheme := 0, align := 4, bufferSize := 500,
      bufferPerSlab := 8, bufferMargin := 64, ctor := 0, dtor := 0, callCount := 0,
      emptySlab := 0, partialList := ⟨[]⟩, fullList := ⟨[]⟩, lock := false }
    rfl rfl).1 0 3145728 64 rfl rfl (by decide) (by decide) (by decide) (by decide)

/-! ## The buffers of a slab and its header -/

/-- The loop of `ObCreateSlab` never takes a buffer off the stack. -/
theorem fill_keeps (bs fence : Nat) (construct : Bool) :
    ∀ (fuel obPtr : Nat) (stack : List Nat) (calls : List ObEvent)
      (r : List Nat × List ObEvent),
      ObCreateSlab.fill bs fence construct fuel obPtr stack calls = some r →
      ∀ b ∈ stack, b ∈ r.1 := by
  intro fuel
  induction fuel with
  | zero => intro obPtr stack calls r h; simp [ObCreateSlab.fill] at h
  | succ n ih =>
    intro obPtr stack calls r h b hb
    rw [ObCreateSlab.fill] at h
    by_cases hlt : obPtr < fence
    · rw [if_pos hlt] at h
      exact ih _ _ _ r h b (List.mem_cons_of_mem obPtr hb)
    · rw [if_neg hlt] at h
      cases h
      exact hb

/-- When the page is below the fence, the loop of `ObCreateSlab` pushes the
buffer that starts at the page, whatever the buffer size. -/
theorem fill_pushes_page (bs fence : Nat) (construct : Bool) (fuel page : Nat)
    (r : List Nat × List ObEvent) (hlt : page < fence)
    (h : ObCreateSlab.fill bs fence construct fuel page [] [] = some r) :
    page ∈ r.1 := by
  cases fuel with
  | zero => simp [ObCreateSlab.fill] at h
  | succ n =>
    rw [ObCreateSlab.fill, if_pos hlt] at h
    exact fill_keeps bs fence construct n _ _ _ r h page (List.mem_cons_self _ _)

set_option maxRecDepth 100000 in
set_option synthInstance.maxSize 1024 in
/-- Where the fence wraps round: a type whose buffers are larger than the
page address and the room below the header together, of 4294963200 bytes,
and the page at 4096.  The fence
`pageAddress + (KPGSIZE - sizeof(Slab)) - bufferSize` wraps round to 12256,
above the page, and `ObCreateSlab` pushes the buffers at 4096 and at 0: the
buffer at 0 is below the page, the buffer at 4096 ends beyond the header at
8160, and the two are less than a buffer size apart. -/
theorem ObCreateSlab_fence_wraps :
    ∃ st₀ st₁, typeCreated 4294963200 4 = .ret (2101088, st₀) ∧
      (st₀.types 2101088).map (fun i => i.bufferSize) = some 4294963200 ∧
      usub (uadd 4096 (usub 4096 32)) 4294963200 = 12256 ∧
      ObCreateSlab ia32Decls st₀ 2101088 0 4096 64 = .ret (4096 + 4096 - 32, st₁) ∧
      (st₁.slabs (4096 + 4096 - 32)).map (fun s => s.bufferStack) = some [0, 4096] ∧
      ¬ (4096 ≤ 0) ∧
      ¬ (4096 + 4294963200 ≤ 4096 + 4096 - 32) ∧
      ¬ (0 + 4294963200 ≤ 4096 ∨ 4096 + 4294963200 ≤ 0) := by
  have h : (typeCreated 4294963200 4).Returns (fun x =>
      x.1 = 2101088 ∧
      (x.2.types 2101088).map (fun i => i.bufferSize) = some 4294963200 ∧
      (ObCreateSlab ia32Decls x.2 2101088 0 4096 64).Returns (fun y =>
        y.1 = 4096 + 4096 - 32 ∧
        (y.2.slabs (4096 + 4096 - 32)).map (fun s => s.bufferStack) = some [0, 4096])) := by
    decide
  obtain ⟨⟨r, st₀⟩, h0, hr, hbs, h⟩ := Run.exists_of_returns h
  obtain ⟨⟨S, st₁⟩, h1, hS, hstack⟩ := Run.exists_of_returns h
  simp only at hr hbs h1 hS hstack
  subst hr hS
  exact ⟨st₀, st₁, h0, hbs, by decide, h1, hstack, by decide, by decide, by decide⟩

/-- The buffers `ObCreateSlab` pushes on the free stack of the slab it
builds on a page `P` inside the address space, for every buffer size from 1
for which the fence `pageAddress + (KPGSIZE - sizeof(Slab)) - bufferSize` does
not wrap round, that is `bufferSize ≤ P + (KPGSIZE - sizeof(Slab))`.  The call
returns the header at `P + KPGSIZE - sizeof(Slab)`; the buffers pushed are the
first `(KPGSIZE - sizeof(Slab) - 1) / bufferSize` buffers from `P`, none when
the buffer size is the room below the header or more; each of them starts at
`P` or above and ends at the header or below, and two distinct ones are at
least a buffer size apart. -/
theorem ObCreateSlab_buffers_apart (D : SlabDecls) (st : ObState)
    (metaInfo kmSleep P fuel : Nat) (info : ObjectInfo)
    (hinfo : st.types metaInfo = some info)
    (hbs : 1 ≤ info.bufferSize)
    (hnowrap : info.bufferSize ≤ P + (D.KPGSIZE - D.sizeofSlab))
    (hhdr : 0 < D.sizeofSlab) (hroom : D.sizeofSlab < D.KPGSIZE)
    (hword : P + D.KPGSIZE ≤ ULONG_MOD)
    (hfuel : ObCreateSlab.turns D info.bufferSize < fuel) :
    ∃ st' sl, ObCreateSlab D st metaInfo kmSleep P fuel
        = .ret (P + D.KPGSIZE - D.sizeofSlab, st') ∧
      st'.slabs (P + D.KPGSIZE - D.sizeofSlab) = some sl ∧
      sl.bufferStack = slabBuffers P info.bufferSize (ObCreateSlab.turns D info.bufferSize) ∧
      ∀ b ∈ sl.bufferStack,
        P ≤ b ∧ b + info.bufferSize ≤ P + D.KPGSIZE - D.sizeofSlab ∧
        ∀ c ∈ sl.bufferStack, c ≠ b → b + info.bufferSize ≤ c ∨ c + info.bufferSize ≤ b := by
  refine ⟨_, _, ObCreateSlab_no_wrap D st metaInfo kmSleep P fuel info hinfo hbs hnowrap hhdr
    hroom hword hfuel, canonical_slabs_only _ _ _ _, rfl, ?_⟩
  intro b hb
  obtain ⟨h1, h2, h3⟩ := slabBuffers_inside D P info.bufferSize b hb
  exact ⟨h1, by omega, h3⟩

/-- An instance of `ObCreateSlab_buffers_apart`: the slab for objects of 500
bytes built on the page at 4194304. -/
theorem ObCreateSlab_buffers_apart_witness :
    ∃ st' sl, ObCreateSlab ia32Decls cacheWithSlab 2101088 0 4194304 64
        = .ret (4194304 + ia32Decls.KPGSIZE - ia32Decls.sizeofSlab, st') ∧
      st'.slabs (4194304 + ia32Decls.KPGSIZE - ia32Decls.sizeofSlab) = some sl ∧
      sl.bufferStack = slabBuffers 4194304 500 (ObCreateSlab.turns ia32Decls 500) ∧
      ∀ b ∈ sl.bufferStack,
        4194304 ≤ b ∧ b + 500 ≤ 4194304 + ia32Decls.KPGSIZE - ia32Decls.sizeofSlab ∧
        ∀ c ∈ sl.bufferStack, c ≠ b → b + 500 ≤ c ∨ c + 500 ≤ b :=
  ObCreateSlab_buffers_apart ia32Decls cacheWithSlab 2101088 0 4194304 64
    { name := 7, rawSize := 500, colorScheme := 0, align := 4, bufferSize := 500,
      bufferPerSlab := 8, bufferMargin := 64, ctor := 0, dtor := 0, callCount := 0,
      emptySlab := 0, partialList := ⟨[3149792]⟩, fullList := ⟨[]⟩, lock := false }
    rfl (by decide) (by decide) (by decide) (by decide) (by decide) (by decide)

/-- The slab of `ObCreateSlab` when its loop ends within the fuel, whatever
the page and the buffer size: the header is at `pageAddress + KPGSIZE -
sizeof(Slab)` and the free stack is the one the loop leaves. -/
theorem ObCreateSlab_of_fill (D : SlabDecls) (st : ObState)
    (metaInfo kmSleep page fuel : Nat) (info : ObjectInfo)
    (stack : List Nat) (calls : List ObEvent)
    (hinfo : st.types metaInfo = some info)
    (hfill : ObCreateSlab.fill info.bufferSize
      (usub (uadd page (usub D.KPGSIZE D.sizeofSlab)) info.bufferSize) (info.ctor != 0)
      fuel page [] [] = some (stack, calls)) :
    ∃ st', ObCreateSlab D st metaInfo kmSleep page fuel
        = .ret (usub (uadd page D.KPGSIZE) D.sizeofSlab, st') ∧
      st'.slabs (usub (uadd page D.KPGSIZE) D.sizeofSlab) = some
        { colouringOffset := info.colorScheme, bufferStack := stack,
          freeCount := info.bufferPerSlab } := by
  have hrun : (ObCreateSlab D st metaInfo kmSleep page fuel).Returns (fun x =>
      x.1 = usub (uadd page D.KPGSIZE) D.sizeofSlab ∧
      x.2.slabs (usub (uadd page D.KPGSIZE) D.sizeofSlab) = some
        { colouringOffset := info.colorScheme, bufferStack := stack,
          freeCount := info.bufferPerSlab }) := by
    simp only [ObCreateSlab, hinfo, hfill, Run.Returns]
    simp
  obtain ⟨⟨a, st'⟩, h1, ha, hsl⟩ := Run.exists_of_returns hrun
  simp only at ha hsl
  subst ha
  exact ⟨st', h1, hsl⟩

set_option maxRecDepth 100000 in
/-- C34: a type of 4092 bytes, more than the room of 4064 bytes below the
header, whose slab is built while the page-frame manager has no page:
`ObCreateSlab` takes the address 0 for the page.  The fence
`pageAddress + (KPGSIZE - sizeof(Slab)) - bufferSize` wraps round to
4294967268, and the loop pushes the 1049601 buffers at 0, 4092, 8184, ... up
to 4294963200 before it ends.  The buffer at 0 ends beyond the header at 4064,
and the buffer at 4092, like all that follow, starts beyond it. -/
theorem ObCreateSlab_buffers_beyond_header :
    ∃ st₀ st₁ sl, typeCreated 4092 4 = .ret (2101088, st₀) ∧
      (st₀.types 2101088).map (fun i => (i.bufferSize, i.bufferPerSlab)) = some (4092, 0) ∧
      usub (uadd 0 (usub ia32Decls.KPGSIZE ia32Decls.sizeofSlab)) 4092 = 4294967268 ∧
      ObCreateSlab ia32Decls st₀ 2101088 0 0 1049602 = .ret (4064, st₁) ∧
      st₁.slabs 4064 = some sl ∧
      sl.bufferStack = slabBuffers 0 4092 1049601 ∧
      0 ∈ sl.bufferStack ∧ 4092 ∈ sl.bufferStack ∧ 4294963200 ∈ sl.bufferStack ∧
      ¬ (0 + 4092 ≤ 0 + 4096 - 32) ∧
      ¬ (4092 + 4092 ≤ 0 + 4096 - 32) ∧
      0 + 4096 - 32 ≤ 4092 := by
  have h : (typeCreated 4092 4).Returns (fun x =>
      x.1 = 2101088 ∧
      x.2.types 2101088 = some
        { name := 7, rawSize := 4092, colorScheme := 0, align := 4, bufferSize := 4092,
          bufferPerSlab := 0, bufferMargin := 4064, ctor := 0, dtor := 0, callCount := 0,
          emptySlab := 0, partialList := ⟨[]⟩, fullList := ⟨[]⟩, lock := false }) := by
    decide
  obtain ⟨⟨r, st₀⟩, h0, hr, hty⟩ := Run.exists_of_returns h
  simp only at hr hty
  subst hr
  have hfence : usub (uadd 0 (usub ia32Decls.KPGSIZE ia32Decls.sizeofSlab)) 4092
      = 4294967268 := by decide
  have hfill := fill_spec 4092 4294967268 false 1049601 1049602 0 [] [] (by decide)
    (by decide) (fun i hi => by omega) (by decide)
  simp only [List.append_nil, Bool.false_eq_true, if_false] at hfill
  obtain ⟨st₁, hrun, hsl⟩ := ObCreateSlab_of_fill ia32Decls st₀ 2101088 0 0 1049602 _
    (slabBuffers 0 4092 1049601) [] hty (by rw [hfence]; exact hfill)
  have hS : usub (uadd 0 ia32Decls.KPGSIZE) ia32Decls.sizeofSlab = 4064 := by decide
  rw [hS] at hrun hsl
  refine ⟨st₀, st₁, _, h0, by rw [hty]; rfl, hfence, hrun, hsl, rfl, ?_, ?_, ?_,
    by decide, by decide, by decide⟩
  · exact (mem_slabBuffers 0 4092 1049601 0).mpr ⟨0, by decide, by decide⟩
  · exact (mem_slabBuffers 0 4092 1049601 4092).mpr ⟨1, by decide, by decide⟩
  · exact (mem_slabBuffers 0 4092 1049601 4294963200).mpr ⟨1049600, by decide, by decide⟩

/-! ## `KNew` followed by `KDelete` -/

theorem Run.eq_fault_of_isFault {α : Type} {r : Run α} (h : r.isFault = true) :
    r = .fault := by
  cases r <;> simp [Run.isFault] at h ⊢

theorem uadd_usub_one {c : Nat} (h1 : 1 ≤ c) (hw : c < ULONG_MOD) :
    uadd (usub c 1) 1 = c := by
  rw [usub_one h1 hw]
  unfold uadd
  rw [Nat.sub_add_cancel h1, Nat.mod_eq_of_lt hw]

/-- `KNew` served from the head `S` of the partial list, followed by `KDelete`
of the object returned: when the free stack of `S` is not empty, its top is a
buffer of `S`, and `S` is not a slab of the partial list with all its buffers
free (unless `bufferPerSlab` is 1), the two calls give back the `ObjectInfo`
and every slab as they were, and release no page. -/
theorem KNew_KDelete_restores (D : SlabDecls) (st : ObState) (h kmSleep page fuel S : Nat)
    (rest : List Nat) (info : ObjectInfo) (sl : Slab) (top : Nat) (more : List Nat)
    (hinfo : st.types h = some info) (hfree : info.lock = false)
    (hpart : info.partialList.nodes = S :: rest)
    (hS : S ≠ 0) (hsl : st.slabs S = some sl)
    (hstack : sl.bufferStack = top :: more)
    (hc1 : 1 ≤ sl.freeCount) (hcw : sl.freeCount < ULONG_MOD)
    (hown : KDelete.slab D top = S)
    (hnot : sl.freeCount = 1 ∨ sl.freeCount ≠ info.bufferPerSlab) :
    ∃ st₁ st₂, KNew D st h kmSleep page fuel = .ret (top, st₁) ∧
      KDelete D st₁ top h = .ret st₂ ∧
      st₂.types h = some info ∧ st₂.slabs S = some sl ∧
      (∀ x, x ≠ S → st₂.slabs x = st.slabs x) ∧
      (∀ x, x ≠ h → st₂.types x = st.types x) ∧
      st₂.tList = st.tList ∧
      pagesFreed st₂.obLog = pagesFreed st.obLog ∧
      pageRequests st₂.obLog = pageRequests st.obLog := by
  have hnew := KNew_head D st h kmSleep page fuel S rest info sl hinfo hfree hpart hS hsl
  rw [hstack, PopElement_cons] at hnew
  have hback : uadd (usub sl.freeCount 1) 1 = sl.freeCount := uadd_usub_one hc1 hcw
  have hslEq : (⟨sl.colouringOffset, top :: more, sl.freeCount⟩ : Slab) = sl := by
    cases sl
    simp only at hstack
    subst hstack
    rfl
  have hlistEq : (⟨S :: rest⟩ : CircularList) = info.partialList := by
    cases hp : info.partialList
    simp only [hp] at hpart
    rw [hpart]
  have hframeF : ∀ n : Bool, pagesFreed ([.cli, .SpinLock h, .SpinUnlock h] ++
      if n then [ObEvent.sti] else []) = [] := by
    intro n; cases n <;> rfl
  have hframeR : ∀ n : Bool, pageRequests ([.cli, .SpinLock h, .SpinUnlock h] ++
      if n then [ObEvent.sti] else []) = 0 := by
    intro n; cases n <;> rfl
  by_cases hz : usub sl.freeCount 1 = 0
  · have hone : sl.freeCount = 1 := by
      rw [usub_one hc1 hcw] at hz
      omega
    rw [if_pos hz] at hnew
    have hdel := KDelete_from_full D
      (((st.setType h { info with
            partialList := RemoveCElement S info.partialList
            fullList := AddCElement S .CFIRST info.fullList }).setSlab S
          { sl with bufferStack := more, freeCount := usub sl.freeCount 1 }).emit
        ([.cli, .SpinLock h, .SpinUnlock h] ++ if st.oballocNormaleUse then [.sti] else []))
      top h
      { info with
        partialList := RemoveCElement S info.partialList
        fullList := AddCElement S .CFIRST info.fullList }
      { sl with bufferStack := more, freeCount := usub sl.freeCount 1 }
      (canonical_types st h _ S _ _) hfree
      (by rw [hown]; exact canonical_slabs st h _ S _ _)
      (by show uadd (usub sl.freeCount 1) 1 = 1; rw [hback]; exact hone)
    refine ⟨_, _, hnew, hdel, ?_, ?_, ?_, ?_, ?_, ?_, ?_⟩
    · rw [canonical_types]
      simp only [hown, RemoveCElement, AddCElement, List.erase_cons_head, hpart, hlistEq]
    · rw [hown, canonical_slabs]
      simp only [PushElement, hback, hslEq]
    · intro x hx
      simp [hown, setSlab_slabs_ne _ _ _ _ hx]
    · intro x hx
      simp [setType_types_ne _ _ _ _ hx]
    · simp
    · simp only [canonical_obLog, pagesFreed_append, hframeF, List.append_nil, emit_normal,
        setSlab_normal, setType_normal]
    · have hR := hframeR st.oballocNormaleUse
      simp only [canonical_obLog, emit_normal, setSlab_normal, setType_normal]
      unfold pageRequests at hR ⊢
      rw [List.countP_append, List.countP_append, hR]
      rfl
  · have hne1 : sl.freeCount ≠ 1 := by
      rw [usub_one hc1 hcw] at hz
      omega
    have hnb : sl.freeCount ≠ info.bufferPerSlab := by
      rcases hnot with h1 | h1
      · exact absurd h1 hne1
      · exact h1
    rw [if_neg hz] at hnew
    have hdel := KDelete_other D
      (((st.setType h info).setSlab S
          { sl with bufferStack := more, freeCount := usub sl.freeCount 1 }).emit
        ([.cli, .SpinLock h, .SpinUnlock h] ++ if st.oballocNormaleUse then [.sti] else []))
      top h info
      { sl with bufferStack := more, freeCount := usub sl.freeCount 1 }
      (canonical_types st h _ S _ _) hfree
      (by rw [hown]; exact canonical_slabs st h _ S _ _)
      (by show uadd (usub sl.freeCount 1) 1 ≠ 1; rw [hback]; exact hne1)
      (by show uadd (usub sl.freeCount 1) 1 ≠ info.bufferPerSlab; rw [hback]; exact hnb)
    refine ⟨_, _, hnew, hdel, ?_, ?_, ?_, ?_, ?_, ?_, ?_⟩
    · rw [canonical_types]
    · rw [hown, canonical_slabs]
      simp only [PushElement, hback, hslEq]
    · intro x hx
      simp [hown, setSlab_slabs_ne _ _ _ _ hx]
    · intro x hx
      simp [setType_types_ne _ _ _ _ hx]
    · simp
    · simp only [canonical_obLog, pagesFreed_append, hframeF, List.append_nil, emit_normal,
        setSlab_normal, setType_normal]
    · have hR := hframeR st.oballocNormaleUse
      simp only [canonical_obLog, emit_normal, setSlab_normal, setType_normal]
      unfold pageRequests at hR ⊢
      rw [List.countP_append, List.countP_append, hR]
      rfl

set_option maxRecDepth 100000 in
set_option synthInstance.maxSize 1024 in
/-- C35: a type of 508 bytes, 8 objects to a slab, after 7 calls of `KNew`:
the slab with the header at 3149792 is the only slab, it is in the partial
list, 7 of its objects are handed out and its `freeCount` is 1, so `freeCount`
plus the number of objects handed out is `bufferPerSlab`; its free stack is
empty.  `KNew` constructs no slab: it returns `NULL` and moves the slab to the
full list with `freeCount = 0`.  `KDelete` of the object returned, `NULL`,
computes the slab address 4064, which is no slab: a fault.  The state before
the two calls is not restored. -/
theorem KNew_KDelete_not_restored :
    ∃ st₀ st₁ st₂ objects, typeCreated 508 4 = .ret (2101088, st₀) ∧
      KNew.each ia32Decls 2101088 0 64 [3145728, 0, 0, 0, 0, 0, 0] st₀
        = .ret (objects, st₁) ∧
      (st₁.types 2101088).map
          (fun i => (i.bufferPerSlab, i.partialList.nodes, i.fullList.nodes, i.emptySlab))
        = some (8, [3149792], [], 0) ∧
      st₁.slabs 3149792 = some { colouringOffset := 0, bufferStack := [], freeCount := 1 } ∧
      1 + handedOut ia32Decls 3149792 objects = 8 ∧
      KNew ia32Decls st₁ 2101088 0 0 64 = .ret (0, st₂) ∧
      pageRequests st₂.obLog = pageRequests st₁.obLog ∧
      (st₂.types 2101088).map
          (fun i => (i.bufferPerSlab, i.partialList.nodes, i.fullList.nodes, i.emptySlab))
        = some (8, [], [3149792], 0) ∧
      st₂.slabs 3149792 = some { colouringOffset := 0, bufferStack := [], freeCount := 0 } ∧
      KDelete.slab ia32Decls 0 = 4064 ∧
      KDelete ia32Decls st₂ 0 2101088 = .fault := by
  have h : (typeCreated 508 4).Returns (fun x =>
      x.1 = 2101088 ∧
      (KNew.each ia32Decls 2101088 0 64 [3145728, 0, 0, 0, 0, 0, 0] x.2).Returns (fun y =>
        (y.2.types 2101088).map
            (fun i => (i.bufferPerSlab, i.partialList.nodes, i.fullList.nodes, i.emptySlab))
          = some (8, [3149792], [], 0) ∧
        y.2.slabs 3149792
          = some { colouringOffset := 0, bufferStack := [], freeCount := 1 } ∧
        1 + handedOut ia32Decls 3149792 y.1 = 8 ∧
        (KNew ia32Decls y.2 2101088 0 0 64).Returns (fun z =>
          z.1 = 0 ∧
          pageRequests z.2.obLog = pageRequests y.2.obLog ∧
          (z.2.types 2101088).map
              (fun i => (i.bufferPerSlab, i.partialList.nodes, i.fullList.nodes, i.emptySlab))
            = some (8, [], [3149792], 0) ∧
          z.2.slabs 3149792
            = some { colouringOffset := 0, bufferStack := [], freeCount := 0 } ∧
          (KDelete ia32Decls z.2 0 2101088).isFault = true))) := by
    decide
  obtain ⟨⟨r, st₀⟩, h0, hr, h⟩ := Run.exists_of_returns h
  obtain ⟨⟨objects, st₁⟩, h1, hty1, hsl1, hinv, h⟩ := Run.exists_of_returns h
  obtain ⟨⟨object, st₂⟩, h2, hobj, hreq, hty2, hsl2, hdel⟩ := Run.exists_of_returns h
  simp only at hr h1 hty1 hsl1 hinv h2 hobj hreq hty2 hsl2 hdel
  subst hr hobj
  exact ⟨st₀, st₁, st₂, objects, h0, h1, hty1, hsl1, hinv, h2, hreq, hty2, hsl2, by decide,
    Run.eq_fault_of_isFault hdel⟩

end Silcos
